import Mathlib

/-!
# Smart pointers

Shallow embeddings of the headers of the repository, one namespace per header:
`Weak` (the dual-count `SharedPtr` / `WeakPtr` pair, `src/weak`), `Shared` (the
single-counter `SharedPtr`, `src/shared`), `Unique` (`src/unique`), `Intrusive`
(`src/intrusive`) and `SelfRef` (the `SharedPtr` with `EnableSharedFromThis`,
`src/shared-from-this`).  The definitions of all namespaces come first, the lemmas and
theorems after them.  What follows describes the namespace `Weak`; the other namespaces are
built the same way and say where they differ.

* The free store is a list of control blocks; a `BaseBlock*` is `none` (`nullptr`) or
  `some a`, the index of the allocation.  A deleted block stays in the list with its
  `deletes` counter raised, and every later access through a pointer to it is a fault.
* Handles are objects with identity: they live in two tables of the program state and the
  member functions take `this` (and `other`) as indices into those tables, so that
  `a = a` really aliases.  A destroyed handle is a `none` entry.
* The `int` counters are unbounded integers: signed overflow is undefined behaviour and
  would need `2^31` simultaneous handles.  The conversion to `size_t` is modelled exactly.
* A value's own constructor and destructor are code of the client.  In the programs of `Op`
  they touch no handle; a value that holds handles, whose destructor destroys them, is
  treated by `ZeroStrongCount_running`, `SharedPtr.dtor_running` and
  `SharedPtr.Reset_running`, which take the destructor of the value as a parameter.
-/

namespace Weak

/-- A raw object address (`T*`); `0` is `nullptr`. -/
abbrev Ptr := Nat

/-- A control block address (`BaseBlock*`); `none` is `nullptr`. -/
abbrev BlockPtr := Option Nat

/-- Ways in which an operation fails to return normally. -/
inductive Fault
  | nullDeref
  | useAfterFree
  | doubleFree
  | deadHandle
  | badWeakPtr
  deriving DecidableEq, Repr

/-- The derived part of a control block: `PtrBlock<T>::ptr_` or the address of
`ValueBlock<T>::buffer_`. -/
inductive Payload
  | ptrBlock (ptr_ : Ptr)
  | valueBlock (buffer_ : Ptr)
  deriving DecidableEq, Repr

/-- `class BaseBlock` with its two counters, the derived part, and two ghost counters:
the number of `ZeroStrongCount` calls and the number of `delete` expressions applied to it. -/
structure BaseBlock where
  weak_count_ : Int
  strong_count_ : Int
  payload : Payload
  zeroStrongCalls : Nat
  deletes : Nat
  deriving DecidableEq, Repr

namespace BaseBlock

def WeakInc (b : BaseBlock) : BaseBlock := { b with weak_count_ := b.weak_count_ + 1 }

def WeakDec (b : BaseBlock) : BaseBlock := { b with weak_count_ := b.weak_count_ - 1 }

def GetWeakCount (b : BaseBlock) : Int := b.weak_count_

def StrongInc (b : BaseBlock) : BaseBlock := { b with strong_count_ := b.strong_count_ + 1 }

def StrongDec (b : BaseBlock) : BaseBlock := { b with strong_count_ := b.strong_count_ - 1 }

def GetStrongCount (b : BaseBlock) : Int := b.strong_count_

/-- The virtual `ZeroStrongCount`: `PtrBlock` deletes `ptr_` and nulls it, `ValueBlock` runs
the destructor in place.  This is the update of the block itself; what the destructor of the
value does to the rest of the program state is added by `ZeroStrongCount_running`. -/
def ZeroStrongCount (b : BaseBlock) : BaseBlock :=
  match b.payload with
  | .ptrBlock _ => { b with payload := .ptrBlock 0, zeroStrongCalls := b.zeroStrongCalls + 1 }
  | .valueBlock _ => { b with zeroStrongCalls := b.zeroStrongCalls + 1 }

/-- `PtrBlock<T>::Get` and `ValueBlock<T>::Get`. -/
def Get (b : BaseBlock) : Ptr :=
  match b.payload with
  | .ptrBlock p => p
  | .valueBlock a => a

end BaseBlock

/-- `PtrBlock<T>::PtrBlock(T* ptr)`: both counters are set to zero. -/
def PtrBlock.ctor (ptr : Ptr) : BaseBlock :=
  { weak_count_ := 0, strong_count_ := 0, payload := .ptrBlock ptr, zeroStrongCalls := 0,
    deletes := 0 }

/-- `ValueBlock<T>::ValueBlock(args...)`, with `buffer_` placed at address `addr`. -/
def ValueBlock.ctor (addr : Ptr) : BaseBlock :=
  { weak_count_ := 0, strong_count_ := 0, payload := .valueBlock addr, zeroStrongCalls := 0,
    deletes := 0 }

/-- `class SharedPtr<T>`: the two private members. -/
structure SharedPtr where
  block_ : BlockPtr
  ptr_ : Ptr
  deriving DecidableEq, Repr

/-- `class WeakPtr<T>`: the two private members. -/
structure WeakPtr where
  block_ : BlockPtr
  ptr_ : Ptr
  deriving DecidableEq, Repr

/-- Program state: the free store and the two tables of handle objects. -/
structure State where
  heap : List BaseBlock
  shared : List (Option SharedPtr)
  weak : List (Option WeakPtr)
  deriving DecidableEq, Repr

namespace State

/-- No block allocated, no handle constructed. -/
def init : State := { heap := [], shared := [], weak := [] }

/-- Read access `block->...` through a control block pointer. -/
def deref (s : State) : BlockPtr → Except Fault BaseBlock
  | none => .error .nullDeref
  | some a =>
    match s.heap[a]? with
    | some blk => if blk.deletes = 0 then .ok blk else .error .useAfterFree
    | none => .error .useAfterFree

/-- A call `block->f()` of a mutating member function. -/
def call (s : State) (p : BlockPtr) (f : BaseBlock → BaseBlock) : Except Fault State :=
  match p with
  | none => .error .nullDeref
  | some a =>
    match s.heap[a]? with
    | some blk =>
      if blk.deletes = 0 then .ok { s with heap := s.heap.set a (f blk) }
      else .error .useAfterFree
    | none => .error .useAfterFree

/-- The expression `delete block`. -/
def delete (s : State) : BlockPtr → Except Fault State
  | none => .ok s
  | some a =>
    match s.heap[a]? with
    | some blk =>
      if blk.deletes = 0 then
        .ok { s with heap := s.heap.set a { blk with deletes := blk.deletes + 1 } }
      else .error .doubleFree
    | none => .error .doubleFree

/-- The expression `new Block(...)`: the fresh block and its address. -/
def alloc (s : State) (blk : BaseBlock) : State × BlockPtr :=
  ({ s with heap := s.heap ++ [blk] }, some s.heap.length)

def getShared (s : State) (i : Nat) : Except Fault SharedPtr :=
  match s.shared[i]? with
  | some (some p) => .ok p
  | _ => .error .deadHandle

def setShared (s : State) (i : Nat) (p : SharedPtr) : State :=
  { s with shared := s.shared.set i (some p) }

/-- Storage for a handle under construction; its index is `s.shared.length`. -/
def newShared (s : State) (p : SharedPtr) : State :=
  { s with shared := s.shared ++ [some p] }

/-- End of lifetime of a handle. -/
def endShared (s : State) (i : Nat) : State :=
  { s with shared := s.shared.set i none }

def getWeak (s : State) (i : Nat) : Except Fault WeakPtr :=
  match s.weak[i]? with
  | some (some p) => .ok p
  | _ => .error .deadHandle

def setWeak (s : State) (i : Nat) (p : WeakPtr) : State :=
  { s with weak := s.weak.set i (some p) }

def newWeak (s : State) (p : WeakPtr) : State :=
  { s with weak := s.weak ++ [some p] }

def endWeak (s : State) (i : Nat) : State :=
  { s with weak := s.weak.set i none }

end State

/-- The conversion `static_cast<size_t>(int)` on a 64-bit target. -/
def toSizeT (x : Int) : Nat := (x % 2 ^ 64).toNat

namespace SharedPtr

/-- `void AddObj()`. -/
def AddObj (s : State) (this : Nat) : Except Fault State := do
  let me ← s.getShared this
  if me.block_.isSome then s.call me.block_ BaseBlock.StrongInc else pure s

/-- `SharedPtr()`. The new handle is entry `s.shared.length`. -/
def ctor_default (s : State) : State :=
  s.newShared { block_ := none, ptr_ := 0 }

/-- `SharedPtr(std::nullptr_t)`. -/
def ctor_nullptr (s : State) : State :=
  s.newShared { block_ := none, ptr_ := 0 }

/-- `explicit SharedPtr(T* ptr)` (and the `Y*` template, which has the same body). -/
def ctor_ptr (s : State) (ptr : Ptr) : Except Fault State := do
  let this := s.shared.length
  let s := s.newShared { block_ := none, ptr_ := 0 }
  let s ← (if ptr ≠ 0 then do
      let (s, b) := s.alloc (PtrBlock.ctor ptr)
      let me ← s.getShared this
      let s := s.setShared this { me with block_ := b }
      AddObj s this
    else pure s)
  let me ← s.getShared this
  pure (s.setShared this { me with ptr_ := ptr })

/-- `SharedPtr(const SharedPtr& other)` (and the converting template). -/
def ctor_copy (s : State) (other : Nat) : Except Fault State := do
  let o ← s.getShared other
  let this := s.shared.length
  let s := s.newShared { block_ := o.block_, ptr_ := o.ptr_ }
  AddObj s this

/-- `SharedPtr(SharedPtr&& other)` (and the converting template). -/
def ctor_move (s : State) (other : Nat) : Except Fault State := do
  let o ← s.getShared other
  let s := s.newShared { block_ := o.block_, ptr_ := o.ptr_ }
  pure (s.setShared other { block_ := none, ptr_ := 0 })

/-- `SharedPtr(T* ptr, BaseBlock* block)`. -/
def ctor_ptr_block (s : State) (ptr : Ptr) (block : BlockPtr) : State :=
  s.newShared { block_ := block, ptr_ := ptr }

/-- The aliasing constructor `SharedPtr(const SharedPtr<Y>& other, T* ptr)`. -/
def ctor_alias (s : State) (other : Nat) (ptr : Ptr) : Except Fault State := do
  let o ← s.getShared other
  let this := s.shared.length
  let s := s.newShared { block_ := o.block_, ptr_ := 0 }
  let s ← AddObj s this
  let me ← s.getShared this
  pure (s.setShared this { me with ptr_ := ptr })

/-- Promotion `explicit SharedPtr(const WeakPtr<T>& other)`; `throw BadWeakPtr()` is the
fault `badWeakPtr`. -/
def ctor_weak (s : State) (other : Nat) : Except Fault State := do
  let o ← s.getWeak other
  let s := s.newShared { block_ := o.block_, ptr_ := o.ptr_ }
  let blk ← s.deref o.block_
  if blk.GetStrongCount = 0 then throw Fault.badWeakPtr
  else if o.block_.isSome then s.call o.block_ BaseBlock.StrongInc else pure s

/-- `void Reset()`. -/
def Reset (s : State) (this : Nat) : Except Fault State := do
  let me ← s.getShared this
  let s ← (if me.block_.isSome then do
      let s ← s.call me.block_ BaseBlock.StrongDec
      let blk ← s.deref me.block_
      if blk.GetStrongCount = 0 then do
        let s ← s.call me.block_ BaseBlock.ZeroStrongCount
        let blk ← s.deref me.block_
        if blk.GetWeakCount = 0 then s.delete me.block_ else pure s
      else pure s
    else pure s)
  pure (s.setShared this { block_ := none, ptr_ := 0 })

/-- `~SharedPtr()`; afterwards the handle's lifetime has ended. -/
def dtor (s : State) (this : Nat) : Except Fault State := do
  let me ← s.getShared this
  let s ← (if me.block_.isSome then do
      let s ← s.call me.block_ BaseBlock.StrongDec
      let blk ← s.deref me.block_
      if blk.GetStrongCount = 0 then do
        let s ← s.call me.block_ BaseBlock.ZeroStrongCount
        let blk ← s.deref me.block_
        if blk.GetWeakCount = 0 then s.delete me.block_ else pure s
      else pure s
    else pure s)
  pure (s.endShared this)

/-- `void Reset(T* ptr)` (and the `Y*` template). -/
def Reset_ptr (s : State) (this : Nat) (ptr : Ptr) : Except Fault State := do
  let s ← Reset s this
  let me ← s.getShared this
  let s := s.setShared this { me with block_ := none }
  let s ← (if ptr ≠ 0 then do
      let (s, b) := s.alloc (PtrBlock.ctor ptr)
      let me ← s.getShared this
      let s := s.setShared this { me with block_ := b }
      AddObj s this
    else pure s)
  let me ← s.getShared this
  pure (s.setShared this { me with ptr_ := ptr })

/-- `SharedPtr& operator=(const SharedPtr& other)`; `other` is read after `Reset()`. -/
def assign (s : State) (this other : Nat) : Except Fault State := do
  let s ← Reset s this
  let o ← s.getShared other
  let me ← s.getShared this
  let s := s.setShared this { me with block_ := o.block_ }
  let s ← AddObj s this
  let o ← s.getShared other
  let me ← s.getShared this
  pure (s.setShared this { me with ptr_ := o.ptr_ })

/-- `SharedPtr& operator=(SharedPtr&& other)`. -/
def assign_move (s : State) (this other : Nat) : Except Fault State := do
  let s ← Reset s this
  let o ← s.getShared other
  let s := s.setShared this { block_ := o.block_, ptr_ := o.ptr_ }
  pure (s.setShared other { block_ := none, ptr_ := 0 })

/-- `void Swap(SharedPtr& other)`. -/
def Swap (s : State) (this other : Nat) : Except Fault State := do
  let me ← s.getShared this
  let o ← s.getShared other
  let s := s.setShared this { block_ := o.block_, ptr_ := o.ptr_ }
  pure (s.setShared other { block_ := me.block_, ptr_ := me.ptr_ })

def GetBlock (s : State) (this : Nat) : Except Fault BlockPtr := do
  let me ← s.getShared this
  pure me.block_

def GetPtr (s : State) (this : Nat) : Except Fault Ptr := do
  let me ← s.getShared this
  pure me.ptr_

/-- `T* Get() const`. -/
def Get (s : State) (this : Nat) : Except Fault Ptr := do
  let me ← s.getShared this
  if me.ptr_ ≠ 0 then pure me.ptr_ else pure 0

/-- `size_t UseCount() const`. -/
def UseCount (s : State) (this : Nat) : Except Fault Nat := do
  let me ← s.getShared this
  if me.block_.isSome then do
    let blk ← s.deref me.block_
    pure (toSizeT blk.GetStrongCount)
  else pure 0

/-- `explicit operator bool() const`. -/
def toBool (s : State) (this : Nat) : Except Fault Bool := do
  let me ← s.getShared this
  if me.block_.isSome then pure true else pure false

end SharedPtr

/-- `operator==(const SharedPtr<T>&, const SharedPtr<U>&)`; the definition is the one in
`src/shared-from-this/shared.h`, the dual-count header only declares it. -/
def SharedPtr.eq (s : State) (left right : Nat) : Except Fault Bool := do
  let l ← SharedPtr.GetBlock s left
  let r ← SharedPtr.GetBlock s right
  let lp ← SharedPtr.GetPtr s left
  let rp ← SharedPtr.GetPtr s right
  if l = r ∧ lp = rp then pure true else pure false

/-- `MakeShared<T>(args...)`; `addr` is where the allocator put `buffer_`.  The local `t`
is the returned object. -/
def MakeShared (s : State) (addr : Ptr) : Except Fault State := do
  let (s, tmp) := s.alloc (ValueBlock.ctor addr)
  let s ← s.call tmp BaseBlock.StrongInc
  let blk ← s.deref tmp
  pure (SharedPtr.ctor_ptr_block s blk.Get tmp)

namespace WeakPtr

/-- `WeakPtr()`. The new handle is entry `s.weak.length`. -/
def ctor_default (s : State) : State :=
  s.newWeak { block_ := none, ptr_ := 0 }

/-- `WeakPtr(const WeakPtr& other)`. -/
def ctor_copy (s : State) (other : Nat) : Except Fault State := do
  let o ← s.getWeak other
  let s := s.newWeak { block_ := o.block_, ptr_ := o.ptr_ }
  if o.block_.isSome then s.call o.block_ BaseBlock.WeakInc else pure s

/-- `WeakPtr(WeakPtr&& other)`. -/
def ctor_move (s : State) (other : Nat) : Except Fault State := do
  let o ← s.getWeak other
  let s := s.newWeak { block_ := o.block_, ptr_ := o.ptr_ }
  pure (s.setWeak other { block_ := none, ptr_ := 0 })

/-- Demotion `WeakPtr(const SharedPtr<T>& other)`. -/
def ctor_shared (s : State) (other : Nat) : Except Fault State := do
  let b ← SharedPtr.GetBlock s other
  let p ← SharedPtr.GetPtr s other
  let s := s.newWeak { block_ := b, ptr_ := p }
  if b.isSome then s.call b BaseBlock.WeakInc else pure s

/-- `void MakeNull()`. -/
def MakeNull (s : State) (this : Nat) : Except Fault State := do
  let _ ← s.getWeak this
  pure (s.setWeak this { block_ := none, ptr_ := 0 })

/-- `void Reset()`. -/
def Reset (s : State) (this : Nat) : Except Fault State := do
  let me ← s.getWeak this
  let s ← (if me.block_.isSome then do
      let s ← s.call me.block_ BaseBlock.WeakDec
      let blk ← s.deref me.block_
      if blk.GetStrongCount = 0 ∧ blk.GetWeakCount = 0 then s.delete me.block_ else pure s
    else pure s)
  MakeNull s this

/-- `~WeakPtr()`; afterwards the handle's lifetime has ended. -/
def dtor (s : State) (this : Nat) : Except Fault State := do
  let me ← s.getWeak this
  let s ← (if me.block_.isSome then do
      let s ← s.call me.block_ BaseBlock.WeakDec
      let blk ← s.deref me.block_
      if blk.GetStrongCount = 0 ∧ blk.GetWeakCount = 0 then s.delete me.block_ else pure s
    else pure s)
  pure (s.endWeak this)

/-- `WeakPtr& operator=(const WeakPtr& other)`. -/
def assign (s : State) (this other : Nat) : Except Fault State :=
  if this ≠ other then do
    let s ← Reset s this
    let o ← s.getWeak other
    let me ← s.getWeak this
    let s := s.setWeak this { me with block_ := o.block_ }
    let s ← (if o.block_.isSome then s.call o.block_ BaseBlock.WeakInc else pure s)
    let o ← s.getWeak other
    let me ← s.getWeak this
    pure (s.setWeak this { me with ptr_ := o.ptr_ })
  else pure s

/-- `WeakPtr& operator=(WeakPtr&& other)`. -/
def assign_move (s : State) (this other : Nat) : Except Fault State := do
  let s ← Reset s this
  let o ← s.getWeak other
  let s := s.setWeak this { block_ := o.block_, ptr_ := o.ptr_ }
  pure (s.setWeak other { block_ := none, ptr_ := 0 })

/-- `void Swap(WeakPtr& other)`. -/
def Swap (s : State) (this other : Nat) : Except Fault State := do
  let me ← s.getWeak this
  let o ← s.getWeak other
  let s := s.setWeak this { block_ := o.block_, ptr_ := o.ptr_ }
  pure (s.setWeak other { block_ := me.block_, ptr_ := me.ptr_ })

def GetBlock (s : State) (this : Nat) : Except Fault BlockPtr := do
  let me ← s.getWeak this
  pure me.block_

def GetPtr (s : State) (this : Nat) : Except Fault Ptr := do
  let me ← s.getWeak this
  pure me.ptr_

/-- `size_t UseCount() const`: the `int` is converted to `size_t` by the return. -/
def UseCount (s : State) (this : Nat) : Except Fault Nat := do
  let me ← s.getWeak this
  if me.block_.isSome then do
    let blk ← s.deref me.block_
    pure (toSizeT blk.GetStrongCount)
  else pure 0

/-- `bool Expired() const`. -/
def Expired (s : State) (this : Nat) : Except Fault Bool := do
  let me ← s.getWeak this
  if me.block_.isNone then pure true
  else do
    let blk ← s.deref me.block_
    if blk.GetStrongCount = 0 then pure true else pure false

/-- `SharedPtr<T> Lock() const`. The returned handle is entry `s.shared.length`. -/
def Lock (s : State) (this : Nat) : Except Fault State := do
  let me ← s.getWeak this
  let alive ← (if me.block_.isSome then do
      let blk ← s.deref me.block_
      pure (decide (blk.GetStrongCount ≠ 0))
    else pure false)
  if alive then SharedPtr.ctor_weak s this else pure (SharedPtr.ctor_default s)

end WeakPtr

/-- The operations a client program performs on handles; handles are named by their index
in the tables, a constructor's result is the next free index.  The public plumbing members
(`SetBlock`, `SetPtr`, `AddObj`, `MakeNull`, the constructor from a pointer and a block) are
called by the member functions and by `MakeShared`, not by clients. -/
inductive Op
  | sharedDefault
  | sharedNullptr
  | sharedPtr (ptr : Ptr)
  | sharedCopy (other : Nat)
  | sharedMove (other : Nat)
  | sharedAlias (other : Nat) (ptr : Ptr)
  | sharedFromWeak (other : Nat)
  | sharedAssign (this other : Nat)
  | sharedAssignMove (this other : Nat)
  | sharedReset (this : Nat)
  | sharedResetPtr (this : Nat) (ptr : Ptr)
  | sharedSwap (this other : Nat)
  | sharedDtor (this : Nat)
  | makeShared (addr : Ptr)
  | weakDefault
  | weakCopy (other : Nat)
  | weakMove (other : Nat)
  | weakFromShared (other : Nat)
  | weakAssign (this other : Nat)
  | weakAssignMove (this other : Nat)
  | weakReset (this : Nat)
  | weakSwap (this other : Nat)
  | weakDtor (this : Nat)
  | weakLock (this : Nat)
  deriving DecidableEq, Repr

/-- One operation, as the member function it calls. -/
def step (s : State) : Op → Except Fault State
  | .sharedDefault => pure (SharedPtr.ctor_default s)
  | .sharedNullptr => pure (SharedPtr.ctor_nullptr s)
  | .sharedPtr ptr => SharedPtr.ctor_ptr s ptr
  | .sharedCopy o => SharedPtr.ctor_copy s o
  | .sharedMove o => SharedPtr.ctor_move s o
  | .sharedAlias o ptr => SharedPtr.ctor_alias s o ptr
  | .sharedFromWeak o => SharedPtr.ctor_weak s o
  | .sharedAssign t o => SharedPtr.assign s t o
  | .sharedAssignMove t o => SharedPtr.assign_move s t o
  | .sharedReset t => SharedPtr.Reset s t
  | .sharedResetPtr t ptr => SharedPtr.Reset_ptr s t ptr
  | .sharedSwap t o => SharedPtr.Swap s t o
  | .sharedDtor t => SharedPtr.dtor s t
  | .makeShared addr => MakeShared s addr
  | .weakDefault => pure (WeakPtr.ctor_default s)
  | .weakCopy o => WeakPtr.ctor_copy s o
  | .weakMove o => WeakPtr.ctor_move s o
  | .weakFromShared o => WeakPtr.ctor_shared s o
  | .weakAssign t o => WeakPtr.assign s t o
  | .weakAssignMove t o => WeakPtr.assign_move s t o
  | .weakReset t => WeakPtr.Reset s t
  | .weakSwap t o => WeakPtr.Swap s t o
  | .weakDtor t => WeakPtr.dtor s t
  | .weakLock t => WeakPtr.Lock s t

/-- One operation of a program.  A `BadWeakPtr` leaves the constructor before any handle
exists, the program catches it and goes on in the state it had; an operation naming a handle
that is not alive is no operation of a program and is skipped.  Other faults stop the run. -/
def exec (s : State) (op : Op) : Except Fault State :=
  match step s op with
  | .error .badWeakPtr => .ok s
  | .error .deadHandle => .ok s
  | r => r

/-- A program: a finite sequence of operations. -/
def run (s : State) : List Op → Except Fault State
  | [] => .ok s
  | op :: ops =>
    match exec s op with
    | .ok t => run t ops
    | .error e => .error e

/-! ## Specification vocabulary -/

/-- The handle entry is alive and its block reference is block `b`. -/
def SharedPtr.refersTo (b : Nat) : Option SharedPtr → Bool
  | some p => decide (p.block_ = some b)
  | none => false

/-- The handle entry is alive and its block reference is block `b`. -/
def WeakPtr.refersTo (b : Nat) : Option WeakPtr → Bool
  | some p => decide (p.block_ = some b)
  | none => false

/-- Number of live Owning Handles whose block reference is block `b`. -/
def State.owners (s : State) (b : Nat) : Nat := s.shared.countP (SharedPtr.refersTo b)

/-- Number of live Observer Handles whose block reference is block `b`. -/
def State.observers (s : State) (b : Nat) : Nat := s.weak.countP (WeakPtr.refersTo b)

/-- What a control block must look like when `ns` Owning and `nw` Observer Handles refer
to it. -/
structure BlockInv (blk : BaseBlock) (ns nw : Nat) : Prop where
  strong : blk.strong_count_ = ns
  weak : blk.weak_count_ = nw
  calls : blk.zeroStrongCalls = if ns = 0 then 1 else 0
  deletes : blk.deletes = if ns = 0 ∧ nw = 0 then 1 else 0

/-- The protocol invariant of a program state. -/
def Inv (s : State) : Prop :=
  ∀ b, match s.heap[b]? with
    | some blk => BlockInv blk (s.owners b) (s.observers b)
    | none => s.owners b = 0 ∧ s.observers b = 0

/-- Net effect on a block of the release sequence of `~SharedPtr` and `SharedPtr::Reset`. -/
def BaseBlock.strongRelease (blk : BaseBlock) : BaseBlock :=
  if blk.StrongDec.GetStrongCount = 0 then
    if blk.StrongDec.ZeroStrongCount.GetWeakCount = 0 then
      { blk.StrongDec.ZeroStrongCount with deletes := blk.StrongDec.ZeroStrongCount.deletes + 1 }
    else blk.StrongDec.ZeroStrongCount
  else blk.StrongDec

/-- Net effect on a block of the release sequence of `~WeakPtr` and `WeakPtr::Reset`. -/
def BaseBlock.weakRelease (blk : BaseBlock) : BaseBlock :=
  if blk.WeakDec.GetStrongCount = 0 ∧ blk.WeakDec.GetWeakCount = 0 then
    { blk.WeakDec with deletes := blk.WeakDec.deletes + 1 }
  else blk.WeakDec

/-- A relation between the old and the new contents of every block that existed before a
step: the block is still there and `P` relates the two contents. -/
def Rel (P : BaseBlock → BaseBlock → Prop) (s t : State) : Prop :=
  ∀ (b : Nat) (blk : BaseBlock), s.heap[b]? = some blk →
    ∃ blk', t.heap[b]? = some blk' ∧ P blk blk'

/-- A release: the strong count stays or drops by one and stays at zero once there; a
deleted block is not touched. -/
def PR (x y : BaseBlock) : Prop :=
  y.strong_count_ ≤ x.strong_count_ ∧ x.strong_count_ ≤ y.strong_count_ + 1 ∧
    (x.strong_count_ = 0 → y.strong_count_ = 0) ∧ (x.deletes ≠ 0 → y = x)

/-- An acquisition: the strong count does not drop and stays at zero once there; a deleted
block is not touched. -/
def PA (x y : BaseBlock) : Prop :=
  x.strong_count_ ≤ y.strong_count_ ∧ (x.strong_count_ = 0 → y.strong_count_ = 0) ∧
    (x.deletes ≠ 0 → y = x)

/-- Any operation: the strong count drops by at most one and stays at zero once there; a
deleted block is not touched. -/
def PS (x y : BaseBlock) : Prop :=
  x.strong_count_ ≤ y.strong_count_ + 1 ∧ (x.strong_count_ = 0 → y.strong_count_ = 0) ∧
    (x.deletes ≠ 0 → y = x)

/-- Any number of operations: a strong count that is zero stays zero, a deleted block is not
touched. -/
def PZ (x y : BaseBlock) : Prop :=
  (x.strong_count_ = 0 → y.strong_count_ = 0) ∧ (x.deletes ≠ 0 → y = x)

/-- Outcome of an operation that returns: the invariant holds again, every old block is
related to its new contents by `P`, a block allocated by the operation has strong count 1
and was neither released nor deleted, and at most one handle of each kind was added. -/
structure Good (P : BaseBlock → BaseBlock → Prop) (s t : State) : Prop where
  inv : Inv t
  rel : Rel P s t
  fresh : ∀ (b : Nat) (blk : BaseBlock), s.heap.length ≤ b → t.heap[b]? = some blk →
    blk.strong_count_ = 1 ∧ blk.zeroStrongCalls = 0 ∧ blk.deletes = 0
  slen : t.shared.length ≤ s.shared.length + 1
  wlen : t.weak.length ≤ s.weak.length + 1

/-- The operations that give up an Owning Handle's share: `Reset`, `Reset(T*)`, the two
assignments and the destructor. -/
def Op.releasesOwner : Op → Bool
  | .sharedAssign _ _ => true
  | .sharedAssignMove _ _ => true
  | .sharedReset _ => true
  | .sharedResetPtr _ _ => true
  | .sharedDtor _ => true
  | _ => false

/-- The operations that involve Owning Handles only (no Observer Handle is read, created
or changed). -/
def Op.onOwningHandles : Op → Bool
  | .sharedDefault => true
  | .sharedNullptr => true
  | .sharedPtr _ => true
  | .sharedCopy _ => true
  | .sharedMove _ => true
  | .sharedAlias _ _ => true
  | .sharedAssign _ _ => true
  | .sharedAssignMove _ _ => true
  | .sharedReset _ => true
  | .sharedResetPtr _ _ => true
  | .sharedSwap _ _ => true
  | .sharedDtor _ => true
  | .makeShared _ => true
  | _ => false

/-- What `step` can do in a state satisfying the invariant. -/
def StepOutcome (s : State) (op : Op) (r : Except Fault State) : Prop :=
  r = .error .deadHandle ∨ r = .error .badWeakPtr ∨
    (r = .error .nullDeref ∧ ∃ w p, op = .sharedFromWeak w ∧
      s.weak[w]? = some (some ⟨none, p⟩)) ∨
    ∃ t, r = .ok t ∧ Good PS s t ∧ (op.releasesOwner = false → Rel PA s t)

/-- `explicit SharedPtr(const WeakPtr<T>& other)` of `src/shared-from-this/shared.h`, for a
`T` that does not derive from `EnableSharedFromThisBase` (the `if constexpr` statement is
discarded): the strong count is read only through a non-null block pointer. -/
def SharedPtr.ctor_weak_guarded (s : State) (other : Nat) : Except Fault State := do
  let o ← s.getWeak other
  let s := s.newShared { block_ := o.block_, ptr_ := o.ptr_ }
  let expired ← (if o.block_.isSome then do
      let blk ← s.deref o.block_
      pure (decide (blk.GetStrongCount = 0))
    else pure false)
  if expired then throw Fault.badWeakPtr
  else if o.block_.isSome then s.call o.block_ BaseBlock.StrongInc else pure s

/-- A state with one block owned by one Owning Handle and watched by one Observer Handle. -/
def exampleLive : State :=
  { heap := [⟨1, 1, .ptrBlock 7, 0, 0⟩], shared := [some ⟨some 0, 7⟩],
    weak := [some ⟨some 0, 7⟩] }

/-- A state whose only block has lost its last owner and is still watched. -/
def exampleExpired : State :=
  { heap := [⟨1, 0, .ptrBlock 0, 1, 0⟩], shared := [none], weak := [some ⟨some 0, 7⟩] }

namespace SharedFromThis

/-- `~SharedPtr()` of `src/shared-from-this/shared.h`.  `cap` is the `if constexpr`
condition (`T*` converts to `EnableSharedFromThisBase*`); `zeroStrong` is the virtual call
`block_->ZeroStrongCount()`, which runs the destructor of the value and with it code of the
client. -/
def dtor (cap : Bool) (zeroStrong : State → BlockPtr → Except Fault State) (s : State)
    (this : Nat) : Except Fault State := do
  let me ← s.getShared this
  let s ← (if me.block_.isSome then do
      let s ← s.call me.block_ BaseBlock.StrongDec
      let blk ← s.deref me.block_
      if blk.GetStrongCount = 0 then do
        let s ← (if cap then s.call me.block_ BaseBlock.WeakInc else pure s)
        let s ← zeroStrong s me.block_
        let s ← (if cap then s.call me.block_ BaseBlock.WeakDec else pure s)
        let blk ← s.deref me.block_
        if blk.GetWeakCount = 0 then s.delete me.block_ else pure s
      else pure s
    else pure s)
  pure (s.endShared this)

/-- `void Reset()` of `src/shared-from-this/shared.h`, with the parameters of `dtor`. -/
def Reset (cap : Bool) (zeroStrong : State → BlockPtr → Except Fault State) (s : State)
    (this : Nat) : Except Fault State := do
  let me ← s.getShared this
  let s ← (if me.block_.isSome then do
      let s ← s.call me.block_ BaseBlock.StrongDec
      let blk ← s.deref me.block_
      if blk.GetStrongCount = 0 then do
        let s ← (if cap then s.call me.block_ BaseBlock.WeakInc else pure s)
        let s ← zeroStrong s me.block_
        let s ← (if cap then s.call me.block_ BaseBlock.WeakDec else pure s)
        let blk ← s.deref me.block_
        if blk.GetWeakCount = 0 then s.delete me.block_ else pure s
      else pure s
    else pure s)
  pure (s.setShared this { block_ := none, ptr_ := 0 })

end SharedFromThis

end Weak

/-! ## The single-counter `SharedPtr` (`src/shared/shared.h`) -/

namespace Shared

open Weak (Ptr BlockPtr Fault Payload)

/-- The `class BaseBlock` of `src/shared/shared.h` with its one counter, the derived part, and
three ghost counters: the number of `ZeroCount` calls, the number of times the value's
teardown has run (`delete ptr_` with `ptr_` non-null in `PtrBlock`, `Get()->~T()` in
`ValueBlock`), and the number of `delete` expressions applied to the block. -/
structure BaseBlock where
  count_ : Int
  payload : Payload
  zeroCountCalls : Nat
  teardowns : Nat
  deletes : Nat
  deriving DecidableEq, Repr

namespace BaseBlock

def Inc (b : BaseBlock) : BaseBlock := { b with count_ := b.count_ + 1 }

def GetCount (b : BaseBlock) : Int := b.count_

/-- The virtual `ZeroCount`: `PtrBlock` runs `delete ptr_; ptr_ = nullptr;` (a `delete` of
`nullptr` does nothing), `ValueBlock` runs `Get()->~T()`. -/
def ZeroCount (b : BaseBlock) : BaseBlock :=
  match b.payload with
  | .ptrBlock p =>
    { b with payload := .ptrBlock 0, zeroCountCalls := b.zeroCountCalls + 1,
             teardowns := if p ≠ 0 then b.teardowns + 1 else b.teardowns }
  | .valueBlock _ =>
    { b with zeroCountCalls := b.zeroCountCalls + 1, teardowns := b.teardowns + 1 }

/-- `void Dec()`: `count_--; if (count_ == 0) ZeroCount();`. -/
def Dec (b : BaseBlock) : BaseBlock :=
  let b := { b with count_ := b.count_ - 1 }
  if b.count_ = 0 then b.ZeroCount else b

/-- `PtrBlock<T>::Get` and `ValueBlock<T>::Get`. -/
def Get (b : BaseBlock) : Ptr :=
  match b.payload with
  | .ptrBlock p => p
  | .valueBlock a => a

/-- The destructors `~PtrBlock()` and `~ValueBlock()`: both bodies are `ZeroCount();`. -/
def dtor (b : BaseBlock) : BaseBlock := b.ZeroCount

end BaseBlock

/-- `PtrBlock<T>::PtrBlock(T* ptr)`: `GetCount() = 0`. -/
def PtrBlock.ctor (ptr : Ptr) : BaseBlock :=
  { count_ := 0, payload := .ptrBlock ptr, zeroCountCalls := 0, teardowns := 0, deletes := 0 }

/-- `ValueBlock<T>::ValueBlock(args...)`, with `buffer_` placed at address `addr`. -/
def ValueBlock.ctor (addr : Ptr) : BaseBlock :=
  { count_ := 0, payload := .valueBlock addr, zeroCountCalls := 0, teardowns := 0,
    deletes := 0 }

/-- `class SharedPtr<T>`: the two private members. -/
structure SharedPtr where
  block_ : BlockPtr
  ptr_ : Ptr
  deriving DecidableEq, Repr

/-- Program state: the free store and the table of handle objects. -/
structure State where
  heap : List BaseBlock
  shared : List (Option SharedPtr)
  deriving DecidableEq, Repr

namespace State

def init : State := { heap := [], shared := [] }

/-- Read access `block->...` through a control block pointer. -/
def deref (s : State) : BlockPtr → Except Fault BaseBlock
  | none => .error .nullDeref
  | some a =>
    match s.heap[a]? with
    | some blk => if blk.deletes = 0 then .ok blk else .error .useAfterFree
    | none => .error .useAfterFree

/-- A call `block->f()` of a mutating member function. -/
def call (s : State) (p : BlockPtr) (f : BaseBlock → BaseBlock) : Except Fault State :=
  match p with
  | none => .error .nullDeref
  | some a =>
    match s.heap[a]? with
    | some blk =>
      if blk.deletes = 0 then .ok { s with heap := s.heap.set a (f blk) }
      else .error .useAfterFree
    | none => .error .useAfterFree

/-- The expression `delete block`: the destructor of the derived class runs, then the storage
is released. -/
def delete (s : State) : BlockPtr → Except Fault State
  | none => .ok s
  | some a =>
    match s.heap[a]? with
    | some blk =>
      if blk.deletes = 0 then
        .ok { s with heap := s.heap.set a { blk.dtor with deletes := blk.deletes + 1 } }
      else .error .doubleFree
    | none => .error .doubleFree

/-- The expression `new Block(...)`: the fresh block and its address. -/
def alloc (s : State) (blk : BaseBlock) : State × BlockPtr :=
  ({ s with heap := s.heap ++ [blk] }, some s.heap.length)

def getShared (s : State) (i : Nat) : Except Fault SharedPtr :=
  match s.shared[i]? with
  | some (some p) => .ok p
  | _ => .error .deadHandle

def setShared (s : State) (i : Nat) (p : SharedPtr) : State :=
  { s with shared := s.shared.set i (some p) }

/-- Storage for a handle under construction; its index is `s.shared.length`. -/
def newShared (s : State) (p : SharedPtr) : State :=
  { s with shared := s.shared ++ [some p] }

/-- End of lifetime of a handle. -/
def endShared (s : State) (i : Nat) : State :=
  { s with shared := s.shared.set i none }

end State

namespace SharedPtr

/-- `void AddObj()`. -/
def AddObj (s : State) (this : Nat) : Except Fault State := do
  let me ← s.getShared this
  if me.block_.isSome then s.call me.block_ BaseBlock.Inc else pure s

/-- `explicit SharedPtr(T* ptr)`. -/
def ctor_ptr (s : State) (ptr : Ptr) : Except Fault State := do
  let this := s.shared.length
  let s := s.newShared { block_ := none, ptr_ := 0 }
  let s ← (if ptr ≠ 0 then do
      let (s, b) := s.alloc (PtrBlock.ctor ptr)
      let me ← s.getShared this
      let s := s.setShared this { me with block_ := b }
      AddObj s this
    else pure s)
  let me ← s.getShared this
  pure (s.setShared this { me with ptr_ := ptr })

/-- `SharedPtr(const SharedPtr& other)`. -/
def ctor_copy (s : State) (other : Nat) : Except Fault State := do
  let o ← s.getShared other
  let this := s.shared.length
  let s := s.newShared { block_ := o.block_, ptr_ := o.ptr_ }
  AddObj s this

/-- `SharedPtr(T* ptr, BaseBlock* block)`. -/
def ctor_ptr_block (s : State) (ptr : Ptr) (block : BlockPtr) : State :=
  s.newShared { block_ := block, ptr_ := ptr }

/-- `~SharedPtr()`; afterwards the handle's lifetime has ended. -/
def dtor (s : State) (this : Nat) : Except Fault State := do
  let me ← s.getShared this
  let s ← (if me.block_.isSome then do
      let s ← s.call me.block_ BaseBlock.Dec
      let blk ← s.deref me.block_
      if blk.GetCount = 0 then do
        let s ← s.call me.block_ BaseBlock.ZeroCount
        s.delete me.block_
      else pure s
    else pure s)
  pure (s.endShared this)

/-- `void Reset()`; the two members are nulled inside the `if (block_)`. -/
def Reset (s : State) (this : Nat) : Except Fault State := do
  let me ← s.getShared this
  if me.block_.isSome then do
    let s ← s.call me.block_ BaseBlock.Dec
    let blk ← s.deref me.block_
    let s ← (if blk.GetCount = 0 then do
        let s ← s.call me.block_ BaseBlock.ZeroCount
        s.delete me.block_
      else pure s)
    let me ← s.getShared this
    let s := s.setShared this { me with block_ := none }
    let me ← s.getShared this
    pure (s.setShared this { me with ptr_ := 0 })
  else pure s

end SharedPtr

/-- `MakeShared<T>(args...)`: one `ValueBlock`, `Inc`, and the handle built from `Get()` and
the block; `addr` is the address of the block's buffer. -/
def MakeShared (s : State) (addr : Ptr) : Except Fault State := do
  let (s, tmp) := s.alloc (ValueBlock.ctor addr)
  let s ← s.call tmp BaseBlock.Inc
  let blk ← s.deref tmp
  pure (SharedPtr.ctor_ptr_block s blk.Get tmp)

end Shared

/-! ## The uniquely-owning `UniquePtr` (`src/unique/unique.h`) -/

namespace Unique

open Weak (Ptr Fault)

/-- Program state: the table of `UniquePtr<T, Deleter>` objects, each with the pointer
`data_.GetFirst()` it stores (`none` once destroyed), and a ghost log of the arguments of
every call of the deleter's `operator()`, in order. -/
structure State where
  handles : List (Option Ptr)
  deleterCalls : List Ptr
  deriving DecidableEq, Repr

namespace State

def init : State := { handles := [], deleterCalls := [] }

/-- Read of `data_.GetFirst()`. -/
def getFirst (s : State) (i : Nat) : Except Fault Ptr :=
  match s.handles[i]? with
  | some (some p) => .ok p
  | _ => .error .deadHandle

/-- Write `data_.GetFirst() = p`. -/
def setFirst (s : State) (i : Nat) (p : Ptr) : State :=
  { s with handles := s.handles.set i (some p) }

/-- The call `data_.GetSecond()(ptr)`. -/
def callDeleter (s : State) (ptr : Ptr) : State :=
  { s with deleterCalls := s.deleterCalls ++ [ptr] }

end State

namespace UniquePtr

/-- `explicit UniquePtr(T* ptr = nullptr)`; the new handle is entry `s.handles.length`. -/
def ctor (s : State) (ptr : Ptr) : State :=
  { s with handles := s.handles ++ [some ptr] }

/-- `UniquePtr(UniquePtr&& other)`. -/
def ctor_move (s : State) (other : Nat) : Except Fault State := do
  let p ← s.getFirst other
  let s := { s with handles := s.handles ++ [some p] }
  pure (s.setFirst other 0)

/-- `UniquePtr& operator=(UniquePtr&& other)`. -/
def assign_move (s : State) (this other : Nat) : Except Fault State := do
  if this ≠ other then do
    let mine ← s.getFirst this
    let s := s.callDeleter mine
    let p ← s.getFirst other
    let s := s.setFirst this p
    pure (s.setFirst other 0)
  else do
    let _ ← s.getFirst this
    pure s

/-- `UniquePtr& operator=(std::nullptr_t)`. -/
def assign_nullptr (s : State) (this : Nat) : Except Fault State := do
  let mine ← s.getFirst this
  let s := s.callDeleter mine
  pure (s.setFirst this 0)

/-- `~UniquePtr()`: the deleter is called with the stored pointer, whatever it is. -/
def dtor (s : State) (this : Nat) : Except Fault State := do
  let mine ← s.getFirst this
  let s := s.callDeleter mine
  pure { s with handles := s.handles.set this none }

/-- `T* Release()`: the returned pointer and the state afterwards. -/
def Release (s : State) (this : Nat) : Except Fault (Ptr × State) := do
  let tmp ← s.getFirst this
  let s := s.setFirst this 0
  pure (tmp, s)

/-- `void Reset(T* ptr = nullptr)`. -/
def Reset (s : State) (this : Nat) (ptr : Ptr) : Except Fault State := do
  let tmp ← s.getFirst this
  let s := s.setFirst this ptr
  pure (s.callDeleter tmp)

/-- `T* Get() const`. -/
def Get (s : State) (this : Nat) : Except Fault Ptr := s.getFirst this

/-- `explicit operator bool() const`. -/
def toBool (s : State) (this : Nat) : Except Fault Bool := do
  let p ← s.getFirst this
  if p ≠ 0 then pure true else pure false

end UniquePtr

end Unique

/-! ## The intrusive pointer (`src/intrusive/intrusive.h`) -/

namespace Intrusive

open Weak (Fault)

/-- A pointer `T*` to an object of a class deriving from `RefCounted`; `none` is `nullptr`. -/
abbrev ObjPtr := Option Nat

/-- `class SimpleCounter`: `size_t count_` on a 64-bit target. -/
structure SimpleCounter where
  count_ : Nat
  deriving DecidableEq, Repr

namespace SimpleCounter

/-- `size_t IncRef()`: the counter afterwards and the value returned. -/
def IncRef (c : SimpleCounter) : SimpleCounter × Nat :=
  let c : SimpleCounter := { count_ := (c.count_ + 1) % 2 ^ 64 }
  (c, c.count_)

/-- `size_t DecRef()`: the counter afterwards and the value returned. -/
def DecRef (c : SimpleCounter) : SimpleCounter × Nat :=
  let c : SimpleCounter := { count_ := (c.count_ + 2 ^ 64 - 1) % 2 ^ 64 }
  (c, c.count_)

def RefCount (c : SimpleCounter) : Nat := c.count_

end SimpleCounter

/-- The `RefCounted<Derived, SimpleCounter, Deleter>` part of an object, with two ghost
counters: the number of `IncRef` calls and the number of `Deleter::Destroy` calls on it. -/
structure RefCounted where
  counter_ : SimpleCounter
  incRefs : Nat
  destroys : Nat
  deriving DecidableEq, Repr

namespace RefCounted

/-- An object constructed from arguments that are not an object of its own type: the
default member initialiser gives `size_t count_ = 0`. -/
def ctor : RefCounted := { counter_ := { count_ := 0 }, incRefs := 0, destroys := 0 }

/-- The implicit copy constructor `RefCounted(const RefCounted&)` (the class declares only
`operator=`): the member `counter_` is copied; the ghost counters of the new object start
at 0. -/
def copy (other : RefCounted) : RefCounted :=
  { counter_ := other.counter_, incRefs := 0, destroys := 0 }

/-- `RefCounted& operator=(const RefCounted&) { return *this; }`: the counter of the
assigned-to object is kept. -/
def assign (this _other : RefCounted) : RefCounted := this

/-- `void IncRef()`. -/
def IncRef (o : RefCounted) : RefCounted :=
  { o with counter_ := o.counter_.IncRef.1, incRefs := o.incRefs + 1 }

/-- `void DecRef()`: `if (counter_.DecRef() == 0) Deleter::Destroy(this)`. -/
def DecRef (o : RefCounted) : RefCounted :=
  let r := o.counter_.DecRef
  let o := { o with counter_ := r.1 }
  if r.2 = 0 then { o with destroys := o.destroys + 1 } else o

/-- `size_t RefCount() const`. -/
def RefCount (o : RefCounted) : Nat := o.counter_.RefCount

end RefCounted

/-- The arguments `args...` of `new T(args...)`, as far as the counter is concerned: values
from which `T` is built with a fresh `RefCounted` part, or an object of type `T` itself, from
which the implicit copy constructor of `T` copies the `RefCounted` part. -/
inductive CtorArgs
  | values
  | copyOf (src : ObjPtr)
  deriving DecidableEq, Repr

/-- Program state: the objects on the free store (a destroyed object stays in the list with
`destroys` raised) and the table of `IntrusivePtr` objects with their `ptr_` member (`none`
once the handle is destroyed). -/
structure State where
  objs : List RefCounted
  handles : List (Option ObjPtr)
  deriving DecidableEq, Repr

namespace State

def init : State := { objs := [], handles := [] }

/-- Read access `ptr->...`. -/
def read (s : State) : ObjPtr → Except Fault RefCounted
  | none => .error .nullDeref
  | some a =>
    match s.objs[a]? with
    | some o => if o.destroys = 0 then .ok o else .error .useAfterFree
    | none => .error .useAfterFree

/-- A call `ptr->f()` of a mutating member function. -/
def call (s : State) (p : ObjPtr) (f : RefCounted → RefCounted) : Except Fault State :=
  match p with
  | none => .error .nullDeref
  | some a =>
    match s.objs[a]? with
    | some o =>
      if o.destroys = 0 then .ok { s with objs := s.objs.set a (f o) }
      else .error .useAfterFree
    | none => .error .useAfterFree

/-- The expression `new T(...)` with arguments that are not an object of type `T`: the
fresh object and its address. -/
def newObj (s : State) : State × ObjPtr :=
  ({ s with objs := s.objs ++ [RefCounted.ctor] }, some s.objs.length)

/-- The expression `new T(*src)`: the new object is copy-constructed from the object at
`src`. -/
def newObjCopy (s : State) (src : ObjPtr) : Except Fault (State × ObjPtr) := do
  let o ← s.read src
  pure ({ s with objs := s.objs ++ [o.copy] }, some s.objs.length)

/-- The expression `new T(std::forward<Args>(args)...)`. -/
def construct (s : State) : CtorArgs → Except Fault (State × ObjPtr)
  | .values => pure s.newObj
  | .copyOf src => s.newObjCopy src

def getPtr (s : State) (i : Nat) : Except Fault ObjPtr :=
  match s.handles[i]? with
  | some (some p) => .ok p
  | _ => .error .deadHandle

def setPtr (s : State) (i : Nat) (p : ObjPtr) : State :=
  { s with handles := s.handles.set i (some p) }

/-- Storage for a handle under construction; its index is `s.handles.length`. -/
def newHandle (s : State) (p : ObjPtr) : State :=
  { s with handles := s.handles ++ [some p] }

/-- End of lifetime of a handle. -/
def endHandle (s : State) (i : Nat) : State :=
  { s with handles := s.handles.set i none }

end State

namespace IntrusivePtr

/-- `IntrusivePtr()`. -/
def ctor_default (s : State) : State := s.newHandle none

/-- `IntrusivePtr(std::nullptr_t)`. -/
def ctor_nullptr (s : State) : State := s.newHandle none

/-- `IntrusivePtr(T* ptr)` (and the `U*` template). -/
def ctor_ptr (s : State) (ptr : ObjPtr) : Except Fault State := do
  let s := s.newHandle ptr
  if ptr.isSome then s.call ptr RefCounted.IncRef else pure s

/-- `IntrusivePtr(const IntrusivePtr& other)` (and the converting template). -/
def ctor_copy (s : State) (other : Nat) : Except Fault State := do
  let o ← s.getPtr other
  let s := s.newHandle o
  if o.isSome then s.call o RefCounted.IncRef else pure s

/-- `IntrusivePtr(IntrusivePtr&& other)` (and the converting template). -/
def ctor_move (s : State) (other : Nat) : Except Fault State := do
  let o ← s.getPtr other
  let s := s.newHandle o
  pure (s.setPtr other none)

/-- `void Reset()`. -/
def Reset (s : State) (this : Nat) : Except Fault State := do
  let me ← s.getPtr this
  if me.isSome then do
    let s ← s.call me RefCounted.DecRef
    pure (s.setPtr this none)
  else pure s

/-- `~IntrusivePtr()`; afterwards the handle's lifetime has ended. -/
def dtor (s : State) (this : Nat) : Except Fault State := do
  let s ← Reset s this
  pure (s.endHandle this)

/-- `IntrusivePtr& operator=(const IntrusivePtr& other)`. -/
def assign (s : State) (this other : Nat) : Except Fault State := do
  let me ← s.getPtr this
  let o ← s.getPtr other
  if me ≠ o then do
    let s ← Reset s this
    let o ← s.getPtr other
    if o.isSome then do
      let s := s.setPtr this o
      s.call o RefCounted.IncRef
    else pure s
  else pure s

/-- `IntrusivePtr& operator=(IntrusivePtr&& other)`. -/
def assign_move (s : State) (this other : Nat) : Except Fault State := do
  if this ≠ other then do
    let s ← Reset s this
    let o ← s.getPtr other
    let s := s.setPtr this o
    pure (s.setPtr other none)
  else pure s

/-- `size_t UseCount() const`. -/
def UseCount (s : State) (this : Nat) : Except Fault Nat := do
  let me ← s.getPtr this
  if me.isSome then do
    let o ← s.read me
    pure o.RefCount
  else pure 0

end IntrusivePtr

/-- `MakeIntrusive<T>(args...)`: `T* a = new T(std::forward<Args>(args)...);
IntrusivePtr<T> t(a); return t;`. -/
def MakeIntrusive (s : State) (args : CtorArgs) : Except Fault State := do
  let (s, a) ← s.construct args
  IntrusivePtr.ctor_ptr s a

/-- One statement of a client program whose objects are all constructed from arguments that
are not an object of the same type (`newObj` and `make`). -/
inductive Op
  | newObj
  | default
  | fromRaw (ptr : ObjPtr)
  | copy (other : Nat)
  | move (other : Nat)
  | assign (this other : Nat)
  | assignMove (this other : Nat)
  | reset (this : Nat)
  | dtor (this : Nat)
  | make
  deriving DecidableEq, Repr

def step (s : State) : Op → Except Fault State
  | .newObj => pure s.newObj.1
  | .default => pure (IntrusivePtr.ctor_default s)
  | .fromRaw p => IntrusivePtr.ctor_ptr s p
  | .copy o => IntrusivePtr.ctor_copy s o
  | .move o => IntrusivePtr.ctor_move s o
  | .assign t o => IntrusivePtr.assign s t o
  | .assignMove t o => IntrusivePtr.assign_move s t o
  | .reset t => IntrusivePtr.Reset s t
  | .dtor t => IntrusivePtr.dtor s t
  | .make => MakeIntrusive s .values

/-- A statement that names a handle whose lifetime has ended (or that was never constructed)
is not part of a program: it is skipped. -/
def exec (s : State) (op : Op) : Except Fault State :=
  match step s op with
  | .error .deadHandle => .ok s
  | r => r

def run (s : State) (ops : List Op) : Except Fault State := ops.foldlM exec s

/-- The number of live handles whose `ptr_` is the object at address `a`. -/
def State.holders (s : State) (a : Nat) : Nat :=
  s.handles.countP (fun h => decide (h = some (some a)))

/-- The number of live handles that point where `p` points; `0` for `nullptr`. -/
def State.holdersOf (s : State) : ObjPtr → Nat
  | some a => s.holders a
  | none => 0

/-- What holds of an object that `n` live handles point at. -/
structure ObjInv (obj : RefCounted) (n : Nat) : Prop where
  count : obj.counter_.count_ = n
  held : 0 < n → 0 < obj.incRefs
  destroys : obj.destroys = if 0 < obj.incRefs ∧ n = 0 then 1 else 0

structure Inv (s : State) : Prop where
  obj : ∀ (a : Nat) (obj : RefCounted), s.objs[a]? = some obj → ObjInv obj (s.holders a)
  alloc : ∀ a : Nat, s.objs.length ≤ a → s.holders a = 0

/-- Objects stay where they are and their ghost counters never go down. -/
def Mono (s t : State) : Prop :=
  ∀ (a : Nat) (obj : RefCounted), s.objs[a]? = some obj →
    ∃ obj', t.objs[a]? = some obj' ∧ obj.incRefs ≤ obj'.incRefs ∧ obj.destroys ≤ obj'.destroys

structure Good (s t : State) : Prop where
  inv : Inv t
  mono : Mono s t
  len : t.handles.length ≤ s.handles.length + 1

end Intrusive

/-! ## The self-reference-aware `SharedPtr` (`src/shared-from-this/shared.h`)

The handle type is `SharedPtr<T>` for a `T` that derives from `EnableSharedFromThis<T>`, so
that every `if constexpr (std::is_convertible_v<T*, EnableSharedFromThisBase*>)` branch is
taken, except in the definitions named `_plain`, which are members of a handle type whose
value type lacks the capability and which shares blocks with `SharedPtr<T>`.  The control
blocks and the two handle classes have the members of the dual-count variant; what is new is
that a value carries an Observer Handle `weak_` and a flag `flag_`, and that the teardown of
a value destroys that observer. -/

namespace SelfRef

open Weak (Ptr BlockPtr Fault Payload BaseBlock toSizeT)

/-- `class SharedPtr<T>`: the two private members. -/
structure SharedPtr where
  block_ : BlockPtr
  ptr_ : Ptr
  deriving DecidableEq, Repr

/-- `class WeakPtr<T>`: the two private members. -/
structure WeakPtr where
  block_ : BlockPtr
  ptr_ : Ptr
  deriving DecidableEq, Repr

/-- The `EnableSharedFromThis<T>` part of a value: its two private members, and two ghost
counters: the number of `WeakInc` calls that `SetWeak` has made for this value, and the
number of times the destructor of the value has run. -/
structure EnableSharedFromThis where
  weak_ : WeakPtr
  flag_ : Bool
  setWeakIncs : Nat
  destroyed : Nat
  deriving DecidableEq, Repr

/-- What the ghost log records, in program order.  `weakInc` and `weakDec` carry the weak
count of the block after the call. -/
inductive Event
  | weakInc (b : Nat) (now : Int)
  | weakDec (b : Nat) (now : Int)
  | zeroStrongBegin (b : Nat)
  | zeroStrongEnd (b : Nat)
  | deleteBlock (b : Nat)
  deriving DecidableEq, Repr

/-- Program state: the free store of control blocks, the tables of handle objects, the
values of type `T` (the value at address `p`, `p ≠ 0`, is entry `p - 1`), and the ghost
log. -/
structure State where
  heap : List BaseBlock
  shared : List (Option SharedPtr)
  weak : List (Option WeakPtr)
  values : List EnableSharedFromThis
  log : List Event
  deriving DecidableEq, Repr

namespace State

def init : State := { heap := [], shared := [], weak := [], values := [], log := [] }

def record (s : State) (e : Event) : State := { s with log := s.log ++ [e] }

/-- Read access `block->...` through a control block pointer. -/
def deref (s : State) : BlockPtr → Except Fault BaseBlock
  | none => .error .nullDeref
  | some a =>
    match s.heap[a]? with
    | some blk => if blk.deletes = 0 then .ok blk else .error .useAfterFree
    | none => .error .useAfterFree

/-- A call `block->f()` of a mutating member function. -/
def call (s : State) (p : BlockPtr) (f : BaseBlock → BaseBlock) : Except Fault State :=
  match p with
  | none => .error .nullDeref
  | some a =>
    match s.heap[a]? with
    | some blk =>
      if blk.deletes = 0 then .ok { s with heap := s.heap.set a (f blk) }
      else .error .useAfterFree
    | none => .error .useAfterFree

/-- The call `block->WeakInc()`, recorded in the log. -/
def WeakInc (s : State) (p : BlockPtr) : Except Fault State :=
  match p with
  | none => .error .nullDeref
  | some a =>
    match s.heap[a]? with
    | some blk =>
      if blk.deletes = 0 then
        .ok { s with heap := s.heap.set a blk.WeakInc,
                     log := s.log ++ [.weakInc a blk.WeakInc.weak_count_] }
      else .error .useAfterFree
    | none => .error .useAfterFree

/-- The call `block->WeakDec()`, recorded in the log. -/
def WeakDec (s : State) (p : BlockPtr) : Except Fault State :=
  match p with
  | none => .error .nullDeref
  | some a =>
    match s.heap[a]? with
    | some blk =>
      if blk.deletes = 0 then
        .ok { s with heap := s.heap.set a blk.WeakDec,
                     log := s.log ++ [.weakDec a blk.WeakDec.weak_count_] }
      else .error .useAfterFree
    | none => .error .useAfterFree

/-- The expression `delete block`, recorded in the log. -/
def delete (s : State) : BlockPtr → Except Fault State
  | none => .ok s
  | some a =>
    match s.heap[a]? with
    | some blk =>
      if blk.deletes = 0 then
        .ok { s with heap := s.heap.set a { blk with deletes := blk.deletes + 1 },
                     log := s.log ++ [.deleteBlock a] }
      else .error .doubleFree
    | none => .error .doubleFree

/-- The expression `new Block(...)`: the fresh block and its address. -/
def alloc (s : State) (blk : BaseBlock) : State × BlockPtr :=
  ({ s with heap := s.heap ++ [blk] }, some s.heap.length)

def getShared (s : State) (i : Nat) : Except Fault SharedPtr :=
  match s.shared[i]? with
  | some (some p) => .ok p
  | _ => .error .deadHandle

def setShared (s : State) (i : Nat) (p : SharedPtr) : State :=
  { s with shared := s.shared.set i (some p) }

/-- Storage for a handle under construction; its index is `s.shared.length`. -/
def newShared (s : State) (p : SharedPtr) : State :=
  { s with shared := s.shared ++ [some p] }

/-- End of lifetime of a handle. -/
def endShared (s : State) (i : Nat) : State :=
  { s with shared := s.shared.set i none }

def getWeak (s : State) (i : Nat) : Except Fault WeakPtr :=
  match s.weak[i]? with
  | some (some p) => .ok p
  | _ => .error .deadHandle

def newWeak (s : State) (p : WeakPtr) : State :=
  { s with weak := s.weak ++ [some p] }

def endWeak (s : State) (i : Nat) : State :=
  { s with weak := s.weak.set i none }

/-- The value at address `p`, whether its destructor has run or not. -/
def valueAt? (s : State) (p : Ptr) : Option EnableSharedFromThis :=
  if p = 0 then none else s.values[p - 1]?

/-- Member access `ptr->...` through a pointer to a value. -/
def getValue (s : State) (p : Ptr) : Except Fault EnableSharedFromThis :=
  if p = 0 then .error .nullDeref
  else
    match s.values[p - 1]? with
    | some v => if v.destroyed = 0 then .ok v else .error .useAfterFree
    | none => .error .useAfterFree

def setValue (s : State) (p : Ptr) (v : EnableSharedFromThis) : State :=
  { s with values := s.values.set (p - 1) v }

/-- Construction of a value of type `T` (by `new T(...)` or in the buffer of a
`ValueBlock`): `weak_` is default-constructed and `flag_` is `false`.  The result is the
state and the address of the value. -/
def newValue (s : State) : State × Ptr :=
  ({ s with values := s.values ++
      [{ weak_ := { block_ := none, ptr_ := 0 }, flag_ := false, setWeakIncs := 0,
         destroyed := 0 }] },
   s.values.length + 1)

end State

/-- `WeakPtr(const WeakPtr& other)` of `src/weak/weak.h`; `other` is passed by value because
the observer copied from may be a member of a value.  The new handle is entry
`s.weak.length`. -/
def WeakPtr.ctor_copy (s : State) (other : WeakPtr) : Except Fault State := do
  let s := s.newWeak { block_ := other.block_, ptr_ := other.ptr_ }
  if other.block_.isSome then s.WeakInc other.block_ else pure s

/-- The body of `~WeakPtr()` of `src/weak/weak.h`, run on the observer `me`. -/
def WeakPtr.release (s : State) (me : WeakPtr) : Except Fault State := do
  if me.block_.isSome then do
    let s ← s.WeakDec me.block_
    let blk ← s.deref me.block_
    if blk.GetStrongCount = 0 ∧ blk.GetWeakCount = 0 then s.delete me.block_ else pure s
  else pure s

/-- `~WeakPtr()` on a handle of the table; afterwards its lifetime has ended. -/
def WeakPtr.dtor (s : State) (this : Nat) : Except Fault State := do
  let me ← s.getWeak this
  let s ← WeakPtr.release s me
  pure (s.endWeak this)

/-- Modelled from the spec: `WeakPtr::SetBlock` of the self-reference-aware variant's
`weak.h`, which is not among the sources; taken to replace the block reference of the stored
observer, as `SharedPtr::SetBlock` does for an Owning Handle. -/
def WeakPtr.SetBlock (w : WeakPtr) (other : BlockPtr) : WeakPtr := { w with block_ := other }

/-- Modelled from the spec: `WeakPtr::SetPtr` of the self-reference-aware variant's `weak.h`,
which is not among the sources; taken to replace the cached access pointer of the stored
observer, as `SharedPtr::SetPtr` does for an Owning Handle. -/
def WeakPtr.SetPtr (w : WeakPtr) (ptr : Ptr) : WeakPtr := { w with ptr_ := ptr }

/-- The destructor of a value, `~T()`: the body written by the client is assumed not to touch
handles; the member `weak_` is then destroyed by `~WeakPtr()`. -/
def destroyValue (s : State) (p : Ptr) : Except Fault State := do
  let v ← s.getValue p
  let s ← WeakPtr.release s v.weak_
  pure (s.setValue p { v with destroyed := v.destroyed + 1 })

/-- The virtual `ZeroStrongCount()`: `PtrBlock` runs `delete ptr_; ptr_ = nullptr;`,
`ValueBlock` runs `Get()->~T()`.  The call is counted on entry. -/
def ZeroStrongCount (s : State) (bp : BlockPtr) : Except Fault State := do
  let blk ← s.deref bp
  let s ← s.call bp (fun b => { b with zeroStrongCalls := b.zeroStrongCalls + 1 })
  match bp, blk.payload with
  | some b, .ptrBlock p => do
    let s := s.record (.zeroStrongBegin b)
    let s ← (if p ≠ 0 then destroyValue s p else pure s)
    let s ← s.call bp (fun b => { b with payload := .ptrBlock 0 })
    pure (s.record (.zeroStrongEnd b))
  | some b, .valueBlock a => do
    let s := s.record (.zeroStrongBegin b)
    let s ← destroyValue s a
    pure (s.record (.zeroStrongEnd b))
  | none, _ => .error .nullDeref

namespace EnableSharedFromThis

/-- `void SetWeak(const SharedPtr<T>& weak)`, called as `this->SetWeak(weak)`. -/
def SetWeak (s : State) (this : Ptr) (weak : SharedPtr) : Except Fault State := do
  let v ← s.getValue this
  let v := { v with weak_ := WeakPtr.SetBlock v.weak_ weak.block_ }
  let v := { v with weak_ := WeakPtr.SetPtr v.weak_ weak.ptr_ }
  let s := s.setValue this v
  if v.flag_ = false ∧ v.weak_.block_.isSome then do
    let s ← s.WeakInc v.weak_.block_
    pure (s.setValue this { v with flag_ := true, setWeakIncs := v.setWeakIncs + 1 })
  else pure s

end EnableSharedFromThis

namespace SharedPtr

/-- `void AddObj()`. -/
def AddObj (s : State) (this : Nat) : Except Fault State := do
  let me ← s.getShared this
  if me.block_.isSome then s.call me.block_ BaseBlock.StrongInc else pure s

/-- The statement `ptr_->SetWeak(*this)` that ends the constructors and assignments. -/
def registerSelf (s : State) (this : Nat) : Except Fault State := do
  let me ← s.getShared this
  EnableSharedFromThis.SetWeak s me.ptr_ me

/-- `SharedPtr()`: `block_ = nullptr; ptr_ = nullptr; ptr_->SetWeak(nullptr);`.  The member
access through `ptr_` is sequenced before the argument; the argument, a temporary made by
`SharedPtr(std::nullptr_t)`, is taken to be the empty handle. -/
def ctor_default (s : State) : Except Fault State := do
  let this := s.shared.length
  let s := s.newShared { block_ := none, ptr_ := 0 }
  let me ← s.getShared this
  EnableSharedFromThis.SetWeak s me.ptr_ { block_ := none, ptr_ := 0 }

/-- `SharedPtr(std::nullptr_t)`: the same body as `SharedPtr()`. -/
def ctor_nullptr (s : State) : Except Fault State := do
  let this := s.shared.length
  let s := s.newShared { block_ := none, ptr_ := 0 }
  let me ← s.getShared this
  EnableSharedFromThis.SetWeak s me.ptr_ { block_ := none, ptr_ := 0 }

/-- `explicit SharedPtr(T* ptr)` (and the `Y*` template, which has the same body). -/
def ctor_ptr (s : State) (ptr : Ptr) : Except Fault State := do
  let this := s.shared.length
  let s := s.newShared { block_ := none, ptr_ := 0 }
  let s ← (if ptr ≠ 0 then do
      let (s, b) := s.alloc (Weak.PtrBlock.ctor ptr)
      let me ← s.getShared this
      let s := s.setShared this { me with block_ := b }
      AddObj s this
    else pure s)
  let me ← s.getShared this
  let s := s.setShared this { me with ptr_ := ptr }
  registerSelf s this

/-- `SharedPtr(const SharedPtr& other)` (and the converting template). -/
def ctor_copy (s : State) (other : Nat) : Except Fault State := do
  let o ← s.getShared other
  let this := s.shared.length
  let s := s.newShared { block_ := o.block_, ptr_ := o.ptr_ }
  let s ← AddObj s this
  registerSelf s this

/-- `SharedPtr(SharedPtr&& other)` (and the converting template): `SetWeak` comes before
`other` is emptied. -/
def ctor_move (s : State) (other : Nat) : Except Fault State := do
  let o ← s.getShared other
  let this := s.shared.length
  let s := s.newShared { block_ := o.block_, ptr_ := o.ptr_ }
  let s ← registerSelf s this
  pure (s.setShared other { block_ := none, ptr_ := 0 })

/-- `SharedPtr(T* ptr, BaseBlock* block)`. -/
def ctor_ptr_block (s : State) (ptr : Ptr) (block : BlockPtr) : Except Fault State := do
  let this := s.shared.length
  let s := s.newShared { block_ := block, ptr_ := ptr }
  registerSelf s this

/-- The aliasing constructor `SharedPtr(const SharedPtr<Y>& other, T* ptr)`. -/
def ctor_alias (s : State) (other : Nat) (ptr : Ptr) : Except Fault State := do
  let o ← s.getShared other
  let this := s.shared.length
  let s := s.newShared { block_ := o.block_, ptr_ := 0 }
  let s ← AddObj s this
  let me ← s.getShared this
  let s := s.setShared this { me with ptr_ := ptr }
  registerSelf s this

/-- Promotion `explicit SharedPtr(const WeakPtr<T>& other)`; `throw BadWeakPtr()` is the
fault `badWeakPtr`.  `other` is read once, at the start, and passed by value because it may
be the member `weak_` of a value. -/
def ctor_weak (s : State) (other : WeakPtr) : Except Fault State := do
  let this := s.shared.length
  let s := s.newShared { block_ := other.block_, ptr_ := other.ptr_ }
  let expired ← (if other.block_.isSome then do
      let blk ← s.deref other.block_
      pure (decide (blk.GetStrongCount = 0))
    else pure false)
  if expired then throw Fault.badWeakPtr
  else do
    let s ← (if other.block_.isSome then s.call other.block_ BaseBlock.StrongInc else pure s)
    registerSelf s this

/-- The common part of `~SharedPtr()` and `Reset()`.  `cap` is the `if constexpr` condition
evaluated for the value type of the handle that runs it: `true` for `SharedPtr<T>` with `T`
deriving from `EnableSharedFromThis<T>`, `false` for a handle type whose value type does not
convert to `EnableSharedFromThisBase*`. -/
def release (cap : Bool) (s : State) (me : SharedPtr) : Except Fault State := do
  if me.block_.isSome then do
    let s ← s.call me.block_ BaseBlock.StrongDec
    let blk ← s.deref me.block_
    if blk.GetStrongCount = 0 then do
      let s ← (if cap then s.WeakInc me.block_ else pure s)
      let s ← ZeroStrongCount s me.block_
      let s ← (if cap then s.WeakDec me.block_ else pure s)
      let blk ← s.deref me.block_
      if blk.GetWeakCount = 0 then s.delete me.block_ else pure s
    else pure s
  else pure s

/-- `~SharedPtr()` of `SharedPtr<T>`; afterwards the handle's lifetime has ended. -/
def dtor (s : State) (this : Nat) : Except Fault State := do
  let me ← s.getShared this
  let s ← release true s me
  pure (s.endShared this)

/-- `void Reset()` of `SharedPtr<T>`. -/
def Reset (s : State) (this : Nat) : Except Fault State := do
  let me ← s.getShared this
  let s ← release true s me
  pure (s.setShared this { block_ := none, ptr_ := 0 })

/-- The aliasing constructor `SharedPtr<U>(const SharedPtr<Y>& other, U* ptr)` for a handle
type whose value type `U` does not convert to `EnableSharedFromThisBase*` (a member of the
value, say): the `if constexpr` statement is discarded. -/
def ctor_alias_plain (s : State) (other : Nat) (ptr : Ptr) : Except Fault State := do
  let o ← s.getShared other
  let this := s.shared.length
  let s := s.newShared { block_ := o.block_, ptr_ := 0 }
  let s ← AddObj s this
  let me ← s.getShared this
  pure (s.setShared this { me with ptr_ := ptr })

/-- `~SharedPtr()` of a handle type whose value type does not convert to
`EnableSharedFromThisBase*`: the two `if constexpr` statements are discarded. -/
def dtor_plain (s : State) (this : Nat) : Except Fault State := do
  let me ← s.getShared this
  let s ← release false s me
  pure (s.endShared this)

/-- `void Reset()` of a handle type whose value type does not convert to
`EnableSharedFromThisBase*`. -/
def Reset_plain (s : State) (this : Nat) : Except Fault State := do
  let me ← s.getShared this
  let s ← release false s me
  pure (s.setShared this { block_ := none, ptr_ := 0 })

/-- `SharedPtr& operator=(const SharedPtr& other)`; `other` is read after `Reset()`. -/
def assign (s : State) (this other : Nat) : Except Fault State := do
  let s ← Reset s this
  let o ← s.getShared other
  let me ← s.getShared this
  let s := s.setShared this { me with block_ := o.block_ }
  let s ← AddObj s this
  let o ← s.getShared other
  let me ← s.getShared this
  let s := s.setShared this { me with ptr_ := o.ptr_ }
  registerSelf s this

/-- `SharedPtr& operator=(SharedPtr&& other)`: `SetWeak` comes after `other` is emptied. -/
def assign_move (s : State) (this other : Nat) : Except Fault State := do
  let s ← Reset s this
  let o ← s.getShared other
  let s := s.setShared this { block_ := o.block_, ptr_ := o.ptr_ }
  let s := s.setShared other { block_ := none, ptr_ := 0 }
  registerSelf s this

/-- `size_t UseCount() const`. -/
def UseCount (s : State) (this : Nat) : Except Fault Nat := do
  let me ← s.getShared this
  if me.block_.isSome then do
    let blk ← s.deref me.block_
    pure (toSizeT blk.GetStrongCount)
  else pure 0

end SharedPtr

/-- `MakeShared<T>(args...)`: the value is constructed in the buffer of a new `ValueBlock`. -/
def MakeShared (s : State) : Except Fault State := do
  let (s, addr) := s.newValue
  let (s, tmp) := s.alloc (Weak.ValueBlock.ctor addr)
  let s ← s.call tmp BaseBlock.StrongInc
  let blk ← s.deref tmp
  SharedPtr.ctor_ptr_block s blk.Get tmp

namespace EnableSharedFromThis

/-- `SharedPtr<T> SharedFromThis()`, called on the value at address `this`:
`return SharedPtr<T>(weak_);`. -/
def SharedFromThis (s : State) (this : Ptr) : Except Fault State := do
  let v ← s.getValue this
  SharedPtr.ctor_weak s v.weak_

/-- `WeakPtr<T> WeakFromThis()`, called on the value at address `this`:
`return WeakPtr<T>(weak_);`. -/
def WeakFromThis (s : State) (this : Ptr) : Except Fault State := do
  let v ← s.getValue this
  WeakPtr.ctor_copy s v.weak_

end EnableSharedFromThis

/-- One statement of a client program.  `newValue` is `new T(...)`; handles are named by
their index in the tables, values by their address. -/
inductive Op
  | newValue
  | default
  | null
  | wrap (ptr : Ptr)
  | copy (other : Nat)
  | move (other : Nat)
  | aliasing (other : Nat) (ptr : Ptr)
  | promote (other : Nat)
  | assign (this other : Nat)
  | assignMove (this other : Nat)
  | reset (this : Nat)
  | dtor (this : Nat)
  | make
  | sharedFromThis (value : Ptr)
  | weakFromThis (value : Ptr)
  | weakDtor (this : Nat)
  deriving DecidableEq, Repr

def step (s : State) : Op → Except Fault State
  | .newValue => pure s.newValue.1
  | .default => SharedPtr.ctor_default s
  | .null => SharedPtr.ctor_nullptr s
  | .wrap p => SharedPtr.ctor_ptr s p
  | .copy o => SharedPtr.ctor_copy s o
  | .move o => SharedPtr.ctor_move s o
  | .aliasing o p => SharedPtr.ctor_alias s o p
  | .promote w => do
    let o ← s.getWeak w
    SharedPtr.ctor_weak s o
  | .assign t o => SharedPtr.assign s t o
  | .assignMove t o => SharedPtr.assign_move s t o
  | .reset t => SharedPtr.Reset s t
  | .dtor t => SharedPtr.dtor s t
  | .make => MakeShared s
  | .sharedFromThis p => EnableSharedFromThis.SharedFromThis s p
  | .weakFromThis p => EnableSharedFromThis.WeakFromThis s p
  | .weakDtor w => WeakPtr.dtor s w

/-- A statement that names a handle whose lifetime has ended (or that was never constructed)
is not part of a program: it is skipped. -/
def exec (s : State) (op : Op) : Except Fault State :=
  match step s op with
  | .error .deadHandle => .ok s
  | r => r

def run (s : State) (ops : List Op) : Except Fault State := ops.foldlM exec s

end SelfRef

/-! ## The constructor of `ValueBlock`, statement by statement -/

namespace Weak

/-- What the body of `ValueBlock<T>::ValueBlock(Args&&...)` does, in program order.
`placementNew` carries the two counters as the constructor of `T` would find them, `none`
for an `int` that has not been written yet. -/
inductive CtorEvent
  | placementNew (weak strong : Option Int)
  | writeWeakCount (x : Int)
  | writeStrongCount (x : Int)
  deriving DecidableEq, Repr

/-- A `ValueBlock<T>` while its constructor runs.  `BaseBlock` declares
`int weak_count_; int strong_count_;` without initialisers and has no constructor, so a
counter is `none` until its first write.  `constructed` says whether a `T` lives in
`buffer_`; `trace` is the ghost record of the statements executed so far. -/
structure ValueBlockStorage where
  weak_count_ : Option Int
  strong_count_ : Option Int
  constructed : Bool
  trace : List CtorEvent
  deriving DecidableEq, Repr

namespace ValueBlockStorage

/-- The storage as `operator new` and the default-initialised base class leave it, on entry
to the constructor body. -/
def raw : ValueBlockStorage :=
  { weak_count_ := none, strong_count_ := none, constructed := false, trace := [] }

/-- The statement `new (&buffer_) T(std::forward<Args>(args)...);`. -/
def placementNew (b : ValueBlockStorage) : ValueBlockStorage :=
  { b with constructed := true,
           trace := b.trace ++ [.placementNew b.weak_count_ b.strong_count_] }

/-- The statement `GetWeakCount() = x;`. -/
def setWeakCount (b : ValueBlockStorage) (x : Int) : ValueBlockStorage :=
  { b with weak_count_ := some x, trace := b.trace ++ [.writeWeakCount x] }

/-- The statement `GetStrongCount() = x;`. -/
def setStrongCount (b : ValueBlockStorage) (x : Int) : ValueBlockStorage :=
  { b with strong_count_ := some x, trace := b.trace ++ [.writeStrongCount x] }

/-- The finished block, once the value is constructed and both counters are written;
`addr` is the address of `buffer_`. -/
def finish (b : ValueBlockStorage) (addr : Ptr) : Option BaseBlock :=
  match b.constructed, b.weak_count_, b.strong_count_ with
  | true, some w, some s =>
    some { weak_count_ := w, strong_count_ := s, payload := .valueBlock addr,
           zeroStrongCalls := 0, deletes := 0 }
  | _, _, _ => none

end ValueBlockStorage

/-- The body of `ValueBlock<T>::ValueBlock(Args&&... args)`, in the order of the source
(the same three statements in `src/weak/shared.h` and `src/shared-from-this/shared.h`). -/
def ValueBlock.ctor_body (b : ValueBlockStorage) : ValueBlockStorage :=
  let b := b.placementNew
  let b := b.setWeakCount 0
  b.setStrongCount 0

/-- In the trace `t`, both counters have been written before every placement construction:
`w` and `s` say whether a write of the weak and of the strong counter has been seen. -/
def countersWrittenFirst (w s : Bool) : List CtorEvent → Bool
  | [] => true
  | .placementNew _ _ :: t => w && s && countersWrittenFirst w s t
  | .writeWeakCount _ :: t => countersWrittenFirst true s t
  | .writeStrongCount _ :: t => countersWrittenFirst w true t

/-- In the trace `t`, the placement construction has happened before every counter write:
`c` says whether it has been seen. -/
def valueConstructedFirst (c : Bool) : List CtorEvent → Bool
  | [] => true
  | .placementNew _ _ :: t => valueConstructedFirst true t
  | .writeWeakCount _ :: t => c && valueConstructedFirst c t
  | .writeStrongCount _ :: t => c && valueConstructedFirst c t

end Weak

/-! ## Values that hold handles (`src/weak`) -/

namespace Weak

/-- The virtual `ZeroStrongCount()` with the destructor of the value spelled out.
`teardown` is what `~T()` does to the program state: it runs the destructors of the members
of the value, among them those of the handles that the value holds.  `PtrBlock` runs
`delete ptr_; ptr_ = nullptr;`; `ValueBlock` runs `Get()->~T();` and writes no member of the
block afterwards, so its call is counted on entry. -/
def ZeroStrongCount_running (teardown : State → Except Fault State) (s : State)
    (bp : BlockPtr) : Except Fault State := do
  let blk ← s.deref bp
  match blk.payload with
  | .ptrBlock p => do
    let s ← (if p ≠ 0 then teardown s else pure s)
    s.call bp BaseBlock.ZeroStrongCount
  | .valueBlock _ => do
    let s ← s.call bp BaseBlock.ZeroStrongCount
    teardown s

/-- `~SharedPtr()` of `src/weak/shared.h`, with `teardown` the destructor of the value that
the block owns. -/
def SharedPtr.dtor_running (teardown : State → Except Fault State) (s : State)
    (this : Nat) : Except Fault State := do
  let me ← s.getShared this
  let s ← (if me.block_.isSome then do
      let s ← s.call me.block_ BaseBlock.StrongDec
      let blk ← s.deref me.block_
      if blk.GetStrongCount = 0 then do
        let s ← ZeroStrongCount_running teardown s me.block_
        let blk ← s.deref me.block_
        if blk.GetWeakCount = 0 then s.delete me.block_ else pure s
      else pure s
    else pure s)
  pure (s.endShared this)

/-- `void Reset()` of `src/weak/shared.h`, with `teardown` the destructor of the value that
the block owns. -/
def SharedPtr.Reset_running (teardown : State → Except Fault State) (s : State)
    (this : Nat) : Except Fault State := do
  let me ← s.getShared this
  let s ← (if me.block_.isSome then do
      let s ← s.call me.block_ BaseBlock.StrongDec
      let blk ← s.deref me.block_
      if blk.GetStrongCount = 0 then do
        let s ← ZeroStrongCount_running teardown s me.block_
        let blk ← s.deref me.block_
        if blk.GetWeakCount = 0 then s.delete me.block_ else pure s
      else pure s
    else pure s)
  pure (s.setShared this { block_ := none, ptr_ := 0 })

end Weak

/-! ## Lemmas -/

namespace Weak


theorem countP_set_getElem? {α : Type} (p : α → Bool) (l : List α) (i : Nat) (a x : α)
    (h : l[i]? = some a) :
    (l.set i x).countP p + (p a).toNat = l.countP p + (p x).toNat := by
  induction l generalizing i with
  | nil => simp at h
  | cons y l ih =>
    cases i with
    | zero =>
      simp at h
      subst h
      simp [List.countP_cons]
      cases p y <;> cases p x <;> simp
    | succ i =>
      simp at h
      have := ih i h
      simp [List.countP_cons]
      omega

theorem countP_push {α : Type} (p : α → Bool) (l : List α) (x : α) :
    (l ++ [x]).countP p = l.countP p + (p x).toNat := by
  simp [List.countP_cons]
  cases p x <;> simp

@[simp] theorem ZeroStrongCount_deletes (blk : BaseBlock) :
    blk.ZeroStrongCount.deletes = blk.deletes := by
  unfold BaseBlock.ZeroStrongCount; split <;> rfl

@[simp] theorem ZeroStrongCount_strong (blk : BaseBlock) :
    blk.ZeroStrongCount.strong_count_ = blk.strong_count_ := by
  unfold BaseBlock.ZeroStrongCount; split <;> rfl

@[simp] theorem ZeroStrongCount_weak (blk : BaseBlock) :
    blk.ZeroStrongCount.weak_count_ = blk.weak_count_ := by
  unfold BaseBlock.ZeroStrongCount; split <;> rfl

@[simp] theorem ZeroStrongCount_calls (blk : BaseBlock) :
    blk.ZeroStrongCount.zeroStrongCalls = blk.zeroStrongCalls + 1 := by
  unfold BaseBlock.ZeroStrongCount; split <;> rfl

@[simp] theorem StrongDec_deletes (blk : BaseBlock) : blk.StrongDec.deletes = blk.deletes := rfl
@[simp] theorem StrongDec_strong (blk : BaseBlock) :
    blk.StrongDec.strong_count_ = blk.strong_count_ - 1 := rfl
@[simp] theorem StrongDec_weak (blk : BaseBlock) : blk.StrongDec.weak_count_ = blk.weak_count_ := rfl
@[simp] theorem StrongDec_calls (blk : BaseBlock) :
    blk.StrongDec.zeroStrongCalls = blk.zeroStrongCalls := rfl
@[simp] theorem StrongInc_deletes (blk : BaseBlock) : blk.StrongInc.deletes = blk.deletes := rfl
@[simp] theorem StrongInc_strong (blk : BaseBlock) :
    blk.StrongInc.strong_count_ = blk.strong_count_ + 1 := rfl
@[simp] theorem StrongInc_weak (blk : BaseBlock) : blk.StrongInc.weak_count_ = blk.weak_count_ := rfl
@[simp] theorem StrongInc_calls (blk : BaseBlock) :
    blk.StrongInc.zeroStrongCalls = blk.zeroStrongCalls := rfl
@[simp] theorem WeakDec_deletes (blk : BaseBlock) : blk.WeakDec.deletes = blk.deletes := rfl
@[simp] theorem WeakDec_strong (blk : BaseBlock) :
    blk.WeakDec.strong_count_ = blk.strong_count_ := rfl
@[simp] theorem WeakDec_weak (blk : BaseBlock) :
    blk.WeakDec.weak_count_ = blk.weak_count_ - 1 := rfl
@[simp] theorem WeakDec_calls (blk : BaseBlock) :
    blk.WeakDec.zeroStrongCalls = blk.zeroStrongCalls := rfl
@[simp] theorem WeakInc_deletes (blk : BaseBlock) : blk.WeakInc.deletes = blk.deletes := rfl
@[simp] theorem WeakInc_strong (blk : BaseBlock) :
    blk.WeakInc.strong_count_ = blk.strong_count_ := rfl
@[simp] theorem WeakInc_weak (blk : BaseBlock) :
    blk.WeakInc.weak_count_ = blk.weak_count_ + 1 := rfl
@[simp] theorem WeakInc_calls (blk : BaseBlock) :
    blk.WeakInc.zeroStrongCalls = blk.zeroStrongCalls := rfl

theorem lt_of_getElem? {α : Type} {l : List α} {i : Nat} {a : α} (h : l[i]? = some a) :
    i < l.length := by
  rcases Nat.lt_or_ge i l.length with h1 | h1
  · exact h1
  · rw [List.getElem?_eq_none h1] at h; cases h

@[simp] theorem set_concat_length {α : Type} (l : List α) (x y : α) :
    (l ++ [x]).set l.length y = l ++ [y] := by
  rw [List.set_append_right _ _ (Nat.le_refl _)]; simp

@[simp] theorem getElem?_concat_length_self {α : Type} (l : List α) (x : α) :
    (l ++ [x])[l.length]? = some x := List.getElem?_concat_length l x

theorem Reset_some {s : State} {i b : Nat} {p : Ptr} {blk : BaseBlock}
    (h1 : s.shared[i]? = some (some ⟨some b, p⟩)) (h2 : s.heap[b]? = some blk)
    (h3 : blk.deletes = 0) :
    SharedPtr.Reset s i =
      .ok { heap := s.heap.set b blk.strongRelease,
            shared := s.shared.set i (some ⟨none, 0⟩), weak := s.weak } := by
  have hb : b < s.heap.length := lt_of_getElem? h2
  simp only [SharedPtr.Reset, State.getShared, h1, State.call, State.deref, h2, h3, bind,
    Except.bind, pure, Except.pure, Option.isSome, ite_true, List.getElem?_set, hb,
    List.length_set, BaseBlock.GetStrongCount, BaseBlock.GetWeakCount, BaseBlock.strongRelease,
    State.setShared, State.delete, List.set_set, ZeroStrongCount_deletes, StrongDec_deletes,
    ZeroStrongCount_weak, StrongDec_weak, StrongDec_strong]
  split_ifs <;> simp

theorem Reset_none {s : State} {i : Nat} {p : Ptr}
    (h1 : s.shared[i]? = some (some ⟨none, p⟩)) :
    SharedPtr.Reset s i = .ok { s with shared := s.shared.set i (some ⟨none, 0⟩) } := by
  simp [SharedPtr.Reset, State.getShared, h1, bind, Except.bind, pure, Except.pure,
    State.setShared]

theorem dtor_some {s : State} {i b : Nat} {p : Ptr} {blk : BaseBlock}
    (h1 : s.shared[i]? = some (some ⟨some b, p⟩)) (h2 : s.heap[b]? = some blk)
    (h3 : blk.deletes = 0) :
    SharedPtr.dtor s i =
      .ok { heap := s.heap.set b blk.strongRelease,
            shared := s.shared.set i none, weak := s.weak } := by
  have hb : b < s.heap.length := lt_of_getElem? h2
  simp only [SharedPtr.dtor, State.getShared, h1, State.call, State.deref, h2, h3, bind,
    Except.bind, pure, Except.pure, Option.isSome, ite_true, List.getElem?_set, hb,
    List.length_set, BaseBlock.GetStrongCount, BaseBlock.GetWeakCount, BaseBlock.strongRelease,
    State.endShared, State.delete, List.set_set, ZeroStrongCount_deletes, StrongDec_deletes,
    ZeroStrongCount_weak, StrongDec_weak, StrongDec_strong]
  split_ifs <;> simp

theorem dtor_none {s : State} {i : Nat} {p : Ptr}
    (h1 : s.shared[i]? = some (some ⟨none, p⟩)) :
    SharedPtr.dtor s i = .ok { s with shared := s.shared.set i none } := by
  simp [SharedPtr.dtor, State.getShared, h1, bind, Except.bind, pure, Except.pure,
    State.endShared]

theorem getShared_dead {s : State} {i : Nat} (h : ∀ p, s.shared[i]? ≠ some (some p)) :
    s.getShared i = .error .deadHandle := by
  unfold State.getShared
  split
  · rename_i p hp; exact absurd hp (h p)
  · rfl

theorem getWeak_dead {s : State} {i : Nat} (h : ∀ p, s.weak[i]? ≠ some (some p)) :
    s.getWeak i = .error .deadHandle := by
  unfold State.getWeak
  split
  · rename_i p hp; exact absurd hp (h p)
  · rfl

theorem ctor_ptr_null (s : State) :
    SharedPtr.ctor_ptr s 0 = .ok { s with shared := (s.shared ++ [some ⟨none, 0⟩]) } := by
  simp [SharedPtr.ctor_ptr, State.newShared, State.getShared, bind, Except.bind, pure,
    Except.pure, State.setShared]

theorem ctor_ptr_some (s : State) {ptr : Ptr} (h : ptr ≠ 0) :
    SharedPtr.ctor_ptr s ptr =
      .ok { heap := s.heap ++ [(PtrBlock.ctor ptr).StrongInc],
            shared := s.shared ++ [some ⟨some s.heap.length, ptr⟩], weak := s.weak } := by
  simp [SharedPtr.ctor_ptr, State.newShared, State.getShared, bind, Except.bind, pure,
    Except.pure, State.setShared, h, State.alloc, SharedPtr.AddObj, State.call, PtrBlock.ctor]

theorem ctor_copy_none {s : State} {j : Nat} {p : Ptr}
    (h1 : s.shared[j]? = some (some ⟨none, p⟩)) :
    SharedPtr.ctor_copy s j = .ok { s with shared := (s.shared ++ [some ⟨none, p⟩]) } := by
  simp [SharedPtr.ctor_copy, State.newShared, State.getShared, bind, Except.bind, pure,
    Except.pure, h1, SharedPtr.AddObj]

theorem ctor_copy_some {s : State} {j b : Nat} {p : Ptr} {blk : BaseBlock}
    (h1 : s.shared[j]? = some (some ⟨some b, p⟩)) (h2 : s.heap[b]? = some blk)
    (h3 : blk.deletes = 0) :
    SharedPtr.ctor_copy s j =
      .ok { heap := s.heap.set b blk.StrongInc,
            shared := s.shared ++ [some ⟨some b, p⟩], weak := s.weak } := by
  simp [SharedPtr.ctor_copy, State.newShared, State.getShared, bind, Except.bind, pure,
    Except.pure, h1, SharedPtr.AddObj, State.call, h2, h3]

theorem ctor_move_eq {s : State} {j : Nat} {o : SharedPtr}
    (h1 : s.shared[j]? = some (some o)) :
    SharedPtr.ctor_move s j = .ok { s with shared := (s.shared.set j (some ⟨none, 0⟩) ++ [some o]) } := by
  have hj := lt_of_getElem? h1
  simp [SharedPtr.ctor_move, State.newShared, State.getShared, bind, Except.bind, pure,
    Except.pure, h1, State.setShared, List.set_append_left _ _ hj]

theorem ctor_alias_none {s : State} {j : Nat} {p ptr : Ptr}
    (h1 : s.shared[j]? = some (some ⟨none, p⟩)) :
    SharedPtr.ctor_alias s j ptr = .ok { s with shared := (s.shared ++ [some ⟨none, ptr⟩]) } := by
  simp [SharedPtr.ctor_alias, State.newShared, State.getShared, bind, Except.bind, pure,
    Except.pure, h1, SharedPtr.AddObj, State.setShared]

theorem ctor_alias_some {s : State} {j b : Nat} {p ptr : Ptr} {blk : BaseBlock}
    (h1 : s.shared[j]? = some (some ⟨some b, p⟩)) (h2 : s.heap[b]? = some blk)
    (h3 : blk.deletes = 0) :
    SharedPtr.ctor_alias s j ptr =
      .ok { heap := s.heap.set b blk.StrongInc,
            shared := s.shared ++ [some ⟨some b, ptr⟩], weak := s.weak } := by
  simp [SharedPtr.ctor_alias, State.newShared, State.getShared, bind, Except.bind, pure,
    Except.pure, h1, SharedPtr.AddObj, State.call, h2, h3, State.setShared]

theorem ctor_weak_null {s : State} {w : Nat} {p : Ptr}
    (h1 : s.weak[w]? = some (some ⟨none, p⟩)) :
    SharedPtr.ctor_weak s w = .error .nullDeref := by
  simp [SharedPtr.ctor_weak, State.getWeak, h1, bind, Except.bind, State.newShared, State.deref]

theorem ctor_weak_expired {s : State} {w b : Nat} {p : Ptr} {blk : BaseBlock}
    (h1 : s.weak[w]? = some (some ⟨some b, p⟩)) (h2 : s.heap[b]? = some blk)
    (h3 : blk.deletes = 0) (h4 : blk.strong_count_ = 0) :
    SharedPtr.ctor_weak s w = .error .badWeakPtr := by
  simp [SharedPtr.ctor_weak, State.getWeak, h1, bind, Except.bind, State.newShared, State.deref,
    h2, h3, h4, BaseBlock.GetStrongCount, throw, throwThe, MonadExceptOf.throw]

theorem ctor_weak_some {s : State} {w b : Nat} {p : Ptr} {blk : BaseBlock}
    (h1 : s.weak[w]? = some (some ⟨some b, p⟩)) (h2 : s.heap[b]? = some blk)
    (h3 : blk.deletes = 0) (h4 : blk.strong_count_ ≠ 0) :
    SharedPtr.ctor_weak s w =
      .ok { heap := s.heap.set b blk.StrongInc,
            shared := s.shared ++ [some ⟨some b, p⟩], weak := s.weak } := by
  simp [SharedPtr.ctor_weak, State.getWeak, h1, bind, Except.bind, State.newShared, State.deref,
    h2, h3, h4, BaseBlock.GetStrongCount, State.call]

theorem assign_none {s t : State} {i j : Nat} {p : Ptr}
    (hR : SharedPtr.Reset s i = .ok t) (hi : t.shared[i]? = some (some ⟨none, 0⟩))
    (hj : t.shared[j]? = some (some ⟨none, p⟩)) :
    SharedPtr.assign s i j = .ok { t with shared := t.shared.set i (some ⟨none, p⟩) } := by
  have hil := lt_of_getElem? hi
  by_cases hij : i = j
  · subst hij
    rw [hi] at hj
    simp only [Option.some.injEq, SharedPtr.mk.injEq, true_and] at hj
    subst hj
    simp [SharedPtr.assign, hR, bind, Except.bind, State.getShared, hi, State.setShared,
      SharedPtr.AddObj, pure, Except.pure, hil]
  · simp [SharedPtr.assign, hR, bind, Except.bind, State.getShared, hi, hj, State.setShared,
      SharedPtr.AddObj, pure, Except.pure, hil, List.getElem?_set, hij]

theorem assign_some {s t : State} {i j b : Nat} {p : Ptr} {blk : BaseBlock}
    (hR : SharedPtr.Reset s i = .ok t) (hi : t.shared[i]? = some (some ⟨none, 0⟩))
    (hj : t.shared[j]? = some (some ⟨some b, p⟩)) (h2 : t.heap[b]? = some blk)
    (h3 : blk.deletes = 0) :
    SharedPtr.assign s i j =
      .ok { heap := t.heap.set b blk.StrongInc,
            shared := t.shared.set i (some ⟨some b, p⟩), weak := t.weak } := by
  have hil := lt_of_getElem? hi
  have hij : i ≠ j := by
    intro h; subst h; rw [hi] at hj; simp at hj
  simp [SharedPtr.assign, hR, bind, Except.bind, State.getShared, hi, hj, State.setShared,
    SharedPtr.AddObj, pure, Except.pure, hil, List.getElem?_set, hij, State.call, h2, h3]

theorem assign_move_eq {s t : State} {i j : Nat} {o : SharedPtr}
    (hR : SharedPtr.Reset s i = .ok t) (hj : t.shared[j]? = some (some o)) :
    SharedPtr.assign_move s i j =
      .ok { t with shared := (t.shared.set i (some o)).set j (some ⟨none, 0⟩) } := by
  simp [SharedPtr.assign_move, hR, bind, Except.bind, State.getShared, hj, State.setShared,
    pure, Except.pure]

theorem Swap_eq {s : State} {i j : Nat} {me o : SharedPtr}
    (hi : s.shared[i]? = some (some me)) (hj : s.shared[j]? = some (some o)) :
    SharedPtr.Swap s i j = .ok { s with shared := (s.shared.set i (some o)).set j (some me) } := by
  simp [SharedPtr.Swap, bind, Except.bind, State.getShared, hi, hj, State.setShared,
    pure, Except.pure]

theorem Reset_ptr_null {s t : State} {i : Nat}
    (hR : SharedPtr.Reset s i = .ok t) (hi : t.shared[i]? = some (some ⟨none, 0⟩)) :
    SharedPtr.Reset_ptr s i 0 = .ok { t with shared := t.shared.set i (some ⟨none, 0⟩) } := by
  have hil := lt_of_getElem? hi
  simp [SharedPtr.Reset_ptr, hR, bind, Except.bind, State.getShared, hi, State.setShared,
    pure, Except.pure, hil]

theorem Reset_ptr_some {s t : State} {i : Nat} {ptr : Ptr} (h : ptr ≠ 0)
    (hR : SharedPtr.Reset s i = .ok t) (hi : t.shared[i]? = some (some ⟨none, 0⟩)) :
    SharedPtr.Reset_ptr s i ptr =
      .ok { heap := t.heap ++ [(PtrBlock.ctor ptr).StrongInc],
            shared := t.shared.set i (some ⟨some t.heap.length, ptr⟩), weak := t.weak } := by
  have hil := lt_of_getElem? hi
  simp [SharedPtr.Reset_ptr, hR, bind, Except.bind, State.getShared, hi, State.setShared,
    pure, Except.pure, hil, h, State.alloc, SharedPtr.AddObj, State.call, PtrBlock.ctor]

theorem MakeShared_eq (s : State) (addr : Ptr) :
    MakeShared s addr =
      .ok { heap := s.heap ++ [(ValueBlock.ctor addr).StrongInc],
            shared := s.shared ++ [some ⟨some s.heap.length, addr⟩], weak := s.weak } := by
  simp [MakeShared, State.alloc, State.call, bind, Except.bind, ValueBlock.ctor, State.deref,
    pure, Except.pure, SharedPtr.ctor_ptr_block, State.newShared, BaseBlock.Get,
    BaseBlock.StrongInc]

theorem weak_Reset_some {s : State} {i b : Nat} {p : Ptr} {blk : BaseBlock}
    (h1 : s.weak[i]? = some (some ⟨some b, p⟩)) (h2 : s.heap[b]? = some blk)
    (h3 : blk.deletes = 0) :
    WeakPtr.Reset s i =
      .ok { heap := s.heap.set b blk.weakRelease,
            shared := s.shared, weak := s.weak.set i (some ⟨none, 0⟩) } := by
  have hb : b < s.heap.length := lt_of_getElem? h2
  simp only [WeakPtr.Reset, State.getWeak, h1, State.call, State.deref, h2, h3, bind,
    Except.bind, pure, Except.pure, Option.isSome, ite_true, List.getElem?_set, hb,
    List.length_set, BaseBlock.GetStrongCount, BaseBlock.GetWeakCount, BaseBlock.weakRelease,
    State.setWeak, State.delete, List.set_set, WeakDec_deletes, WeakDec_weak, WeakDec_strong,
    WeakPtr.MakeNull]
  split_ifs <;> simp [h1]

theorem weak_Reset_none {s : State} {i : Nat} {p : Ptr}
    (h1 : s.weak[i]? = some (some ⟨none, p⟩)) :
    WeakPtr.Reset s i = .ok { s with weak := s.weak.set i (some ⟨none, 0⟩) } := by
  simp [WeakPtr.Reset, State.getWeak, h1, bind, Except.bind, pure, Except.pure,
    State.setWeak, WeakPtr.MakeNull]

theorem weak_dtor_some {s : State} {i b : Nat} {p : Ptr} {blk : BaseBlock}
    (h1 : s.weak[i]? = some (some ⟨some b, p⟩)) (h2 : s.heap[b]? = some blk)
    (h3 : blk.deletes = 0) :
    WeakPtr.dtor s i =
      .ok { heap := s.heap.set b blk.weakRelease,
            shared := s.shared, weak := s.weak.set i none } := by
  have hb : b < s.heap.length := lt_of_getElem? h2
  simp only [WeakPtr.dtor, State.getWeak, h1, State.call, State.deref, h2, h3, bind,
    Except.bind, pure, Except.pure, Option.isSome, ite_true, List.getElem?_set, hb,
    List.length_set, BaseBlock.GetStrongCount, BaseBlock.GetWeakCount, BaseBlock.weakRelease,
    State.endWeak, State.delete, List.set_set, WeakDec_deletes, WeakDec_weak, WeakDec_strong]
  split_ifs <;> simp

theorem weak_dtor_none {s : State} {i : Nat} {p : Ptr}
    (h1 : s.weak[i]? = some (some ⟨none, p⟩)) :
    WeakPtr.dtor s i = .ok { s with weak := s.weak.set i none } := by
  simp [WeakPtr.dtor, State.getWeak, h1, bind, Except.bind, pure, Except.pure,
    State.endWeak]

theorem weak_ctor_copy_none {s : State} {j : Nat} {p : Ptr}
    (h1 : s.weak[j]? = some (some ⟨none, p⟩)) :
    WeakPtr.ctor_copy s j = .ok { s with weak := (s.weak ++ [some ⟨none, p⟩]) } := by
  simp [WeakPtr.ctor_copy, State.newWeak, State.getWeak, bind, Except.bind, pure,
    Except.pure, h1]

theorem weak_ctor_copy_some {s : State} {j b : Nat} {p : Ptr} {blk : BaseBlock}
    (h1 : s.weak[j]? = some (some ⟨some b, p⟩)) (h2 : s.heap[b]? = some blk)
    (h3 : blk.deletes = 0) :
    WeakPtr.ctor_copy s j =
      .ok { heap := s.heap.set b blk.WeakInc,
            shared := s.shared, weak := s.weak ++ [some ⟨some b, p⟩] } := by
  simp [WeakPtr.ctor_copy, State.newWeak, State.getWeak, bind, Except.bind, pure,
    Except.pure, h1, State.call, h2, h3]

theorem weak_ctor_move_eq {s : State} {j : Nat} {o : WeakPtr}
    (h1 : s.weak[j]? = some (some o)) :
    WeakPtr.ctor_move s j =
      .ok { s with weak := (s.weak.set j (some ⟨none, 0⟩) ++ [some o]) } := by
  have hj := lt_of_getElem? h1
  simp [WeakPtr.ctor_move, State.newWeak, State.getWeak, bind, Except.bind, pure,
    Except.pure, h1, State.setWeak, List.set_append_left _ _ hj]

theorem weak_ctor_shared_none {s : State} {j : Nat} {p : Ptr}
    (h1 : s.shared[j]? = some (some ⟨none, p⟩)) :
    WeakPtr.ctor_shared s j = .ok { s with weak := (s.weak ++ [some ⟨none, p⟩]) } := by
  simp [WeakPtr.ctor_shared, State.newWeak, State.getShared, bind, Except.bind, pure,
    Except.pure, h1, SharedPtr.GetBlock, SharedPtr.GetPtr]

theorem weak_ctor_shared_some {s : State} {j b : Nat} {p : Ptr} {blk : BaseBlock}
    (h1 : s.shared[j]? = some (some ⟨some b, p⟩)) (h2 : s.heap[b]? = some blk)
    (h3 : blk.deletes = 0) :
    WeakPtr.ctor_shared s j =
      .ok { heap := s.heap.set b blk.WeakInc,
            shared := s.shared, weak := s.weak ++ [some ⟨some b, p⟩] } := by
  simp [WeakPtr.ctor_shared, State.newWeak, State.getShared, bind, Except.bind, pure,
    Except.pure, h1, State.call, h2, h3, SharedPtr.GetBlock, SharedPtr.GetPtr]

theorem weak_assign_self (s : State) (i : Nat) :
    WeakPtr.assign s i i = .ok s := by
  simp [WeakPtr.assign, pure, Except.pure]

theorem weak_assign_none {s t : State} {i j : Nat} {p : Ptr} (hij : i ≠ j)
    (hR : WeakPtr.Reset s i = .ok t) (hi : t.weak[i]? = some (some ⟨none, 0⟩))
    (hj : t.weak[j]? = some (some ⟨none, p⟩)) :
    WeakPtr.assign s i j = .ok { t with weak := t.weak.set i (some ⟨none, p⟩) } := by
  have hil := lt_of_getElem? hi
  simp [WeakPtr.assign, hR, bind, Except.bind, State.getWeak, hi, hj, State.setWeak,
    pure, Except.pure, hil, List.getElem?_set, hij]

theorem weak_assign_some {s t : State} {i j b : Nat} {p : Ptr} {blk : BaseBlock}
    (hij : i ≠ j)
    (hR : WeakPtr.Reset s i = .ok t) (hi : t.weak[i]? = some (some ⟨none, 0⟩))
    (hj : t.weak[j]? = some (some ⟨some b, p⟩)) (h2 : t.heap[b]? = some blk)
    (h3 : blk.deletes = 0) :
    WeakPtr.assign s i j =
      .ok { heap := t.heap.set b blk.WeakInc,
            shared := t.shared, weak := t.weak.set i (some ⟨some b, p⟩) } := by
  have hil := lt_of_getElem? hi
  simp [WeakPtr.assign, hR, bind, Except.bind, State.getWeak, hi, hj, State.setWeak,
    pure, Except.pure, hil, List.getElem?_set, hij, State.call, h2, h3]

theorem weak_assign_move_eq {s t : State} {i j : Nat} {o : WeakPtr}
    (hR : WeakPtr.Reset s i = .ok t) (hj : t.weak[j]? = some (some o)) :
    WeakPtr.assign_move s i j =
      .ok { t with weak := (t.weak.set i (some o)).set j (some ⟨none, 0⟩) } := by
  simp [WeakPtr.assign_move, hR, bind, Except.bind, State.getWeak, hj, State.setWeak,
    pure, Except.pure]

theorem weak_Swap_eq {s : State} {i j : Nat} {me o : WeakPtr}
    (hi : s.weak[i]? = some (some me)) (hj : s.weak[j]? = some (some o)) :
    WeakPtr.Swap s i j = .ok { s with weak := (s.weak.set i (some o)).set j (some me) } := by
  simp [WeakPtr.Swap, bind, Except.bind, State.getWeak, hi, hj, State.setWeak,
    pure, Except.pure]

theorem weak_Lock_null {s : State} {w : Nat} {p : Ptr}
    (h1 : s.weak[w]? = some (some ⟨none, p⟩)) :
    WeakPtr.Lock s w = .ok { s with shared := (s.shared ++ [some ⟨none, 0⟩]) } := by
  simp [WeakPtr.Lock, State.getWeak, h1, bind, Except.bind, pure, Except.pure,
    SharedPtr.ctor_default, State.newShared]

theorem weak_Lock_expired {s : State} {w b : Nat} {p : Ptr} {blk : BaseBlock}
    (h1 : s.weak[w]? = some (some ⟨some b, p⟩)) (h2 : s.heap[b]? = some blk)
    (h3 : blk.deletes = 0) (h4 : blk.strong_count_ = 0) :
    WeakPtr.Lock s w = .ok { s with shared := (s.shared ++ [some ⟨none, 0⟩]) } := by
  simp [WeakPtr.Lock, State.getWeak, h1, bind, Except.bind, pure, Except.pure,
    SharedPtr.ctor_default, State.newShared, State.deref, h2, h3, h4, BaseBlock.GetStrongCount]

theorem weak_Lock_some {s : State} {w b : Nat} {p : Ptr} {blk : BaseBlock}
    (h1 : s.weak[w]? = some (some ⟨some b, p⟩)) (h2 : s.heap[b]? = some blk)
    (h3 : blk.deletes = 0) (h4 : blk.strong_count_ ≠ 0) :
    WeakPtr.Lock s w = SharedPtr.ctor_weak s w := by
  simp [WeakPtr.Lock, State.getWeak, h1, bind, Except.bind, pure, Except.pure,
    State.deref, h2, h3, h4, BaseBlock.GetStrongCount]

@[simp] theorem shared_refersTo_some_some (c b : Nat) (p : Ptr) :
    SharedPtr.refersTo c (some ⟨some b, p⟩) = decide (b = c) := by
  simp [SharedPtr.refersTo]

@[simp] theorem shared_refersTo_some_none (c : Nat) (p : Ptr) :
    SharedPtr.refersTo c (some ⟨none, p⟩) = false := by
  simp [SharedPtr.refersTo]

@[simp] theorem shared_refersTo_none (c : Nat) :
    SharedPtr.refersTo c none = false := rfl

@[simp] theorem weak_refersTo_some_some (c b : Nat) (p : Ptr) :
    WeakPtr.refersTo c (some ⟨some b, p⟩) = decide (b = c) := by
  simp [WeakPtr.refersTo]

@[simp] theorem weak_refersTo_some_none (c : Nat) (p : Ptr) :
    WeakPtr.refersTo c (some ⟨none, p⟩) = false := by
  simp [WeakPtr.refersTo]

@[simp] theorem weak_refersTo_none (c : Nat) :
    WeakPtr.refersTo c none = false := rfl

theorem countP_pos_of_getElem? {α : Type} (p : α → Bool) {l : List α} {i : Nat} {a : α}
    (h : l[i]? = some a) (hp : p a = true) : 1 ≤ l.countP p := by
  have hm : a ∈ l := by
    rw [List.getElem?_eq_some_iff] at h
    obtain ⟨hl, rfl⟩ := h
    exact List.getElem_mem hl
  exact List.countP_pos_iff.mpr ⟨a, hm, hp⟩

theorem Inv.keep_same {s t : State} (hI : Inv s) (hh : t.heap = s.heap)
    (ho : ∀ c, t.owners c = s.owners c) (hw : ∀ c, t.observers c = s.observers c) : Inv t := by
  intro c
  have := hI c
  rw [hh, ho, hw]
  exact this

theorem Inv.keep_set {s t : State} {b : Nat} {blk blk' : BaseBlock} (hI : Inv s)
    (h2 : s.heap[b]? = some blk) (hh : t.heap = s.heap.set b blk')
    (ho : ∀ c, c ≠ b → t.owners c = s.owners c)
    (hw : ∀ c, c ≠ b → t.observers c = s.observers c)
    (hb : BlockInv blk' (t.owners b) (t.observers b)) : Inv t := by
  intro c
  by_cases hc : c = b
  · subst hc
    rw [hh, List.getElem?_set_self (lt_of_getElem? h2)]
    exact hb
  · have := hI c
    rw [hh, List.getElem?_set_ne (Ne.symm hc), ho c hc, hw c hc]
    exact this

theorem Inv.keep_push {s t : State} {blk' : BaseBlock} (hI : Inv s)
    (hh : t.heap = s.heap ++ [blk'])
    (ho : ∀ c, c ≠ s.heap.length → t.owners c = s.owners c)
    (hw : ∀ c, c ≠ s.heap.length → t.observers c = s.observers c)
    (hb : BlockInv blk' (t.owners s.heap.length) (t.observers s.heap.length)) : Inv t := by
  intro c
  by_cases hc : c = s.heap.length
  · subst hc
    rw [hh, List.getElem?_concat_length]
    exact hb
  · have := hI c
    rw [hh, ho c hc, hw c hc]
    rcases Nat.lt_or_ge c s.heap.length with h | h
    · rw [List.getElem?_append_left h]; exact this
    · have h1 : s.heap[c]? = none := List.getElem?_eq_none h
      have h2 : (s.heap ++ [blk'])[c]? = none := by
        apply List.getElem?_eq_none
        simp
        omega
      rw [h1] at this
      rw [h2]
      exact this

theorem Rel.of_same {P : BaseBlock → BaseBlock → Prop} {s t : State} (hP : ∀ x, P x x)
    (hh : t.heap = s.heap) : Rel P s t := by
  intro b blk h
  exact ⟨blk, by rw [hh]; exact h, hP blk⟩

theorem Rel.of_set {P : BaseBlock → BaseBlock → Prop} {s t : State} {b : Nat}
    {blk blk' : BaseBlock} (hP : ∀ x, P x x) (h2 : s.heap[b]? = some blk)
    (hh : t.heap = s.heap.set b blk') (hb : P blk blk') : Rel P s t := by
  intro c x h
  by_cases hc : c = b
  · subst hc
    rw [h2] at h
    cases h
    exact ⟨blk', by rw [hh, List.getElem?_set_self (lt_of_getElem? h2)], hb⟩
  · exact ⟨x, by rw [hh, List.getElem?_set_ne (Ne.symm hc)]; exact h, hP x⟩

theorem Rel.of_push {P : BaseBlock → BaseBlock → Prop} {s t : State} {blk' : BaseBlock}
    (hP : ∀ x, P x x) (hh : t.heap = s.heap ++ [blk']) : Rel P s t := by
  intro c x h
  exact ⟨x, by rw [hh, List.getElem?_append_left (lt_of_getElem? h)]; exact h, hP x⟩

theorem PR_refl (x : BaseBlock) : PR x x := ⟨le_refl _, by omega, fun h => h, fun _ => rfl⟩
theorem PA_refl (x : BaseBlock) : PA x x := ⟨le_refl _, fun h => h, fun _ => rfl⟩
theorem PS_refl (x : BaseBlock) : PS x x := ⟨by omega, fun h => h, fun _ => rfl⟩
theorem PZ_refl (x : BaseBlock) : PZ x x := ⟨fun h => h, fun _ => rfl⟩

theorem Rel.mono {P Q : BaseBlock → BaseBlock → Prop} {s t : State}
    (h : ∀ x y, P x y → Q x y) (hR : Rel P s t) : Rel Q s t := by
  intro b blk hb
  obtain ⟨blk', h1, h2⟩ := hR b blk hb
  exact ⟨blk', h1, h _ _ h2⟩

theorem Rel.comp {P Q R : BaseBlock → BaseBlock → Prop} {s t u : State}
    (h : ∀ x y z, P x y → Q y z → R x z) (h1 : Rel P s t) (h2 : Rel Q t u) : Rel R s u := by
  intro b blk hb
  obtain ⟨y, hy, hxy⟩ := h1 b blk hb
  obtain ⟨z, hz, hyz⟩ := h2 b y hy
  exact ⟨z, hz, h _ _ _ hxy hyz⟩

theorem PR_PA_PS (x y z : BaseBlock) (h1 : PR x y) (h2 : PA y z) : PS x z := by
  obtain ⟨a1, a2, a3, a4⟩ := h1
  obtain ⟨b1, b2, b3⟩ := h2
  refine ⟨by omega, fun h => b2 (a3 h), fun h => ?_⟩
  have := a4 h
  subst this
  exact b3 h

theorem PA_trans (x y z : BaseBlock) (h1 : PA x y) (h2 : PA y z) : PA x z := by
  obtain ⟨a1, a2, a3⟩ := h1
  obtain ⟨b1, b2, b3⟩ := h2
  refine ⟨le_trans a1 b1, fun h => b2 (a2 h), fun h => ?_⟩
  have := a3 h
  subst this
  exact b3 h

theorem PZ_trans (x y z : BaseBlock) (h1 : PZ x y) (h2 : PZ y z) : PZ x z := by
  obtain ⟨a2, a3⟩ := h1
  obtain ⟨b2, b3⟩ := h2
  refine ⟨fun h => b2 (a2 h), fun h => ?_⟩
  have := a3 h
  subst this
  exact b3 h

theorem PR_PS (x y : BaseBlock) (h1 : PR x y) : PS x y := ⟨h1.2.1, h1.2.2⟩
theorem PA_PS (x y : BaseBlock) (h1 : PA x y) : PS x y := ⟨by have := h1.1; omega, h1.2⟩
theorem PS_PZ (x y : BaseBlock) (h : PS x y) : PZ x y := h.2

/-- A live owning handle refers to a block that exists and has not been deleted. -/
theorem Inv.owner_block {s : State} (hI : Inv s) {i b : Nat} {p : Ptr}
    (h1 : s.shared[i]? = some (some ⟨some b, p⟩)) :
    ∃ blk, s.heap[b]? = some blk ∧ blk.deletes = 0 ∧ 1 ≤ s.owners b ∧
      BlockInv blk (s.owners b) (s.observers b) := by
  have hpos : 1 ≤ s.owners b := countP_pos_of_getElem? _ h1 (by simp)
  have := hI b
  cases hb : s.heap[b]? with
  | none => rw [hb] at this; simp at this; omega
  | some blk =>
    rw [hb] at this
    simp at this
    refine ⟨blk, rfl, ?_, hpos, this⟩
    rw [this.deletes, if_neg]
    omega

/-- A live observer handle refers to a block that exists and has not been deleted. -/
theorem Inv.observer_block {s : State} (hI : Inv s) {i b : Nat} {p : Ptr}
    (h1 : s.weak[i]? = some (some ⟨some b, p⟩)) :
    ∃ blk, s.heap[b]? = some blk ∧ blk.deletes = 0 ∧ 1 ≤ s.observers b ∧
      BlockInv blk (s.owners b) (s.observers b) := by
  have hpos : 1 ≤ s.observers b := countP_pos_of_getElem? _ h1 (by simp)
  have := hI b
  cases hb : s.heap[b]? with
  | none => rw [hb] at this; simp at this; omega
  | some blk =>
    rw [hb] at this
    simp at this
    refine ⟨blk, rfl, ?_, hpos, this⟩
    rw [this.deletes, if_neg]
    omega

theorem BlockInv.strongRelease {blk : BaseBlock} {n nw : Nat} (h : BlockInv blk (n + 1) nw) :
    BlockInv blk.strongRelease n nw := by
  obtain ⟨h1, h2, h3, h4⟩ := h
  simp at h3 h4
  unfold BaseBlock.strongRelease
  simp only [BaseBlock.GetStrongCount, BaseBlock.GetWeakCount, StrongDec_strong,
    ZeroStrongCount_weak, StrongDec_weak, h1, h2]
  rcases Nat.eq_zero_or_pos n with hn | hn
  · subst hn
    rcases Nat.eq_zero_or_pos nw with hw | hw
    · subst hw
      constructor <;> simp [h1, h2, h3, h4]
    · have hw' : (nw : Int) ≠ 0 := by omega
      have hw'' : nw ≠ 0 := by omega
      constructor <;> simp [h1, h2, h3, h4, hw', hw'']
  · have hn' : ((n : Int) + 1 - 1 = 0) = False := by
      apply propext; constructor
      · intro h; omega
      · intro h; exact h.elim
    have hn'' : n ≠ 0 := by omega
    constructor <;> simp [h1, h2, h3, h4, hn', hn'']

theorem BlockInv.StrongInc {blk : BaseBlock} {n nw : Nat} (h : BlockInv blk (n + 1) nw) :
    BlockInv blk.StrongInc (n + 2) nw := by
  obtain ⟨h1, h2, h3, h4⟩ := h
  simp at h3 h4
  constructor
  · simp [h1]; omega
  · simp [h2]
  · simp [h3]
  · simp [h4]

theorem BlockInv.weakRelease {blk : BaseBlock} {n nw : Nat} (h : BlockInv blk n (nw + 1)) :
    BlockInv blk.weakRelease n nw := by
  obtain ⟨h1, h2, h3, h4⟩ := h
  simp at h4
  unfold BaseBlock.weakRelease
  simp only [BaseBlock.GetStrongCount, BaseBlock.GetWeakCount, WeakDec_strong, WeakDec_weak,
    h1, h2]
  by_cases hc : n = 0 ∧ nw = 0
  · obtain ⟨hn, hw⟩ := hc
    subst hn; subst hw
    constructor <;> simp [h1, h2, h3, h4]
  · have hc' : ¬ ((n : Int) = 0 ∧ (nw : Int) + 1 - 1 = 0) := by
      intro h; apply hc; omega
    constructor <;> simp [h1, h2, h3, h4, hc, hc']

theorem BlockInv.WeakInc {blk : BaseBlock} {n nw : Nat} (h : BlockInv blk n nw)
    (hpos : 1 ≤ n + nw) : BlockInv blk.WeakInc n (nw + 1) := by
  obtain ⟨h1, h2, h3, h4⟩ := h
  constructor
  · simp [h1]
  · simp [h2]
  · simp [h3]
  · simp [h4]; omega

theorem BlockInv.fresh_ptr (ptr : Ptr) : BlockInv (PtrBlock.ctor ptr).StrongInc 1 0 := by
  constructor <;> simp [PtrBlock.ctor]

theorem BlockInv.fresh_value (addr : Ptr) : BlockInv (ValueBlock.ctor addr).StrongInc 1 0 := by
  constructor <;> simp [ValueBlock.ctor]

theorem fresh_of_length {s t : State} (hl : t.heap.length = s.heap.length) :
    ∀ (b : Nat) (blk : BaseBlock), s.heap.length ≤ b → t.heap[b]? = some blk →
      blk.strong_count_ = 1 ∧ blk.zeroStrongCalls = 0 ∧ blk.deletes = 0 := by
  intro b blk h1 h2
  have := lt_of_getElem? h2
  omega

theorem Good.neutral {P : BaseBlock → BaseBlock → Prop} {s t : State} (hP : ∀ x, P x x)
    (hI : Inv s) (hh : t.heap = s.heap)
    (ho : ∀ c, t.owners c = s.owners c) (hw : ∀ c, t.observers c = s.observers c)
    (sl : t.shared.length ≤ s.shared.length + 1) (wl : t.weak.length ≤ s.weak.length + 1) :
    Good P s t :=
  ⟨hI.keep_same hh ho hw, Rel.of_same hP hh, fresh_of_length (by rw [hh]), sl, wl⟩

theorem Good.same {P : BaseBlock → BaseBlock → Prop} {s : State} (hP : ∀ x, P x x)
    (hI : Inv s) : Good P s s :=
  Good.neutral hP hI rfl (fun _ => rfl) (fun _ => rfl) (Nat.le_succ _) (Nat.le_succ _)

theorem Inv.block {s : State} (hI : Inv s) {b : Nat} {blk : BaseBlock}
    (h2 : s.heap[b]? = some blk) : BlockInv blk (s.owners b) (s.observers b) := by
  have := hI b
  rw [h2] at this
  exact this

theorem Inv.fresh {s : State} (hI : Inv s) :
    s.owners s.heap.length = 0 ∧ s.observers s.heap.length = 0 := by
  have := hI s.heap.length
  rw [List.getElem?_eq_none (Nat.le_refl _)] at this
  exact this

theorem toNat_decide_ne {b c : Nat} (h : c ≠ b) : (decide (b = c)).toNat = 0 := by
  have : ¬ b = c := fun h1 => h h1.symm
  simp [this]

theorem Good.strong_release {s t : State} {b : Nat} {blk : BaseBlock} (hI : Inv s)
    (h2 : s.heap[b]? = some blk) (hh : t.heap = s.heap.set b blk.strongRelease)
    (ho : ∀ c, t.owners c + (decide (b = c)).toNat = s.owners c)
    (hw : ∀ c, t.observers c = s.observers c)
    (sl : t.shared.length ≤ s.shared.length + 1) (wl : t.weak.length ≤ s.weak.length + 1) :
    Good PR s t := by
  have hB := hI.block h2
  have hb1 : t.owners b + 1 = s.owners b := by simpa using ho b
  rw [← hb1] at hB
  have hB' := hB.strongRelease
  refine ⟨hI.keep_set h2 hh ?_ (fun c _ => hw c) ?_, Rel.of_set PR_refl h2 hh ?_,
    fresh_of_length (by rw [hh]; simp), sl, wl⟩
  · intro c hc
    have := ho c
    rw [toNat_decide_ne hc] at this
    simpa using this
  · rw [hw b]; exact hB'
  · have e1 := hB.strong
    have e2 := hB'.strong
    have e3 := hB.deletes
    simp at e3
    push_cast at e1
    exact ⟨by omega, by omega, fun _ => by omega, fun h => absurd e3 h⟩

theorem Good.strong_acquire {s t : State} {b : Nat} {blk : BaseBlock} (hI : Inv s)
    (h2 : s.heap[b]? = some blk) (hh : t.heap = s.heap.set b blk.StrongInc)
    (hpos : 1 ≤ s.owners b)
    (ho : ∀ c, t.owners c = s.owners c + (decide (b = c)).toNat)
    (hw : ∀ c, t.observers c = s.observers c)
    (sl : t.shared.length ≤ s.shared.length + 1) (wl : t.weak.length ≤ s.weak.length + 1) :
    Good PA s t := by
  have hB := hI.block h2
  obtain ⟨n, hn⟩ : ∃ n, s.owners b = n + 1 := ⟨s.owners b - 1, by omega⟩
  have hb1 : t.owners b = n + 2 := by
    have := ho b
    simp at this
    omega
  rw [hn] at hB
  have hB' := hB.StrongInc
  refine ⟨hI.keep_set h2 hh ?_ (fun c _ => hw c) ?_, Rel.of_set PA_refl h2 hh ?_,
    fresh_of_length (by rw [hh]; simp), sl, wl⟩
  · intro c hc
    have := ho c
    rw [toNat_decide_ne hc] at this
    simpa using this
  · rw [hw b, hb1]; exact hB'
  · have e1 := hB.strong
    have e3 := hB.deletes
    simp at e3
    refine ⟨?_, ?_, fun h => absurd e3 h⟩
    · simp
    · intro h0; rw [e1] at h0; push_cast at h0; omega

theorem Good.alloc {s t : State} {blk' : BaseBlock} (hI : Inv s)
    (hh : t.heap = s.heap ++ [blk']) (hb : BlockInv blk' 1 0)
    (ho : ∀ c, t.owners c = s.owners c + (decide (s.heap.length = c)).toNat)
    (hw : ∀ c, t.observers c = s.observers c)
    (sl : t.shared.length ≤ s.shared.length + 1) (wl : t.weak.length ≤ s.weak.length + 1) :
    Good PA s t := by
  obtain ⟨f1, f2⟩ := hI.fresh
  refine ⟨hI.keep_push hh ?_ (fun c _ => hw c) ?_, Rel.of_push PA_refl hh, ?_, sl, wl⟩
  rotate_left 2
  · intro c blk h1 h2
    have h3 := lt_of_getElem? h2
    rw [hh] at h3 h2
    simp at h3
    have hc : c = s.heap.length := by omega
    subst hc
    simp at h2
    subst h2
    have e1 := hb.strong
    have e2 := hb.calls
    have e3 := hb.deletes
    simp at e1 e2 e3
    exact ⟨e1, e2, e3⟩
  · intro c hc
    have := ho c
    rw [toNat_decide_ne hc] at this
    simpa using this
  · have := ho s.heap.length
    simp at this
    rw [hw, f2, this, f1]
    exact hb

theorem Good.weak_release {s t : State} {b : Nat} {blk : BaseBlock} (hI : Inv s)
    (h2 : s.heap[b]? = some blk) (hh : t.heap = s.heap.set b blk.weakRelease)
    (ho : ∀ c, t.owners c = s.owners c)
    (hw : ∀ c, t.observers c + (decide (b = c)).toNat = s.observers c)
    (sl : t.shared.length ≤ s.shared.length + 1) (wl : t.weak.length ≤ s.weak.length + 1) :
    Good PA s t := by
  have hB := hI.block h2
  have hb1 : t.observers b + 1 = s.observers b := by simpa using hw b
  rw [← hb1] at hB
  have hB' := hB.weakRelease
  refine ⟨hI.keep_set h2 hh (fun c _ => ho c) ?_ ?_, Rel.of_set PA_refl h2 hh ?_,
    fresh_of_length (by rw [hh]; simp), sl, wl⟩
  · intro c hc
    have := hw c
    rw [toNat_decide_ne hc] at this
    simpa using this
  · rw [ho b]; exact hB'
  · have e1 := hB.strong
    have e2 := hB'.strong
    have e3 := hB.deletes
    simp at e3
    refine ⟨?_, ?_, fun h => absurd e3 h⟩
    · rw [e1, e2]
    · intro h0; rw [e2, ← e1]; exact h0

theorem Good.weak_acquire {s t : State} {b : Nat} {blk : BaseBlock} (hI : Inv s)
    (h2 : s.heap[b]? = some blk) (hh : t.heap = s.heap.set b blk.WeakInc)
    (hpos : 1 ≤ s.owners b + s.observers b)
    (ho : ∀ c, t.owners c = s.owners c)
    (hw : ∀ c, t.observers c = s.observers c + (decide (b = c)).toNat)
    (sl : t.shared.length ≤ s.shared.length + 1) (wl : t.weak.length ≤ s.weak.length + 1) :
    Good PA s t := by
  have hB := hI.block h2
  have hb1 : t.observers b = s.observers b + 1 := by simpa using hw b
  have hB' := hB.WeakInc hpos
  refine ⟨hI.keep_set h2 hh (fun c _ => ho c) ?_ ?_, Rel.of_set PA_refl h2 hh ?_,
    fresh_of_length (by rw [hh]; simp), sl, wl⟩
  · intro c hc
    have := hw c
    rw [toNat_decide_ne hc] at this
    simpa using this
  · rw [ho b, hb1]; exact hB'
  · have e3 := hB.deletes
    have e4 : blk.deletes = 0 := by
      rw [e3, if_neg]; omega
    exact ⟨by simp, fun h0 => by simpa using h0, fun h => absurd e4 h⟩

theorem Good.seq {P Q R : BaseBlock → BaseBlock → Prop} {s t u : State}
    (h : ∀ x y z, P x y → Q y z → R x z) (h1 : Good P s t) (h2 : Good Q t u)
    (hl : t.heap.length = s.heap.length)
    (sl : u.shared.length ≤ s.shared.length + 1) (wl : u.weak.length ≤ s.weak.length + 1) :
    Good R s u :=
  ⟨h2.inv, Rel.comp h h1.rel h2.rel, fun b blk hb => h2.fresh b blk (by omega), sl, wl⟩

theorem Good.weaken {P Q : BaseBlock → BaseBlock → Prop} {s t : State}
    (h : ∀ x y, P x y → Q x y) (h1 : Good P s t) : Good Q s t :=
  ⟨h1.inv, h1.rel.mono h, h1.fresh, h1.slen, h1.wlen⟩

theorem shared_cases (s : State) (i : Nat) :
    (∀ p, s.shared[i]? ≠ some (some p)) ∨ (∃ p, s.shared[i]? = some (some ⟨none, p⟩)) ∨
      (∃ b p, s.shared[i]? = some (some ⟨some b, p⟩)) := by
  rcases h : s.shared[i]? with _ | _ | ⟨_ | b, p⟩
  · left; intro p hp; cases hp
  · left; intro p hp; cases hp
  · right; left; exact ⟨p, rfl⟩
  · right; right; exact ⟨b, p, rfl⟩

theorem weak_cases (s : State) (i : Nat) :
    (∀ p, s.weak[i]? ≠ some (some p)) ∨ (∃ p, s.weak[i]? = some (some ⟨none, p⟩)) ∨
      (∃ b p, s.weak[i]? = some (some ⟨some b, p⟩)) := by
  rcases h : s.weak[i]? with _ | _ | ⟨_ | b, p⟩
  · left; intro p hp; cases hp
  · left; intro p hp; cases hp
  · right; left; exact ⟨p, rfl⟩
  · right; right; exact ⟨b, p, rfl⟩

theorem owners_set {s : State} {i : Nat} {old : Option SharedPtr} (e : Option SharedPtr)
    (h : s.shared[i]? = some old) (c : Nat) (H : List BaseBlock) (W : List (Option WeakPtr)) :
    State.owners ⟨H, s.shared.set i e, W⟩ c + (SharedPtr.refersTo c old).toNat
      = s.owners c + (SharedPtr.refersTo c e).toNat :=
  countP_set_getElem? _ _ _ _ _ h

theorem owners_push (s : State) (e : Option SharedPtr) (c : Nat) (H : List BaseBlock)
    (W : List (Option WeakPtr)) :
    State.owners ⟨H, s.shared ++ [e], W⟩ c = s.owners c + (SharedPtr.refersTo c e).toNat :=
  countP_push _ _ _

theorem observers_set {s : State} {i : Nat} {old : Option WeakPtr} (e : Option WeakPtr)
    (h : s.weak[i]? = some old) (c : Nat) (H : List BaseBlock) (S : List (Option SharedPtr)) :
    State.observers ⟨H, S, s.weak.set i e⟩ c + (WeakPtr.refersTo c old).toNat
      = s.observers c + (WeakPtr.refersTo c e).toNat :=
  countP_set_getElem? _ _ _ _ _ h

theorem observers_push (s : State) (e : Option WeakPtr) (c : Nat) (H : List BaseBlock)
    (S : List (Option SharedPtr)) :
    State.observers ⟨H, S, s.weak ++ [e]⟩ c = s.observers c + (WeakPtr.refersTo c e).toNat :=
  countP_push _ _ _

theorem Reset_good {s : State} (hI : Inv s) (i : Nat) :
    SharedPtr.Reset s i = .error .deadHandle ∨
      ∃ t, SharedPtr.Reset s i = .ok t ∧ Good PR s t ∧
        t.shared[i]? = some (some ⟨none, 0⟩) ∧ t.shared.length = s.shared.length ∧
        t.weak = s.weak ∧ t.heap.length = s.heap.length := by
  rcases shared_cases s i with hd | ⟨p, h1⟩ | ⟨b, p, h1⟩
  · left; simp [SharedPtr.Reset, getShared_dead hd, bind, Except.bind]
  · right
    refine ⟨_, Reset_none h1, Good.neutral PR_refl hI rfl ?_ (fun _ => rfl) (by simp)
      (by simp), ?_, by simp, rfl, by simp⟩
    · intro c
      have := owners_set (some ⟨none, 0⟩) h1 c s.heap s.weak
      simpa using this
    · simp [lt_of_getElem? h1]
  · right
    obtain ⟨blk, h2, h3, _, _⟩ := hI.owner_block h1
    refine ⟨_, Reset_some h1 h2 h3, Good.strong_release hI h2 rfl ?_ (fun _ => rfl) (by simp)
      (by simp), ?_, by simp, rfl, by simp⟩
    · intro c
      have := owners_set (some ⟨none, 0⟩) h1 c (s.heap.set b blk.strongRelease) s.weak
      simpa using this
    · simp [lt_of_getElem? h1]

theorem dtor_good {s : State} (hI : Inv s) (i : Nat) :
    SharedPtr.dtor s i = .error .deadHandle ∨
      ∃ t, SharedPtr.dtor s i = .ok t ∧ Good PR s t := by
  rcases shared_cases s i with hd | ⟨p, h1⟩ | ⟨b, p, h1⟩
  · left; simp [SharedPtr.dtor, getShared_dead hd, bind, Except.bind]
  · right
    refine ⟨_, dtor_none h1, Good.neutral PR_refl hI rfl ?_ (fun _ => rfl) (by simp)
      (by simp)⟩
    intro c
    have := owners_set none h1 c s.heap s.weak
    simpa using this
  · right
    obtain ⟨blk, h2, h3, _, _⟩ := hI.owner_block h1
    refine ⟨_, dtor_some h1 h2 h3, Good.strong_release hI h2 rfl ?_ (fun _ => rfl) (by simp)
      (by simp)⟩
    intro c
    have := owners_set none h1 c (s.heap.set b blk.strongRelease) s.weak
    simpa using this

theorem ctor_ptr_good {s : State} (hI : Inv s) (ptr : Ptr) :
    ∃ t, SharedPtr.ctor_ptr s ptr = .ok t ∧ Good PA s t := by
  by_cases h : ptr = 0
  · subst h
    refine ⟨_, ctor_ptr_null s, Good.neutral PA_refl hI rfl ?_ (fun _ => rfl) (by simp)
      (by simp)⟩
    intro c
    simpa using owners_push s (some ⟨none, 0⟩) c s.heap s.weak
  · refine ⟨_, ctor_ptr_some s h, Good.alloc hI rfl (BlockInv.fresh_ptr ptr) ?_ (fun _ => rfl)
      (by simp) (by simp)⟩
    intro c
    simpa using owners_push s (some ⟨some s.heap.length, ptr⟩) c _ s.weak

theorem MakeShared_good {s : State} (hI : Inv s) (addr : Ptr) :
    ∃ t, MakeShared s addr = .ok t ∧ Good PA s t := by
  refine ⟨_, MakeShared_eq s addr, Good.alloc hI rfl (BlockInv.fresh_value addr) ?_
    (fun _ => rfl) (by simp) (by simp)⟩
  intro c
  simpa using owners_push s (some ⟨some s.heap.length, addr⟩) c _ s.weak

theorem ctor_default_good {s : State} (hI : Inv s) : Good PA s (SharedPtr.ctor_default s) := by
  refine Good.neutral PA_refl hI rfl ?_ (fun _ => rfl) (by simp [SharedPtr.ctor_default,
    State.newShared]) (by simp [SharedPtr.ctor_default, State.newShared])
  intro c
  simpa using owners_push s (some ⟨none, 0⟩) c s.heap s.weak

theorem ctor_copy_good {s : State} (hI : Inv s) (j : Nat) :
    SharedPtr.ctor_copy s j = .error .deadHandle ∨
      ∃ t, SharedPtr.ctor_copy s j = .ok t ∧ Good PA s t := by
  rcases shared_cases s j with hd | ⟨p, h1⟩ | ⟨b, p, h1⟩
  · left; simp [SharedPtr.ctor_copy, getShared_dead hd, bind, Except.bind]
  · right
    refine ⟨_, ctor_copy_none h1, Good.neutral PA_refl hI rfl ?_ (fun _ => rfl) (by simp)
      (by simp)⟩
    intro c
    simpa using owners_push s (some ⟨none, p⟩) c s.heap s.weak
  · right
    obtain ⟨blk, h2, h3, hpos, _⟩ := hI.owner_block h1
    refine ⟨_, ctor_copy_some h1 h2 h3, Good.strong_acquire hI h2 rfl hpos ?_ (fun _ => rfl)
      (by simp) (by simp)⟩
    intro c
    simpa using owners_push s (some ⟨some b, p⟩) c _ s.weak

theorem ctor_alias_good {s : State} (hI : Inv s) (j : Nat) (ptr : Ptr) :
    SharedPtr.ctor_alias s j ptr = .error .deadHandle ∨
      ∃ t, SharedPtr.ctor_alias s j ptr = .ok t ∧ Good PA s t := by
  rcases shared_cases s j with hd | ⟨p, h1⟩ | ⟨b, p, h1⟩
  · left; simp [SharedPtr.ctor_alias, getShared_dead hd, bind, Except.bind]
  · right
    refine ⟨_, ctor_alias_none h1, Good.neutral PA_refl hI rfl ?_ (fun _ => rfl) (by simp)
      (by simp)⟩
    intro c
    simpa using owners_push s (some ⟨none, ptr⟩) c s.heap s.weak
  · right
    obtain ⟨blk, h2, h3, hpos, _⟩ := hI.owner_block h1
    refine ⟨_, ctor_alias_some h1 h2 h3, Good.strong_acquire hI h2 rfl hpos ?_ (fun _ => rfl)
      (by simp) (by simp)⟩
    intro c
    simpa using owners_push s (some ⟨some b, ptr⟩) c _ s.weak

theorem getElem?_set_some {α : Type} {l : List α} {i j : Nat} {x : α} (y : α)
    (hj : l[j]? = some x) : (l.set i y)[j]? = some (if i = j then y else x) := by
  have hl := lt_of_getElem? hj
  rw [List.getElem?_set]
  by_cases h : i = j
  · subst h; simp [hl]
  · simp [h, hj]

theorem ctor_move_good {s : State} (hI : Inv s) (j : Nat) :
    SharedPtr.ctor_move s j = .error .deadHandle ∨
      ∃ t, SharedPtr.ctor_move s j = .ok t ∧ Good PA s t := by
  rcases h : s.shared[j]? with _ | _ | o
  · left; simp [SharedPtr.ctor_move, State.getShared, h, bind, Except.bind]
  · left; simp [SharedPtr.ctor_move, State.getShared, h, bind, Except.bind]
  · right
    refine ⟨_, ctor_move_eq h, Good.neutral PA_refl hI rfl ?_ (fun _ => rfl) (by simp)
      (by simp)⟩
    intro c
    have h1 := owners_set (some ⟨none, 0⟩) h c s.heap s.weak
    simp only [State.owners, List.countP_append] at h1 ⊢
    simp at h1 ⊢
    cases hr : SharedPtr.refersTo c (some o) <;> simp [hr] at h1 ⊢ <;> omega

theorem ctor_weak_good {s : State} (hI : Inv s) (w : Nat) :
    SharedPtr.ctor_weak s w = .error .deadHandle ∨
      SharedPtr.ctor_weak s w = .error .badWeakPtr ∨
      (SharedPtr.ctor_weak s w = .error .nullDeref ∧ ∃ p, s.weak[w]? = some (some ⟨none, p⟩)) ∨
      ∃ t, SharedPtr.ctor_weak s w = .ok t ∧ Good PA s t := by
  rcases weak_cases s w with hd | ⟨p, h1⟩ | ⟨b, p, h1⟩
  · left; simp [SharedPtr.ctor_weak, getWeak_dead hd, bind, Except.bind]
  · right; right; left; exact ⟨ctor_weak_null h1, p, h1⟩
  · obtain ⟨blk, h2, h3, _, hB⟩ := hI.observer_block h1
    by_cases h4 : blk.strong_count_ = 0
    · right; left; exact ctor_weak_expired h1 h2 h3 h4
    · right; right; right
      have hpos : 1 ≤ s.owners b := by
        have := hB.strong
        omega
      refine ⟨_, ctor_weak_some h1 h2 h3 h4, Good.strong_acquire hI h2 rfl hpos ?_
        (fun _ => rfl) (by simp) (by simp)⟩
      intro c
      simpa using owners_push s (some ⟨some b, p⟩) c _ s.weak

theorem assign_good {s : State} (hI : Inv s) (i j : Nat) :
    SharedPtr.assign s i j = .error .deadHandle ∨
      ∃ t, SharedPtr.assign s i j = .ok t ∧ Good PS s t := by
  rcases Reset_good hI i with hd | ⟨t, hR, hG, hti, htl, htw, hth⟩
  · left; simp [SharedPtr.assign, hd, bind, Except.bind]
  · rcases shared_cases t j with hd | ⟨p, h1⟩ | ⟨b, p, h1⟩
    · left; simp [SharedPtr.assign, hR, getShared_dead hd, bind, Except.bind]
    · right
      refine ⟨_, assign_none hR hti h1, Good.seq PR_PA_PS hG
        (Good.neutral PA_refl hG.inv rfl ?_ (fun _ => rfl) (by simp) (by simp))
        hth (by simp [htl]) (by simp [htw])⟩
      intro c
      simpa using owners_set (some ⟨none, p⟩) hti c t.heap t.weak
    · right
      obtain ⟨blk, h2, h3, hpos, _⟩ := hG.inv.owner_block h1
      refine ⟨_, assign_some hR hti h1 h2 h3, Good.seq PR_PA_PS hG
        (Good.strong_acquire hG.inv h2 rfl hpos ?_ (fun _ => rfl) (by simp) (by simp))
        hth (by simp [htl]) (by simp [htw])⟩
      intro c
      simpa using owners_set (some ⟨some b, p⟩) hti c _ t.weak

theorem assign_move_good {s : State} (hI : Inv s) (i j : Nat) :
    SharedPtr.assign_move s i j = .error .deadHandle ∨
      ∃ t, SharedPtr.assign_move s i j = .ok t ∧ Good PS s t := by
  rcases Reset_good hI i with hd | ⟨t, hR, hG, hti, htl, htw, hth⟩
  · left; simp [SharedPtr.assign_move, hd, bind, Except.bind]
  · rcases h : t.shared[j]? with _ | _ | o
    · left; simp [SharedPtr.assign_move, hR, State.getShared, h, bind, Except.bind]
    · left; simp [SharedPtr.assign_move, hR, State.getShared, h, bind, Except.bind]
    · right
      refine ⟨_, assign_move_eq hR h, Good.seq PR_PA_PS hG
        (Good.neutral PA_refl hG.inv rfl ?_ (fun _ => rfl) (by simp) (by simp))
        hth (by simp [htl]) (by simp [htw])⟩
      intro c
      have h1 := owners_set (some o) hti c t.heap t.weak
      have hj : (t.shared.set i (some o))[j]? = some (some o) := by
        rw [getElem?_set_some (some o) h]; simp
      have h2 := countP_set_getElem? (SharedPtr.refersTo c) _ j _ (some ⟨none, 0⟩) hj
      simp only [State.owners] at h1 ⊢
      simp at h1 h2
      omega

theorem Swap_good {s : State} (hI : Inv s) (i j : Nat) :
    SharedPtr.Swap s i j = .error .deadHandle ∨
      ∃ t, SharedPtr.Swap s i j = .ok t ∧ Good PA s t := by
  rcases hi : s.shared[i]? with _ | _ | me
  · left; simp [SharedPtr.Swap, State.getShared, hi, bind, Except.bind]
  · left; simp [SharedPtr.Swap, State.getShared, hi, bind, Except.bind]
  · rcases hj : s.shared[j]? with _ | _ | o
    · left; simp [SharedPtr.Swap, State.getShared, hi, hj, bind, Except.bind]
    · left; simp [SharedPtr.Swap, State.getShared, hi, hj, bind, Except.bind]
    · right
      refine ⟨_, Swap_eq hi hj, Good.neutral PA_refl hI rfl ?_ (fun _ => rfl) (by simp)
        (by simp)⟩
      intro c
      have h1 := owners_set (some o) hi c s.heap s.weak
      have hj' : (s.shared.set i (some o))[j]? = some (some o) := by
        rw [getElem?_set_some (some o) hj]; simp
      have h2 := countP_set_getElem? (SharedPtr.refersTo c) _ j _ (some me) hj'
      simp only [State.owners] at h1 ⊢
      omega

theorem Reset_ptr_good {s : State} (hI : Inv s) (i : Nat) (ptr : Ptr) :
    SharedPtr.Reset_ptr s i ptr = .error .deadHandle ∨
      ∃ t, SharedPtr.Reset_ptr s i ptr = .ok t ∧ Good PS s t := by
  rcases Reset_good hI i with hd | ⟨t, hR, hG, hti, htl, htw, hth⟩
  · left; simp [SharedPtr.Reset_ptr, hd, bind, Except.bind]
  · right
    by_cases h : ptr = 0
    · subst h
      refine ⟨_, Reset_ptr_null hR hti, Good.seq PR_PA_PS hG
        (Good.neutral PA_refl hG.inv rfl ?_ (fun _ => rfl) (by simp) (by simp))
        hth (by simp [htl]) (by simp [htw])⟩
      intro c
      simpa using owners_set (some ⟨none, 0⟩) hti c t.heap t.weak
    · refine ⟨_, Reset_ptr_some h hR hti, Good.seq PR_PA_PS hG
        (Good.alloc hG.inv rfl (BlockInv.fresh_ptr ptr) ?_ (fun _ => rfl) (by simp) (by simp))
        hth (by simp [htl]) (by simp [htw])⟩
      intro c
      simpa using owners_set (some ⟨some t.heap.length, ptr⟩) hti c _ t.weak

theorem weak_Reset_good {s : State} (hI : Inv s) (i : Nat) :
    WeakPtr.Reset s i = .error .deadHandle ∨
      ∃ t, WeakPtr.Reset s i = .ok t ∧ Good PA s t ∧
        t.weak[i]? = some (some ⟨none, 0⟩) ∧ t.weak.length = s.weak.length ∧
        t.shared = s.shared ∧ t.heap.length = s.heap.length := by
  rcases weak_cases s i with hd | ⟨p, h1⟩ | ⟨b, p, h1⟩
  · left; simp [WeakPtr.Reset, getWeak_dead hd, bind, Except.bind]
  · right
    refine ⟨_, weak_Reset_none h1, Good.neutral PA_refl hI rfl (fun _ => rfl) ?_ (by simp)
      (by simp), ?_, by simp, rfl, by simp⟩
    · intro c
      have := observers_set (some ⟨none, 0⟩) h1 c s.heap s.shared
      simpa using this
    · simp [lt_of_getElem? h1]
  · right
    obtain ⟨blk, h2, h3, _, _⟩ := hI.observer_block h1
    refine ⟨_, weak_Reset_some h1 h2 h3, Good.weak_release hI h2 rfl (fun _ => rfl) ?_
      (by simp) (by simp), ?_, by simp, rfl, by simp⟩
    · intro c
      have := observers_set (some ⟨none, 0⟩) h1 c (s.heap.set b blk.weakRelease) s.shared
      simpa using this
    · simp [lt_of_getElem? h1]

theorem weak_dtor_good {s : State} (hI : Inv s) (i : Nat) :
    WeakPtr.dtor s i = .error .deadHandle ∨
      ∃ t, WeakPtr.dtor s i = .ok t ∧ Good PA s t := by
  rcases weak_cases s i with hd | ⟨p, h1⟩ | ⟨b, p, h1⟩
  · left; simp [WeakPtr.dtor, getWeak_dead hd, bind, Except.bind]
  · right
    refine ⟨_, weak_dtor_none h1, Good.neutral PA_refl hI rfl (fun _ => rfl) ?_ (by simp)
      (by simp)⟩
    intro c
    have := observers_set none h1 c s.heap s.shared
    simpa using this
  · right
    obtain ⟨blk, h2, h3, _, _⟩ := hI.observer_block h1
    refine ⟨_, weak_dtor_some h1 h2 h3, Good.weak_release hI h2 rfl (fun _ => rfl) ?_
      (by simp) (by simp)⟩
    intro c
    have := observers_set none h1 c (s.heap.set b blk.weakRelease) s.shared
    simpa using this

theorem weak_ctor_default_good {s : State} (hI : Inv s) :
    Good PA s (WeakPtr.ctor_default s) := by
  refine Good.neutral PA_refl hI rfl (fun _ => rfl) ?_ (by simp [WeakPtr.ctor_default,
    State.newWeak]) (by simp [WeakPtr.ctor_default, State.newWeak])
  intro c
  simpa using observers_push s (some ⟨none, 0⟩) c s.heap s.shared

theorem weak_ctor_copy_good {s : State} (hI : Inv s) (j : Nat) :
    WeakPtr.ctor_copy s j = .error .deadHandle ∨
      ∃ t, WeakPtr.ctor_copy s j = .ok t ∧ Good PA s t := by
  rcases weak_cases s j with hd | ⟨p, h1⟩ | ⟨b, p, h1⟩
  · left; simp [WeakPtr.ctor_copy, getWeak_dead hd, bind, Except.bind]
  · right
    refine ⟨_, weak_ctor_copy_none h1, Good.neutral PA_refl hI rfl (fun _ => rfl) ?_
      (by simp) (by simp)⟩
    intro c
    simpa using observers_push s (some ⟨none, p⟩) c s.heap s.shared
  · right
    obtain ⟨blk, h2, h3, hpos, _⟩ := hI.observer_block h1
    refine ⟨_, weak_ctor_copy_some h1 h2 h3, Good.weak_acquire hI h2 rfl (by omega)
      (fun _ => rfl) ?_ (by simp) (by simp)⟩
    intro c
    simpa using observers_push s (some ⟨some b, p⟩) c _ s.shared

theorem weak_ctor_shared_good {s : State} (hI : Inv s) (j : Nat) :
    WeakPtr.ctor_shared s j = .error .deadHandle ∨
      ∃ t, WeakPtr.ctor_shared s j = .ok t ∧ Good PA s t := by
  rcases shared_cases s j with hd | ⟨p, h1⟩ | ⟨b, p, h1⟩
  · left
    simp [WeakPtr.ctor_shared, SharedPtr.GetBlock, getShared_dead hd, bind, Except.bind]
  · right
    refine ⟨_, weak_ctor_shared_none h1, Good.neutral PA_refl hI rfl (fun _ => rfl) ?_
      (by simp) (by simp)⟩
    intro c
    simpa using observers_push s (some ⟨none, p⟩) c s.heap s.shared
  · right
    obtain ⟨blk, h2, h3, hpos, _⟩ := hI.owner_block h1
    refine ⟨_, weak_ctor_shared_some h1 h2 h3, Good.weak_acquire hI h2 rfl (by omega)
      (fun _ => rfl) ?_ (by simp) (by simp)⟩
    intro c
    simpa using observers_push s (some ⟨some b, p⟩) c _ s.shared

theorem weak_ctor_move_good {s : State} (hI : Inv s) (j : Nat) :
    WeakPtr.ctor_move s j = .error .deadHandle ∨
      ∃ t, WeakPtr.ctor_move s j = .ok t ∧ Good PA s t := by
  rcases h : s.weak[j]? with _ | _ | o
  · left; simp [WeakPtr.ctor_move, State.getWeak, h, bind, Except.bind]
  · left; simp [WeakPtr.ctor_move, State.getWeak, h, bind, Except.bind]
  · right
    refine ⟨_, weak_ctor_move_eq h, Good.neutral PA_refl hI rfl (fun _ => rfl) ?_ (by simp)
      (by simp)⟩
    intro c
    have h1 := observers_set (some ⟨none, 0⟩) h c s.heap s.shared
    simp only [State.observers, List.countP_append] at h1 ⊢
    simp at h1 ⊢
    cases hr : WeakPtr.refersTo c (some o) <;> simp [hr] at h1 ⊢ <;> omega

theorem weak_assign_good {s : State} (hI : Inv s) (i j : Nat) :
    WeakPtr.assign s i j = .error .deadHandle ∨
      ∃ t, WeakPtr.assign s i j = .ok t ∧ Good PA s t := by
  by_cases hij : i = j
  · subst hij
    exact Or.inr ⟨s, weak_assign_self s i, Good.same PA_refl hI⟩
  rcases weak_Reset_good hI i with hd | ⟨t, hR, hG, hti, htl, hts, hth⟩
  · left; simp [WeakPtr.assign, hd, bind, Except.bind, hij]
  · rcases weak_cases t j with hd | ⟨p, h1⟩ | ⟨b, p, h1⟩
    · left; simp [WeakPtr.assign, hR, getWeak_dead hd, bind, Except.bind, hij]
    · right
      refine ⟨_, weak_assign_none hij hR hti h1, Good.seq PA_trans hG
        (Good.neutral PA_refl hG.inv rfl (fun _ => rfl) ?_ (by simp) (by simp))
        hth (by simp [hts]) (by simp [htl])⟩
      intro c
      simpa using observers_set (some ⟨none, p⟩) hti c t.heap t.shared
    · right
      obtain ⟨blk, h2, h3, hpos, _⟩ := hG.inv.observer_block h1
      refine ⟨_, weak_assign_some hij hR hti h1 h2 h3, Good.seq PA_trans hG
        (Good.weak_acquire hG.inv h2 rfl (by omega) (fun _ => rfl) ?_ (by simp) (by simp))
        hth (by simp [hts]) (by simp [htl])⟩
      intro c
      simpa using observers_set (some ⟨some b, p⟩) hti c _ t.shared

theorem weak_assign_move_good {s : State} (hI : Inv s) (i j : Nat) :
    WeakPtr.assign_move s i j = .error .deadHandle ∨
      ∃ t, WeakPtr.assign_move s i j = .ok t ∧ Good PA s t := by
  rcases weak_Reset_good hI i with hd | ⟨t, hR, hG, hti, htl, hts, hth⟩
  · left; simp [WeakPtr.assign_move, hd, bind, Except.bind]
  · rcases h : t.weak[j]? with _ | _ | o
    · left; simp [WeakPtr.assign_move, hR, State.getWeak, h, bind, Except.bind]
    · left; simp [WeakPtr.assign_move, hR, State.getWeak, h, bind, Except.bind]
    · right
      refine ⟨_, weak_assign_move_eq hR h, Good.seq PA_trans hG
        (Good.neutral PA_refl hG.inv rfl (fun _ => rfl) ?_ (by simp) (by simp))
        hth (by simp [hts]) (by simp [htl])⟩
      intro c
      have h1 := observers_set (some o) hti c t.heap t.shared
      have hj : (t.weak.set i (some o))[j]? = some (some o) := by
        rw [getElem?_set_some (some o) h]; simp
      have h2 := countP_set_getElem? (WeakPtr.refersTo c) _ j _ (some ⟨none, 0⟩) hj
      simp only [State.observers] at h1 ⊢
      simp at h1 h2
      omega

theorem weak_Swap_good {s : State} (hI : Inv s) (i j : Nat) :
    WeakPtr.Swap s i j = .error .deadHandle ∨
      ∃ t, WeakPtr.Swap s i j = .ok t ∧ Good PA s t := by
  rcases hi : s.weak[i]? with _ | _ | me
  · left; simp [WeakPtr.Swap, State.getWeak, hi, bind, Except.bind]
  · left; simp [WeakPtr.Swap, State.getWeak, hi, bind, Except.bind]
  · rcases hj : s.weak[j]? with _ | _ | o
    · left; simp [WeakPtr.Swap, State.getWeak, hi, hj, bind, Except.bind]
    · left; simp [WeakPtr.Swap, State.getWeak, hi, hj, bind, Except.bind]
    · right
      refine ⟨_, weak_Swap_eq hi hj, Good.neutral PA_refl hI rfl (fun _ => rfl) ?_ (by simp)
        (by simp)⟩
      intro c
      have h1 := observers_set (some o) hi c s.heap s.shared
      have hj' : (s.weak.set i (some o))[j]? = some (some o) := by
        rw [getElem?_set_some (some o) hj]; simp
      have h2 := countP_set_getElem? (WeakPtr.refersTo c) _ j _ (some me) hj'
      simp only [State.observers] at h1 ⊢
      omega

theorem weak_Lock_good {s : State} (hI : Inv s) (w : Nat) :
    WeakPtr.Lock s w = .error .deadHandle ∨
      ∃ t, WeakPtr.Lock s w = .ok t ∧ Good PA s t := by
  have hempty : Good PA s { s with shared := (s.shared ++ [some ⟨none, 0⟩]) } := by
    refine Good.neutral PA_refl hI rfl ?_ (fun _ => rfl) (by simp) (by simp)
    intro c
    simpa using owners_push s (some ⟨none, 0⟩) c s.heap s.weak
  rcases weak_cases s w with hd | ⟨p, h1⟩ | ⟨b, p, h1⟩
  · left; simp [WeakPtr.Lock, getWeak_dead hd, bind, Except.bind]
  · exact Or.inr ⟨_, weak_Lock_null h1, hempty⟩
  · obtain ⟨blk, h2, h3, _, hB⟩ := hI.observer_block h1
    by_cases h4 : blk.strong_count_ = 0
    · exact Or.inr ⟨_, weak_Lock_expired h1 h2 h3 h4, hempty⟩
    · right
      have hpos : 1 ≤ s.owners b := by
        have := hB.strong
        omega
      refine ⟨_, (weak_Lock_some h1 h2 h3 h4).trans (ctor_weak_some h1 h2 h3 h4),
        Good.strong_acquire hI h2 rfl hpos ?_ (fun _ => rfl) (by simp) (by simp)⟩
      intro c
      simpa using owners_push s (some ⟨some b, p⟩) c _ s.weak

theorem StepOutcome.of_PA {s : State} {op : Op} {r : Except Fault State}
    (h : r = .error .deadHandle ∨ ∃ t, r = .ok t ∧ Good PA s t) : StepOutcome s op r := by
  rcases h with h | ⟨t, h1, h2⟩
  · exact Or.inl h
  · exact Or.inr (Or.inr (Or.inr ⟨t, h1, h2.weaken PA_PS, fun _ => h2.rel⟩))

theorem StepOutcome.of_PR {s : State} {op : Op} {r : Except Fault State}
    (hop : op.releasesOwner = true)
    (h : r = .error .deadHandle ∨ ∃ t, r = .ok t ∧ Good PR s t) : StepOutcome s op r := by
  rcases h with h | ⟨t, h1, h2⟩
  · exact Or.inl h
  · exact Or.inr (Or.inr (Or.inr ⟨t, h1, h2.weaken PR_PS, fun h => by rw [hop] at h; cases h⟩))

theorem StepOutcome.of_PS {s : State} {op : Op} {r : Except Fault State}
    (hop : op.releasesOwner = true)
    (h : r = .error .deadHandle ∨ ∃ t, r = .ok t ∧ Good PS s t) : StepOutcome s op r := by
  rcases h with h | ⟨t, h1, h2⟩
  · exact Or.inl h
  · exact Or.inr (Or.inr (Or.inr ⟨t, h1, h2, fun h => by rw [hop] at h; cases h⟩))

theorem step_good {s : State} (hI : Inv s) (op : Op) : StepOutcome s op (step s op) := by
  cases op with
  | sharedDefault => exact .of_PA (Or.inr ⟨_, rfl, ctor_default_good hI⟩)
  | sharedNullptr => exact .of_PA (Or.inr ⟨_, rfl, ctor_default_good hI⟩)
  | sharedPtr ptr => exact .of_PA (Or.inr (ctor_ptr_good hI ptr))
  | sharedCopy o => exact .of_PA (ctor_copy_good hI o)
  | sharedMove o => exact .of_PA (ctor_move_good hI o)
  | sharedAlias o ptr => exact .of_PA (ctor_alias_good hI o ptr)
  | sharedFromWeak w =>
    rcases ctor_weak_good hI w with h | h | ⟨h, p, hp⟩ | h
    · exact Or.inl h
    · exact Or.inr (Or.inl h)
    · exact Or.inr (Or.inr (Or.inl ⟨h, w, p, rfl, hp⟩))
    · exact .of_PA (Or.inr h)
  | sharedAssign t o => exact .of_PS rfl (assign_good hI t o)
  | sharedAssignMove t o => exact .of_PS rfl (assign_move_good hI t o)
  | sharedReset t =>
    refine .of_PR rfl ?_
    rcases Reset_good hI t with h | ⟨u, h1, h2, _⟩
    · exact Or.inl h
    · exact Or.inr ⟨u, h1, h2⟩
  | sharedResetPtr t ptr => exact .of_PS rfl (Reset_ptr_good hI t ptr)
  | sharedSwap t o => exact .of_PA (Swap_good hI t o)
  | sharedDtor t => exact .of_PR rfl (dtor_good hI t)
  | makeShared addr => exact .of_PA (Or.inr (MakeShared_good hI addr))
  | weakDefault => exact .of_PA (Or.inr ⟨_, rfl, weak_ctor_default_good hI⟩)
  | weakCopy o => exact .of_PA (weak_ctor_copy_good hI o)
  | weakMove o => exact .of_PA (weak_ctor_move_good hI o)
  | weakFromShared o => exact .of_PA (weak_ctor_shared_good hI o)
  | weakAssign t o => exact .of_PA (weak_assign_good hI t o)
  | weakAssignMove t o => exact .of_PA (weak_assign_move_good hI t o)
  | weakReset t =>
    refine .of_PA ?_
    rcases weak_Reset_good hI t with h | ⟨u, h1, h2, _⟩
    · exact Or.inl h
    · exact Or.inr ⟨u, h1, h2⟩
  | weakSwap t o => exact .of_PA (weak_Swap_good hI t o)
  | weakDtor t => exact .of_PA (weak_dtor_good hI t)
  | weakLock t => exact .of_PA (weak_Lock_good hI t)

/-- In a state satisfying the invariant an operation either returns (or is skipped) and the
invariant holds again, or it is the promotion of an empty Observer Handle, which reads
`strong_count_` through a null pointer. -/
theorem exec_good {s : State} (hI : Inv s) (op : Op) :
    (exec s op = .error .nullDeref ∧ ∃ w p, op = .sharedFromWeak w ∧
      s.weak[w]? = some (some ⟨none, p⟩)) ∨
    ∃ t, exec s op = .ok t ∧ Good PS s t ∧ (op.releasesOwner = false → Rel PA s t) := by
  have hrefl : ∃ t, (Except.ok s : Except Fault State) = Except.ok t ∧ Good PS s t ∧
      (op.releasesOwner = false → Rel PA s t) :=
    ⟨s, rfl, Good.same PS_refl hI, fun _ => (Good.same PA_refl hI).rel⟩
  rcases step_good hI op with h | h | ⟨h, hw⟩ | ⟨t, h, hG⟩
  · right; unfold exec; rw [h]; exact hrefl
  · right; unfold exec; rw [h]; exact hrefl
  · left; unfold exec; rw [h]; exact ⟨rfl, hw⟩
  · right; unfold exec; rw [h]; exact ⟨t, rfl, hG⟩

theorem exec_owning {s : State} (hI : Inv s) {op : Op} (hop : op.onOwningHandles = true) :
    ∃ t, exec s op = .ok t ∧ Good PS s t := by
  rcases exec_good hI op with ⟨_, w, p, h, _⟩ | ⟨t, h1, h2, _⟩
  · subst h; cases hop
  · exact ⟨t, h1, h2⟩

theorem Inv.init : Inv State.init := by
  intro b
  simp [State.init, State.owners, State.observers]

/-- Along a run the invariant is kept, the table of Owning Handles grows by at most one entry
per operation, and a strong count that has reached zero stays zero. -/
theorem run_good {s : State} (hI : Inv s) (ops : List Op) {t : State}
    (h : run s ops = .ok t) :
    Inv t ∧ t.shared.length ≤ s.shared.length + ops.length ∧ Rel PZ s t := by
  induction ops generalizing s with
  | nil =>
    simp [run] at h
    subst h
    exact ⟨hI, by simp, Rel.of_same PZ_refl rfl⟩
  | cons op ops ih =>
    rcases exec_good hI op with ⟨he, _⟩ | ⟨u, he, hG, _⟩
    · simp [run, he] at h
    · simp only [run, he] at h
      obtain ⟨h1, h2, h3⟩ := ih hG.inv h
      refine ⟨h1, ?_, Rel.comp PZ_trans (hG.rel.mono PS_PZ) h3⟩
      have := hG.slen
      simp
      omega

/-- A run never touches a deleted block and never deletes a block twice: the only fault
is the null dereference of a promotion. -/
theorem run_fault {s : State} (hI : Inv s) (ops : List Op) {e : Fault}
    (h : run s ops = .error e) : e = .nullDeref := by
  induction ops generalizing s with
  | nil => simp [run] at h
  | cons op ops ih =>
    rcases exec_good hI op with ⟨he, _⟩ | ⟨u, he, hG, _⟩
    · simp [run, he] at h
      exact h.symm
    · simp only [run, he] at h
      exact ih hG.inv h

theorem run_owning {s : State} (hI : Inv s) (ops : List Op)
    (hops : ∀ op ∈ ops, op.onOwningHandles = true) : ∃ t, run s ops = .ok t := by
  induction ops generalizing s with
  | nil => exact ⟨s, rfl⟩
  | cons op ops ih =>
    obtain ⟨u, he, hG⟩ := exec_owning hI (hops op (List.mem_cons_self _ _))
    obtain ⟨t, ht⟩ := ih hG.inv (fun o ho => hops o (List.mem_cons_of_mem _ ho))
    exact ⟨t, by simp only [run, he]; exact ht⟩

theorem toSizeT_natCast {n : Nat} (h : n < 2 ^ 64) : toSizeT (n : Int) = n := by
  unfold toSizeT
  have h1 : ((n : Int) % 2 ^ 64) = n := by
    apply Int.emod_eq_of_lt
    · omega
    · have : ((2 : Nat) ^ 64 : Nat) = (2 ^ 64 : Int) := by norm_num
      omega
  rw [h1]
  simp

theorem UseCount_none {s : State} {i : Nat} {p : Ptr}
    (h1 : s.shared[i]? = some (some ⟨none, p⟩)) : SharedPtr.UseCount s i = .ok 0 := by
  simp [SharedPtr.UseCount, State.getShared, h1, bind, Except.bind, pure, Except.pure]

theorem UseCount_some {s : State} {i b : Nat} {p : Ptr} {blk : BaseBlock}
    (h1 : s.shared[i]? = some (some ⟨some b, p⟩)) (h2 : s.heap[b]? = some blk)
    (h3 : blk.deletes = 0) :
    SharedPtr.UseCount s i = .ok (toSizeT blk.strong_count_) := by
  simp [SharedPtr.UseCount, State.getShared, h1, bind, Except.bind, pure, Except.pure,
    State.deref, h2, h3, BaseBlock.GetStrongCount]

/-- C1: for every sequence of Owning Handle operations, at every point of the sequence, an
empty live handle reports `UseCount()` 0 and every other live handle reports the number of
live Owning Handles whose block reference is the handle's block (as long as that number is
below `2^31`, the range of the `int` counter), and every block that has not been freed
stores that number as its strong count. -/
theorem C1_use_count_is_number_of_owners (ops : List Op)
    (hops : ∀ op ∈ ops, op.onOwningHandles = true) (n : Nat) :
    ∃ s, run State.init (ops.take n) = .ok s ∧
      (∀ (i : Nat) (p : SharedPtr), s.shared[i]? = some (some p) →
        match p.block_ with
        | some b => s.owners b < 2 ^ 31 → SharedPtr.UseCount s i = .ok (s.owners b)
        | none => SharedPtr.UseCount s i = .ok 0) ∧
      (∀ (b : Nat) (blk : BaseBlock), s.heap[b]? = some blk → blk.deletes = 0 →
        blk.strong_count_ = s.owners b) := by
  obtain ⟨s, hs⟩ := run_owning Inv.init (ops.take n)
    (fun op h => hops op (List.mem_of_mem_take h))
  obtain ⟨hI, _, _⟩ := run_good Inv.init _ hs
  refine ⟨s, hs, ?_, fun b blk h _ => (hI.block h).strong⟩
  intro i p hp
  rcases p with ⟨_ | b, q⟩
  · exact UseCount_none hp
  · intro hlt
    obtain ⟨blk, h2, h3, _, hB⟩ := hI.owner_block hp
    show SharedPtr.UseCount s i = .ok (s.owners b)
    rw [UseCount_some hp h2 h3, hB.strong, toSizeT_natCast]
    omega

/-- Witness for C1: wrap, copy, move, reset, copy-assign and destroy. -/
theorem C1_use_count_is_number_of_owners_witness :
    (∀ op ∈ [Op.sharedPtr 7, Op.sharedCopy 0, Op.sharedMove 1, Op.sharedReset 0,
        Op.sharedAssign 0 2, Op.sharedDtor 2], op.onOwningHandles = true) ∧
    ∃ s, run State.init
        (List.take 5 [Op.sharedPtr 7, Op.sharedCopy 0, Op.sharedMove 1, Op.sharedReset 0,
          Op.sharedAssign 0 2, Op.sharedDtor 2]) = .ok s ∧
      (∀ (i : Nat) (p : SharedPtr), s.shared[i]? = some (some p) →
        match p.block_ with
        | some b => s.owners b < 2 ^ 31 → SharedPtr.UseCount s i = .ok (s.owners b)
        | none => SharedPtr.UseCount s i = .ok 0) ∧
      (∀ (b : Nat) (blk : BaseBlock), s.heap[b]? = some blk → blk.deletes = 0 →
        blk.strong_count_ = s.owners b) :=
  ⟨by decide, C1_use_count_is_number_of_owners
    [Op.sharedPtr 7, Op.sharedCopy 0, Op.sharedMove 1, Op.sharedReset 0, Op.sharedAssign 0 2,
      Op.sharedDtor 2]
    (by decide) 5⟩

theorem exec_ok_good {s t : State} (hI : Inv s) {op : Op} (h : exec s op = .ok t) :
    Good PS s t ∧ (op.releasesOwner = false → Rel PA s t) := by
  rcases exec_good hI op with ⟨he, _⟩ | ⟨u, he, hG⟩
  · rw [he] at h; cases h
  · rw [he] at h; cases h; exact hG

theorem BlockInv.calls_eq {blk : BaseBlock} {ns nw : Nat} (h : BlockInv blk ns nw) :
    blk.zeroStrongCalls = if blk.strong_count_ = 0 then 1 else 0 := by
  rw [h.calls, h.strong]
  by_cases h0 : ns = 0
  · simp [h0]
  · have : ¬ ((ns : Int) = 0) := by omega
    simp [h0, this]

theorem BlockInv.deletes_eq {blk : BaseBlock} {ns nw : Nat} (h : BlockInv blk ns nw) :
    blk.deletes = if blk.strong_count_ = 0 ∧ blk.weak_count_ = 0 then 1 else 0 := by
  rw [h.deletes, h.strong, h.weak]
  by_cases h0 : ns = 0 ∧ nw = 0
  · simp [h0]
  · have : ¬ ((ns : Int) = 0 ∧ (nw : Int) = 0) := by omega
    simp [h0, this]

theorem BlockInv.strong_nonneg {blk : BaseBlock} {ns nw : Nat} (h : BlockInv blk ns nw) :
    0 ≤ blk.strong_count_ := by
  rw [h.strong]; omega

/-- C2: in every state a program reaches, `ZeroStrongCount` has run on a block at most once,
and it has run exactly if the strong count is 0 (in particular on every deleted block); a
further operation runs it on a block only if it is a `Reset`, an assignment or a destruction
of an Owning Handle that takes the strong count from 1 to 0, and every operation that takes
it from 1 to 0 runs it; a new block starts with strong count 1 and no call; once the strong
count is 0 no continuation of the program (no `Lock`, no promotion) changes it or runs
`ZeroStrongCount` again. -/
theorem C2_zero_strong_count_exactly_once (ops : List Op) (s : State)
    (hrun : run State.init ops = .ok s) :
    (∀ (b : Nat) (blk : BaseBlock), s.heap[b]? = some blk →
      blk.zeroStrongCalls = (if blk.strong_count_ = 0 then 1 else 0) ∧
      (blk.deletes ≠ 0 → blk.zeroStrongCalls = 1)) ∧
    (∀ (op : Op) (t : State), exec s op = .ok t →
      (∀ (b : Nat) (blk : BaseBlock), s.heap[b]? = some blk →
        ∃ blk', t.heap[b]? = some blk' ∧
          (blk'.zeroStrongCalls = blk.zeroStrongCalls ∨
            (blk'.zeroStrongCalls = blk.zeroStrongCalls + 1 ∧ op.releasesOwner = true)) ∧
          (blk'.zeroStrongCalls = blk.zeroStrongCalls + 1 ↔
            blk.strong_count_ = 1 ∧ blk'.strong_count_ = 0)) ∧
      (∀ (b : Nat) (blk' : BaseBlock), s.heap[b]? = none → t.heap[b]? = some blk' →
        blk'.strong_count_ = 1 ∧ blk'.zeroStrongCalls = 0)) ∧
    (∀ (more : List Op) (t : State), run s more = .ok t →
      ∀ (b : Nat) (blk : BaseBlock), s.heap[b]? = some blk → blk.strong_count_ = 0 →
        ∃ blk', t.heap[b]? = some blk' ∧ blk'.strong_count_ = 0 ∧
          blk'.zeroStrongCalls = 1) := by
  obtain ⟨hI, _, _⟩ := run_good Inv.init ops hrun
  refine ⟨?_, ?_, ?_⟩
  · intro b blk hb
    have hB := hI.block hb
    refine ⟨hB.calls_eq, fun hd => ?_⟩
    have h1 := hB.deletes_eq
    have h2 := hB.calls_eq
    by_cases h0 : blk.strong_count_ = 0
    · simp [h2, h0]
    · exfalso; apply hd; simp [h1, h0]
  · intro op t ht
    obtain ⟨hG, hA⟩ := exec_ok_good hI ht
    refine ⟨?_, ?_⟩
    · intro b blk hb
      obtain ⟨blk', hb', hP1, hP2, _⟩ := hG.rel b blk hb
      have hB := hI.block hb
      have hB' := hG.inv.block hb'
      have c1 := hB.calls_eq
      have c2 := hB'.calls_eq
      have n1 := hB.strong_nonneg
      have n2 := hB'.strong_nonneg
      refine ⟨blk', hb', ?_, ?_⟩
      · by_cases h0 : blk.strong_count_ = 0
        · left; rw [c1, c2, if_pos h0, if_pos (hP2 h0)]
        · by_cases h1 : blk'.strong_count_ = 0
          · right
            refine ⟨by rw [c1, c2, if_neg h0, if_pos h1], ?_⟩
            by_contra hrel
            have hrel' : op.releasesOwner = false := by
              cases h : op.releasesOwner
              · rfl
              · exact absurd h hrel
            obtain ⟨blk'', hb'', hQ, _⟩ := hA hrel' b blk hb
            rw [hb'] at hb''
            cases hb''
            omega
          · left; rw [c1, c2, if_neg h0, if_neg h1]
      · constructor
        · intro hc
          rw [c1, c2] at hc
          by_cases h0 : blk.strong_count_ = 0
          · rw [if_pos h0, if_pos (hP2 h0)] at hc; omega
          · by_cases h1 : blk'.strong_count_ = 0
            · exact ⟨by omega, h1⟩
            · rw [if_neg h0, if_neg h1] at hc; omega
        · rintro ⟨h0, h1⟩
          rw [c1, c2, if_pos h1, if_neg (by omega)]
    · intro b blk' hb hb'
      have hlen : s.heap.length ≤ b := by
        rcases Nat.lt_or_ge b s.heap.length with h | h
        · rw [List.getElem?_eq_getElem h] at hb; cases hb
        · exact h
      obtain ⟨f1, f2, _⟩ := hG.fresh b blk' hlen hb'
      exact ⟨f1, f2⟩
  · intro more t ht b blk hb h0
    obtain ⟨hIt, _, hR⟩ := run_good hI more ht
    obtain ⟨blk', hb', hZ, _⟩ := hR b blk hb
    have c2 := (hIt.block hb').calls_eq
    exact ⟨blk', hb', hZ h0, by rw [c2, if_pos (hZ h0)]⟩

/-- Witness for C2: wrap, demote, destroy the owner, try `Lock`. -/
theorem C2_zero_strong_count_exactly_once_witness :
    run State.init [Op.sharedPtr 7, Op.weakFromShared 0, Op.sharedDtor 0, Op.weakLock 0] =
        .ok { heap := [⟨1, 0, .ptrBlock 0, 1, 0⟩], shared := [none, some ⟨none, 0⟩],
              weak := [some ⟨some 0, 7⟩] } ∧
      ∀ (more : List Op) (t : State),
        run { heap := [⟨1, 0, .ptrBlock 0, 1, 0⟩], shared := [none, some ⟨none, 0⟩],
              weak := [some ⟨some 0, 7⟩] } more = .ok t →
        ∀ (b : Nat) (blk : BaseBlock),
          (State.mk [⟨1, 0, .ptrBlock 0, 1, 0⟩] [none, some ⟨none, 0⟩]
            [some ⟨some 0, 7⟩]).heap[b]? = some blk →
          blk.strong_count_ = 0 →
          ∃ blk', t.heap[b]? = some blk' ∧ blk'.strong_count_ = 0 ∧
            blk'.zeroStrongCalls = 1 :=
  ⟨rfl, (C2_zero_strong_count_exactly_once
    [Op.sharedPtr 7, Op.weakFromShared 0, Op.sharedDtor 0, Op.weakLock 0] _ rfl).2.2⟩

/-- Deletion of a block, for programs whose values hold no handles (the destructor of the
value changes no count: every `Op`).  In every state such a program reaches, a block has been
deleted at most once, it has been deleted exactly if its strong count and its weak count are
both 0, and then its value has been released; an operation that leaves both counts of a block
at 0 leaves the block deleted, a deleted block is never touched again, and no such program
ever accesses a deleted block or deletes a block twice (the only fault of a run is the null
dereference of a promotion).  For a value that holds an Observer Handle to its own block see
`ZeroStrongCount_running`. -/
theorem plain_value_block_deleted_exactly_once (ops : List Op) (s : State)
    (hrun : run State.init ops = .ok s) :
    (∀ (b : Nat) (blk : BaseBlock), s.heap[b]? = some blk →
      blk.deletes ≤ 1 ∧
      (blk.deletes = 1 ↔ blk.strong_count_ = 0 ∧ blk.weak_count_ = 0) ∧
      (blk.deletes = 1 → blk.zeroStrongCalls = 1)) ∧
    (∀ (op : Op) (t : State), exec s op = .ok t →
      ∀ (b : Nat) (blk : BaseBlock), s.heap[b]? = some blk →
        ∃ blk', t.heap[b]? = some blk' ∧
          (blk'.strong_count_ = 0 ∧ blk'.weak_count_ = 0 → blk'.deletes = 1) ∧
          (blk'.deletes = blk.deletes + 1 ↔
            ¬ (blk.strong_count_ = 0 ∧ blk.weak_count_ = 0) ∧
              blk'.strong_count_ = 0 ∧ blk'.weak_count_ = 0)) ∧
    (∀ (more : List Op) (t : State), run s more = .ok t →
      ∀ (b : Nat) (blk : BaseBlock), s.heap[b]? = some blk → blk.deletes = 1 →
        t.heap[b]? = some blk) ∧
    (∀ (more : List Op) (e : Fault), run s more = .error e → e = .nullDeref) := by
  obtain ⟨hI, _, _⟩ := run_good Inv.init ops hrun
  refine ⟨?_, ?_, ?_, ?_⟩
  · intro b blk hb
    have hB := hI.block hb
    have d1 := hB.deletes_eq
    have c1 := hB.calls_eq
    by_cases h0 : blk.strong_count_ = 0 ∧ blk.weak_count_ = 0
    · rw [if_pos h0] at d1
      rw [if_pos h0.1] at c1
      exact ⟨by omega, ⟨fun _ => h0, fun _ => d1⟩, fun _ => c1⟩
    · rw [if_neg h0] at d1
      exact ⟨by omega, ⟨fun h => by omega, fun h => absurd h h0⟩, fun h => by omega⟩
  · intro op t ht b blk hb
    obtain ⟨hG, _⟩ := exec_ok_good hI ht
    obtain ⟨blk', hb', _, _, hfr⟩ := hG.rel b blk hb
    have d1 := (hI.block hb).deletes_eq
    have d2 := (hG.inv.block hb').deletes_eq
    refine ⟨blk', hb', fun h => by rw [d2, if_pos h], ?_⟩
    by_cases h0 : blk.strong_count_ = 0 ∧ blk.weak_count_ = 0
    · rw [if_pos h0] at d1
      have := hfr (by omega)
      subst this
      constructor
      · intro h; omega
      · intro h; exact absurd h0 h.1
    · rw [if_neg h0] at d1
      by_cases h1 : blk'.strong_count_ = 0 ∧ blk'.weak_count_ = 0
      · rw [if_pos h1] at d2
        exact ⟨fun _ => ⟨h0, h1⟩, fun _ => by omega⟩
      · rw [if_neg h1] at d2
        exact ⟨fun h => by omega, fun h => absurd h.2 h1⟩
  · intro more t ht b blk hb hd
    obtain ⟨_, _, hR⟩ := run_good hI more ht
    obtain ⟨blk', hb', _, hfr⟩ := hR b blk hb
    have := hfr (by omega)
    subst this
    exact hb'
  · intro more e he
    exact run_fault hI more he

/-- An instance: wrap, demote, destroy the owner, destroy the observer. -/
theorem plain_value_block_deleted_exactly_once_example :
    run State.init [Op.sharedPtr 7, Op.weakFromShared 0, Op.sharedDtor 0, Op.weakDtor 0] =
        .ok { heap := [⟨0, 0, .ptrBlock 0, 1, 1⟩], shared := [none], weak := [none] } ∧
      ∀ (more : List Op) (e : Fault),
        run { heap := [⟨0, 0, .ptrBlock 0, 1, 1⟩], shared := [none], weak := [none] } more
          = .error e → e = .nullDeref :=
  ⟨rfl, (plain_value_block_deleted_exactly_once
    [Op.sharedPtr 7, Op.weakFromShared 0, Op.sharedDtor 0, Op.weakDtor 0] _ rfl).2.2.2⟩

theorem exec_fromWeak_expired {s : State} {w : Nat}
    (h : SharedPtr.ctor_weak s w = .error .badWeakPtr) :
    exec s (.sharedFromWeak w) = .ok s := by
  simp [exec, step, h]

/-- C4: explicit promotion of an Observer Handle whose block pointer is non-null (and points
to a block that has not been deleted).  With a positive strong count the constructor returns,
the new handle has the observer's block pointer and access pointer, the strong count is one
higher and nothing else changes; with strong count 0 it throws `BadWeakPtr` and the program
state is what it was.  The constructor of the self-reference-aware header does the same. -/
theorem C4_promotion (s : State) (w b : Nat) (p : Ptr) (blk : BaseBlock)
    (hw : s.weak[w]? = some (some ⟨some b, p⟩)) (hb : s.heap[b]? = some blk)
    (hd : blk.deletes = 0) :
    (0 < blk.strong_count_ →
      ∃ t, SharedPtr.ctor_weak s w = .ok t ∧ SharedPtr.ctor_weak_guarded s w = .ok t ∧
        t.shared = s.shared ++ [some ⟨some b, p⟩] ∧ t.weak = s.weak ∧
        (∃ blk', t.heap[b]? = some blk' ∧ blk'.strong_count_ = blk.strong_count_ + 1 ∧
          blk'.weak_count_ = blk.weak_count_) ∧
        (∀ c, c ≠ b → t.heap[c]? = s.heap[c]?)) ∧
    (blk.strong_count_ = 0 →
      SharedPtr.ctor_weak s w = .error .badWeakPtr ∧
      SharedPtr.ctor_weak_guarded s w = .error .badWeakPtr ∧
      exec s (.sharedFromWeak w) = .ok s) := by
  constructor
  · intro hpos
    have h4 : blk.strong_count_ ≠ 0 := by omega
    refine ⟨_, ctor_weak_some hw hb hd h4, ?_, rfl, rfl, ⟨blk.StrongInc, ?_, rfl, rfl⟩, ?_⟩
    · simp [SharedPtr.ctor_weak_guarded, State.getWeak, hw, bind, Except.bind, State.newShared,
        State.deref, hb, hd, h4, BaseBlock.GetStrongCount, State.call, pure, Except.pure]
    · simp [lt_of_getElem? hb]
    · intro c hc
      simp [List.getElem?_set_ne (Ne.symm hc)]
  · intro h0
    have h1 := ctor_weak_expired hw hb hd h0
    refine ⟨h1, ?_, exec_fromWeak_expired h1⟩
    simp [SharedPtr.ctor_weak_guarded, State.getWeak, hw, bind, Except.bind, State.newShared,
      State.deref, hb, hd, h0, BaseBlock.GetStrongCount, pure, Except.pure, throw, throwThe,
      MonadExceptOf.throw]

/-- Witness for C4: an observer of a block with one owner. -/
theorem C4_promotion_witness :
    ∃ t, SharedPtr.ctor_weak exampleLive 0 = .ok t ∧
      SharedPtr.ctor_weak_guarded exampleLive 0 = .ok t ∧
      t.shared = exampleLive.shared ++ [some ⟨some 0, 7⟩] ∧ t.weak = exampleLive.weak ∧
      (∃ blk', t.heap[0]? = some blk' ∧
        blk'.strong_count_ = (⟨1, 1, .ptrBlock 7, 0, 0⟩ : BaseBlock).strong_count_ + 1 ∧
        blk'.weak_count_ = (⟨1, 1, .ptrBlock 7, 0, 0⟩ : BaseBlock).weak_count_) ∧
      (∀ c, c ≠ 0 → t.heap[c]? = exampleLive.heap[c]?) :=
  (C4_promotion exampleLive 0 0 7 ⟨1, 1, .ptrBlock 7, 0, 0⟩ rfl rfl rfl).1 (by decide)

theorem toSizeT_of_int {x : Int} (h0 : 0 ≤ x) (h1 : x < 2 ^ 31) :
    ((toSizeT x : Nat) : Int) = x := by
  unfold toSizeT
  have h2 : x % 2 ^ 64 = x := Int.emod_eq_of_lt h0 (by omega)
  rw [h2]
  exact Int.toNat_of_nonneg h0

/-- C5: `Lock()` on a live Observer Handle (whose block, if any, has not been deleted) always
returns.  If `Expired()` is true the result is an empty Owning Handle and nothing else
changes; otherwise `Lock()` returns what the promoting constructor returns: a handle with
the observer's block pointer and access pointer, the strong count raised by one. -/
theorem C5_lock (s : State) (w : Nat) (o : WeakPtr) (hw : s.weak[w]? = some (some o))
    (hv : ∀ b, o.block_ = some b → ∃ blk, s.heap[b]? = some blk ∧ blk.deletes = 0) :
    ∃ e t, WeakPtr.Expired s w = .ok e ∧ WeakPtr.Lock s w = .ok t ∧
      (e = true ↔ o.block_ = none ∨
        ∃ b blk, o.block_ = some b ∧ s.heap[b]? = some blk ∧ blk.strong_count_ = 0) ∧
      (e = true → t = { s with shared := (s.shared ++ [some ⟨none, 0⟩]) }) ∧
      (e = false → SharedPtr.ctor_weak s w = .ok t ∧
        ∃ b blk, o.block_ = some b ∧ s.heap[b]? = some blk ∧
          t = { heap := s.heap.set b blk.StrongInc,
                shared := s.shared ++ [some ⟨some b, o.ptr_⟩], weak := s.weak }) := by
  rcases o with ⟨_ | b, p⟩
  · refine ⟨true, _, ?_, weak_Lock_null hw, ?_, fun _ => rfl, fun h => by cases h⟩
    · simp [WeakPtr.Expired, State.getWeak, hw, bind, Except.bind, pure, Except.pure]
    · simp
  · obtain ⟨blk, hb, hd⟩ := hv b rfl
    by_cases h0 : blk.strong_count_ = 0
    · refine ⟨true, _, ?_, weak_Lock_expired hw hb hd h0, ?_, fun _ => rfl,
        fun h => by cases h⟩
      · simp [WeakPtr.Expired, State.getWeak, hw, bind, Except.bind, pure, Except.pure,
          State.deref, hb, hd, h0, BaseBlock.GetStrongCount]
      · simp [hb, h0]
    · refine ⟨false, _, ?_, (weak_Lock_some hw hb hd h0).trans (ctor_weak_some hw hb hd h0),
        ?_, (fun h => by cases h), fun _ => ⟨ctor_weak_some hw hb hd h0, b, blk, rfl, hb, rfl⟩⟩
      · simp [WeakPtr.Expired, State.getWeak, hw, bind, Except.bind, pure, Except.pure,
          State.deref, hb, hd, h0, BaseBlock.GetStrongCount]
      · simp [hb, h0]

/-- Witness for C5: `Lock()` after the last owner is gone. -/
theorem C5_lock_witness :
    ∃ e t, WeakPtr.Expired exampleExpired 0 = .ok e ∧ WeakPtr.Lock exampleExpired 0 = .ok t ∧
      (e = true ↔ (⟨some 0, 7⟩ : WeakPtr).block_ = none ∨
        ∃ b blk, (⟨some 0, 7⟩ : WeakPtr).block_ = some b ∧
          exampleExpired.heap[b]? = some blk ∧ blk.strong_count_ = 0) ∧
      (e = true →
        t = { exampleExpired with shared := (exampleExpired.shared ++ [some ⟨none, 0⟩]) }) ∧
      (e = false → SharedPtr.ctor_weak exampleExpired 0 = .ok t ∧
        ∃ b blk, (⟨some 0, 7⟩ : WeakPtr).block_ = some b ∧
          exampleExpired.heap[b]? = some blk ∧
          t = { heap := exampleExpired.heap.set b blk.StrongInc,
                shared := exampleExpired.shared ++ [some ⟨some b, (⟨some 0, 7⟩ : WeakPtr).ptr_⟩],
                weak := exampleExpired.weak }) :=
  C5_lock exampleExpired 0 ⟨some 0, 7⟩ rfl
    (fun b hb => ⟨⟨1, 0, .ptrBlock 0, 1, 0⟩, by cases hb; rfl, rfl⟩)

/-- C6: on a live Observer Handle, `UseCount()` returns 0 for a null block pointer and
otherwise the block's strong count (a non-negative `int`, converted to `size_t`);
`Expired()` is true if and only if the block pointer is null or the strong count is 0;
hence `Expired()` is true exactly when `UseCount()` is 0. -/
theorem C6_observer_use_count_and_expired (s : State) (w : Nat) (o : WeakPtr)
    (hw : s.weak[w]? = some (some o))
    (hv : ∀ b, o.block_ = some b → ∃ blk, s.heap[b]? = some blk ∧ blk.deletes = 0 ∧
      0 ≤ blk.strong_count_ ∧ blk.strong_count_ < 2 ^ 31) :
    ∃ (n : Nat) (e : Bool), WeakPtr.UseCount s w = .ok n ∧ WeakPtr.Expired s w = .ok e ∧
      (o.block_ = none → n = 0) ∧
      (∀ b blk, o.block_ = some b → s.heap[b]? = some blk → (n : Int) = blk.strong_count_) ∧
      (e = true ↔ o.block_ = none ∨
        ∃ b blk, o.block_ = some b ∧ s.heap[b]? = some blk ∧ blk.strong_count_ = 0) ∧
      (e = true ↔ n = 0) := by
  rcases o with ⟨_ | b, p⟩
  · refine ⟨0, true, ?_, ?_, fun _ => rfl, (fun b blk h => by cases h), (by simp), (by simp)⟩
    · simp [WeakPtr.UseCount, State.getWeak, hw, bind, Except.bind, pure, Except.pure]
    · simp [WeakPtr.Expired, State.getWeak, hw, bind, Except.bind, pure, Except.pure]
  · obtain ⟨blk, hb, hd, hn, hi⟩ := hv b rfl
    have hc := toSizeT_of_int hn hi
    refine ⟨toSizeT blk.strong_count_, decide (blk.strong_count_ = 0), ?_, ?_,
      (fun h => by cases h), ?_, ?_, ?_⟩
    · simp [WeakPtr.UseCount, State.getWeak, hw, bind, Except.bind, pure, Except.pure,
        State.deref, hb, hd, BaseBlock.GetStrongCount]
    · by_cases h0 : blk.strong_count_ = 0 <;>
      simp [WeakPtr.Expired, State.getWeak, hw, bind, Except.bind, pure, Except.pure,
        State.deref, hb, hd, BaseBlock.GetStrongCount, h0]
    · intro b' blk' h1 h2
      cases h1
      rw [hb] at h2
      cases h2
      exact hc
    · simp [hb]
    · simp only [decide_eq_true_eq]
      constructor
      · intro h0; rw [h0]; rfl
      · intro h0; rw [h0] at hc; simpa using hc.symm

/-- Witness for C6: the observer of a block whose last owner is gone. -/
theorem C6_observer_use_count_and_expired_witness :
    ∃ (n : Nat) (e : Bool), WeakPtr.UseCount exampleExpired 0 = .ok n ∧
      WeakPtr.Expired exampleExpired 0 = .ok e ∧
      ((⟨some 0, 7⟩ : WeakPtr).block_ = none → n = 0) ∧
      (∀ b blk, (⟨some 0, 7⟩ : WeakPtr).block_ = some b → exampleExpired.heap[b]? = some blk →
        (n : Int) = blk.strong_count_) ∧
      (e = true ↔ (⟨some 0, 7⟩ : WeakPtr).block_ = none ∨
        ∃ b blk, (⟨some 0, 7⟩ : WeakPtr).block_ = some b ∧
          exampleExpired.heap[b]? = some blk ∧ blk.strong_count_ = 0) ∧
      (e = true ↔ n = 0) :=
  C6_observer_use_count_and_expired exampleExpired 0 ⟨some 0, 7⟩ rfl
    (fun b hb => ⟨⟨1, 0, .ptrBlock 0, 1, 0⟩, by cases hb; rfl, rfl, by decide, by decide⟩)

/-- C7 (scenario A): for a non-null `V`, after `A = SharedPtr(V)` the use count of `A` is 1;
after `W = WeakPtr(A)` it is still 1; destroying `A` releases the value while `W` is alive
and does not free the block, `W.Expired()` is true, `W.UseCount()` is 0 and `W.Lock()` is an
empty handle; destroying `W` then frees the block.  A block is written
`⟨weak_count_, strong_count_, payload, zeroStrongCalls, deletes⟩`. -/
theorem C7_scenario_A (V : Ptr) (hV : V ≠ 0) :
    run State.init [.sharedPtr V] =
        .ok { heap := [⟨0, 1, .ptrBlock V, 0, 0⟩], shared := [some ⟨some 0, V⟩], weak := [] } ∧
      SharedPtr.UseCount
        { heap := [⟨0, 1, .ptrBlock V, 0, 0⟩], shared := [some ⟨some 0, V⟩], weak := [] } 0
          = .ok 1 ∧
    run State.init [.sharedPtr V, .weakFromShared 0] =
        .ok { heap := [⟨1, 1, .ptrBlock V, 0, 0⟩], shared := [some ⟨some 0, V⟩],
              weak := [some ⟨some 0, V⟩] } ∧
      SharedPtr.UseCount
        { heap := [⟨1, 1, .ptrBlock V, 0, 0⟩], shared := [some ⟨some 0, V⟩],
          weak := [some ⟨some 0, V⟩] } 0 = .ok 1 ∧
    run State.init [.sharedPtr V, .weakFromShared 0, .sharedDtor 0] =
        .ok { heap := [⟨1, 0, .ptrBlock 0, 1, 0⟩], shared := [none],
              weak := [some ⟨some 0, V⟩] } ∧
      WeakPtr.Expired
        { heap := [⟨1, 0, .ptrBlock 0, 1, 0⟩], shared := [none],
          weak := [some ⟨some 0, V⟩] } 0 = .ok true ∧
      WeakPtr.UseCount
        { heap := [⟨1, 0, .ptrBlock 0, 1, 0⟩], shared := [none],
          weak := [some ⟨some 0, V⟩] } 0 = .ok 0 ∧
    run State.init [.sharedPtr V, .weakFromShared 0, .sharedDtor 0, .weakLock 0] =
        .ok { heap := [⟨1, 0, .ptrBlock 0, 1, 0⟩], shared := [none, some ⟨none, 0⟩],
              weak := [some ⟨some 0, V⟩] } ∧
    run State.init [.sharedPtr V, .weakFromShared 0, .sharedDtor 0, .weakLock 0, .weakDtor 0] =
        .ok { heap := [⟨0, 0, .ptrBlock 0, 1, 1⟩], shared := [none, some ⟨none, 0⟩],
              weak := [none] } := by
  have r1 : exec State.init (.sharedPtr V) =
      .ok { heap := [⟨0, 1, .ptrBlock V, 0, 0⟩], shared := [some ⟨some 0, V⟩], weak := [] } := by
    simp only [exec, step]
    rw [ctor_ptr_some State.init hV]
    rfl
  have e2 : exec ⟨[⟨0, 1, .ptrBlock V, 0, 0⟩], [some ⟨some 0, V⟩], []⟩ (.weakFromShared 0) =
      .ok ⟨[⟨1, 1, .ptrBlock V, 0, 0⟩], [some ⟨some 0, V⟩], [some ⟨some 0, V⟩]⟩ := rfl
  have e3 : exec ⟨[⟨1, 1, .ptrBlock V, 0, 0⟩], [some ⟨some 0, V⟩], [some ⟨some 0, V⟩]⟩
      (.sharedDtor 0) =
      .ok ⟨[⟨1, 0, .ptrBlock 0, 1, 0⟩], [none], [some ⟨some 0, V⟩]⟩ := rfl
  have e4 : exec ⟨[⟨1, 0, .ptrBlock 0, 1, 0⟩], [none], [some ⟨some 0, V⟩]⟩ (.weakLock 0) =
      .ok ⟨[⟨1, 0, .ptrBlock 0, 1, 0⟩], [none, some ⟨none, 0⟩], [some ⟨some 0, V⟩]⟩ := rfl
  have e5 : exec ⟨[⟨1, 0, .ptrBlock 0, 1, 0⟩], [none, some ⟨none, 0⟩], [some ⟨some 0, V⟩]⟩
      (.weakDtor 0) =
      .ok ⟨[⟨0, 0, .ptrBlock 0, 1, 1⟩], [none, some ⟨none, 0⟩], [none]⟩ := rfl
  refine ⟨?_, rfl, ?_, rfl, ?_, rfl, rfl, ?_, ?_⟩
  · simp only [run, r1]
  · simp only [run, r1, e2]
  · simp only [run, r1, e2, e3]
  · simp only [run, r1, e2, e3, e4]
  · simp only [run, r1, e2, e3, e4, e5]

/-- Witness for C7 at `V = 7`: the state after `A` has been destroyed. -/
theorem C7_scenario_A_witness :
    (7 : Ptr) ≠ 0 ∧
    run State.init [.sharedPtr 7, .weakFromShared 0, .sharedDtor 0] =
      .ok { heap := [⟨1, 0, .ptrBlock 0, 1, 0⟩], shared := [none],
            weak := [some ⟨some 0, 7⟩] } :=
  ⟨by decide, (C7_scenario_A 7 (by decide)).2.2.2.2.1⟩

/-- C8: wrapping a non-null raw pointer `p` allocates one new `PtrBlock` (at the next free
address) with strong count 1 and weak count 0 that holds `p`, and constructs a handle whose
block pointer is that block, whose `Get()` is `p`, whose `UseCount()` is 1 and whose boolean
test is true; no other block and no other handle changes. -/
theorem C8_wrap_non_null (s : State) (p : Ptr) (hp : p ≠ 0) :
    ∃ t, SharedPtr.ctor_ptr s p = .ok t ∧
      t.heap = s.heap ++ [⟨0, 1, .ptrBlock p, 0, 0⟩] ∧
      t.shared = s.shared ++ [some ⟨some s.heap.length, p⟩] ∧
      t.weak = s.weak ∧
      SharedPtr.GetBlock t s.shared.length = .ok (some s.heap.length) ∧
      SharedPtr.Get t s.shared.length = .ok p ∧
      SharedPtr.UseCount t s.shared.length = .ok 1 ∧
      SharedPtr.toBool t s.shared.length = .ok true := by
  refine ⟨_, ctor_ptr_some s hp, rfl, rfl, rfl, ?_, ?_, ?_, ?_⟩
  · simp [SharedPtr.GetBlock, State.getShared, bind, Except.bind, pure, Except.pure]
  · simp [SharedPtr.Get, State.getShared, bind, Except.bind, pure, Except.pure, hp]
  · simp [SharedPtr.UseCount, State.getShared, bind, Except.bind, pure, Except.pure,
      State.deref, PtrBlock.ctor, BaseBlock.StrongInc, BaseBlock.GetStrongCount, toSizeT]
  · simp [SharedPtr.toBool, State.getShared, bind, Except.bind, pure, Except.pure]

/-- Witness for C8: wrapping address 7 in the initial state. -/
theorem C8_wrap_non_null_witness :
    (7 : Ptr) ≠ 0 ∧
    ∃ t, SharedPtr.ctor_ptr State.init 7 = .ok t ∧
      t.heap = State.init.heap ++ [⟨0, 1, .ptrBlock 7, 0, 0⟩] ∧
      t.shared = State.init.shared ++ [some ⟨some State.init.heap.length, 7⟩] ∧
      t.weak = State.init.weak ∧
      SharedPtr.GetBlock t State.init.shared.length = .ok (some State.init.heap.length) ∧
      SharedPtr.Get t State.init.shared.length = .ok 7 ∧
      SharedPtr.UseCount t State.init.shared.length = .ok 1 ∧
      SharedPtr.toBool t State.init.shared.length = .ok true :=
  ⟨by decide, C8_wrap_non_null State.init 7 (by decide)⟩

/-- C9: wrapping a null raw pointer gives what the default and the `nullptr` constructor
give: no block is allocated, the new handle has a null block pointer, `Get()` is null,
`UseCount()` is 0 and the boolean test is false; destroying or resetting that handle
changes no block. -/
theorem C9_wrap_null (s : State) :
    SharedPtr.ctor_ptr s 0 = .ok (SharedPtr.ctor_default s) ∧
    SharedPtr.ctor_nullptr s = SharedPtr.ctor_default s ∧
    (SharedPtr.ctor_default s).heap = s.heap ∧
    (SharedPtr.ctor_default s).shared = s.shared ++ [some ⟨none, 0⟩] ∧
    (SharedPtr.ctor_default s).weak = s.weak ∧
    SharedPtr.GetBlock (SharedPtr.ctor_default s) s.shared.length = .ok none ∧
    SharedPtr.Get (SharedPtr.ctor_default s) s.shared.length = .ok 0 ∧
    SharedPtr.UseCount (SharedPtr.ctor_default s) s.shared.length = .ok 0 ∧
    SharedPtr.toBool (SharedPtr.ctor_default s) s.shared.length = .ok false ∧
    (∃ u, SharedPtr.dtor (SharedPtr.ctor_default s) s.shared.length = .ok u ∧
      u.heap = s.heap) ∧
    (∃ u, SharedPtr.Reset (SharedPtr.ctor_default s) s.shared.length = .ok u ∧
      u.heap = s.heap) := by
  have hnew : (SharedPtr.ctor_default s).shared[s.shared.length]? = some (some ⟨none, 0⟩) := by
    simp [SharedPtr.ctor_default, State.newShared]
  refine ⟨ctor_ptr_null s, rfl, rfl, rfl, rfl, ?_, ?_, UseCount_none hnew, ?_,
    ⟨_, dtor_none hnew, rfl⟩, ⟨_, Reset_none hnew, rfl⟩⟩
  · simp [SharedPtr.GetBlock, State.getShared, hnew, bind, Except.bind, pure, Except.pure]
  · simp [SharedPtr.Get, State.getShared, hnew, bind, Except.bind, pure, Except.pure]
  · simp [SharedPtr.toBool, State.getShared, hnew, bind, Except.bind, pure, Except.pure]

/-- C10: copy-constructing `b` from a live Owning Handle `a` (whose block, if any, has not
been deleted) gives `b` the block pointer and the access pointer of `a`, so `a == b`; a
non-null block gets its strong count raised by exactly 1 and keeps its weak count, every
other block is unchanged; for an empty `a` no block changes; `a` itself and all Observer
Handles are unchanged. -/
theorem C10_copy_construct (s : State) (a : Nat) (o : SharedPtr)
    (ha : s.shared[a]? = some (some o))
    (hv : ∀ b, o.block_ = some b → ∃ blk, s.heap[b]? = some blk ∧ blk.deletes = 0) :
    ∃ t, SharedPtr.ctor_copy s a = .ok t ∧
      t.shared = s.shared ++ [some ⟨o.block_, o.ptr_⟩] ∧
      t.weak = s.weak ∧
      t.shared[a]? = some (some o) ∧
      SharedPtr.eq t a s.shared.length = .ok true ∧
      (o.block_ = none → t.heap = s.heap) ∧
      (∀ b blk, o.block_ = some b → s.heap[b]? = some blk →
        (∃ blk', t.heap[b]? = some blk' ∧ blk'.strong_count_ = blk.strong_count_ + 1 ∧
          blk'.weak_count_ = blk.weak_count_) ∧
        ∀ c, c ≠ b → t.heap[c]? = s.heap[c]?) := by
  have hal := lt_of_getElem? ha
  rcases o with ⟨_ | b, p⟩
  · refine ⟨_, ctor_copy_none ha, rfl, rfl, ?_, ?_, fun _ => rfl, fun b blk h => by cases h⟩
    · simp [List.getElem?_append_left hal, ha]
    · simp [SharedPtr.eq, SharedPtr.GetBlock, SharedPtr.GetPtr, State.getShared,
        List.getElem?_append_left hal, ha, bind, Except.bind, pure, Except.pure]
  · obtain ⟨blk, hb, hd⟩ := hv b rfl
    refine ⟨_, ctor_copy_some ha hb hd, rfl, rfl, ?_, ?_, (fun h => by cases h), ?_⟩
    · simp [List.getElem?_append_left hal, ha]
    · simp [SharedPtr.eq, SharedPtr.GetBlock, SharedPtr.GetPtr, State.getShared,
        List.getElem?_append_left hal, ha, bind, Except.bind, pure, Except.pure]
    · intro b' blk' h1 h2
      cases h1
      rw [hb] at h2
      cases h2
      refine ⟨⟨blk.StrongInc, ?_, rfl, rfl⟩, fun c hc => ?_⟩
      · simp [lt_of_getElem? hb]
      · simp [List.getElem?_set_ne (Ne.symm hc)]

/-- Witness for C10: copying the owner of `exampleLive`. -/
theorem C10_copy_construct_witness :
    ∃ t, SharedPtr.ctor_copy exampleLive 0 = .ok t ∧
      t.shared = exampleLive.shared ++
        [some ⟨(⟨some 0, 7⟩ : SharedPtr).block_, (⟨some 0, 7⟩ : SharedPtr).ptr_⟩] ∧
      t.weak = exampleLive.weak ∧
      t.shared[0]? = some (some ⟨some 0, 7⟩) ∧
      SharedPtr.eq t 0 exampleLive.shared.length = .ok true ∧
      ((⟨some 0, 7⟩ : SharedPtr).block_ = none → t.heap = exampleLive.heap) ∧
      (∀ b blk, (⟨some 0, 7⟩ : SharedPtr).block_ = some b → exampleLive.heap[b]? = some blk →
        (∃ blk', t.heap[b]? = some blk' ∧ blk'.strong_count_ = blk.strong_count_ + 1 ∧
          blk'.weak_count_ = blk.weak_count_) ∧
        ∀ c, c ≠ b → t.heap[c]? = exampleLive.heap[c]?) :=
  C10_copy_construct exampleLive 0 ⟨some 0, 7⟩ rfl
    (fun b hb => ⟨⟨1, 1, .ptrBlock 7, 0, 0⟩, by cases hb; rfl, rfl⟩)

theorem set_same_of_getElem? {α : Type} {l : List α} {i : Nat} {a : α} (h : l[i]? = some a) :
    l.set i a = l := by
  induction l generalizing i with
  | nil => rfl
  | cons y l ih =>
    cases i with
    | zero => simp at h; subst h; rfl
    | succ i => simp at h; simp [ih h]

/-- C11 at the failing input: a sole owner assigned to itself.  `operator=` runs `Reset()`
first, which takes the strong count to 0, releases the value and deletes the block; `other`
is then the emptied handle itself, so the handle ends empty with `UseCount()` 0.  The copy
assignment of `WeakPtr` is guarded by `this != &other` and leaves every state as it is.
A block is written `⟨weak_count_, strong_count_, payload, zeroStrongCalls, deletes⟩`. -/
theorem C11_self_assignment_releases_value :
    run State.init [.sharedPtr 7] =
        .ok { heap := [⟨0, 1, .ptrBlock 7, 0, 0⟩], shared := [some ⟨some 0, 7⟩], weak := [] } ∧
    SharedPtr.assign
        { heap := [⟨0, 1, .ptrBlock 7, 0, 0⟩], shared := [some ⟨some 0, 7⟩], weak := [] } 0 0 =
        .ok { heap := [⟨0, 0, .ptrBlock 0, 1, 1⟩], shared := [some ⟨none, 0⟩], weak := [] } ∧
    SharedPtr.UseCount
        { heap := [⟨0, 0, .ptrBlock 0, 1, 1⟩], shared := [some ⟨none, 0⟩], weak := [] } 0 =
        .ok 0 ∧
    ∀ (s : State) (i : Nat), WeakPtr.assign s i i = .ok s :=
  ⟨rfl, rfl, rfl, weak_assign_self⟩

/-- Copy assignment between two different handle objects does what C11 says: `a` gets the
block pointer and access pointer of `b`, `b` is unchanged, and `ZeroStrongCount` is not run
on the block of `b`. -/
theorem assign_distinct_shares {s : State} (hI : Inv s) {i j : Nat} (hij : i ≠ j)
    {a o : SharedPtr} (hi : s.shared[i]? = some (some a))
    (hj : s.shared[j]? = some (some o)) :
    ∃ t, SharedPtr.assign s i j = .ok t ∧
      t.shared[i]? = some (some ⟨o.block_, o.ptr_⟩) ∧ t.shared[j]? = some (some o) ∧
      ∀ b blk, o.block_ = some b → s.heap[b]? = some blk →
        ∃ blk', t.heap[b]? = some blk' ∧ blk'.zeroStrongCalls = blk.zeroStrongCalls := by
  have hil := lt_of_getElem? hi
  obtain ⟨u, hR, hus⟩ : ∃ u, SharedPtr.Reset s i = .ok u ∧
      u.shared = s.shared.set i (some ⟨none, 0⟩) := by
    rcases a with ⟨_ | b0, q⟩
    · exact ⟨_, Reset_none hi, rfl⟩
    · obtain ⟨blk0, h2, h3, _, _⟩ := hI.owner_block hi
      exact ⟨_, Reset_some hi h2 h3, rfl⟩
  have hIu : Inv u := by
    rcases Reset_good hI i with hd | ⟨u', hR', hG, _⟩
    · rw [hR] at hd; cases hd
    · rw [hR] at hR'; cases hR'; exact hG.inv
  have hui : u.shared[i]? = some (some ⟨none, 0⟩) := by
    rw [hus]; simp [hil]
  have huj : u.shared[j]? = some (some o) := by
    rw [hus, List.getElem?_set_ne hij]; exact hj
  rcases o with ⟨_ | b, p⟩
  · refine ⟨_, assign_none hR hui huj, ?_, ?_, fun b blk h => by cases h⟩
    · simp [lt_of_getElem? hui]
    · simp [List.getElem?_set_ne hij, huj]
  · obtain ⟨blku, h2, h3, hpos, hB⟩ := hIu.owner_block huj
    obtain ⟨blks, g2, _, gpos, gB⟩ := hI.owner_block hj
    refine ⟨_, assign_some hR hui huj h2 h3, ?_, ?_, ?_⟩
    · simp [lt_of_getElem? hui]
    · simp [List.getElem?_set_ne hij, huj]
    · intro b' blk h1 hb'
      cases h1
      rw [g2] at hb'
      cases hb'
      refine ⟨blku.StrongInc, by simp [lt_of_getElem? h2], ?_⟩
      have c1 := hB.calls
      have c2 := gB.calls
      rw [if_neg (by omega)] at c1 c2
      simp [c1, c2]

/-- C12: move-constructing `b` from a live Owning Handle `a` gives `b` the block pointer and
access pointer `a` had and leaves `a` empty (null block, null access pointer, `UseCount()`
0); the free store is unchanged (no counter changes, no value is released, no block is
deleted) and so are all other handles. -/
theorem C12_move_construct (s : State) (a : Nat) (o : SharedPtr)
    (ha : s.shared[a]? = some (some o)) :
    ∃ t, SharedPtr.ctor_move s a = .ok t ∧
      t.shared[s.shared.length]? = some (some ⟨o.block_, o.ptr_⟩) ∧
      t.shared[a]? = some (some ⟨none, 0⟩) ∧
      SharedPtr.UseCount t a = .ok 0 ∧
      t.heap = s.heap ∧ t.weak = s.weak ∧
      (∀ k, k ≠ a → k < s.shared.length → t.shared[k]? = s.shared[k]?) := by
  have hal := lt_of_getElem? ha
  have h1 : (s.shared.set a (some ⟨none, 0⟩) ++ [some o])[a]? = some (some ⟨none, 0⟩) := by
    rw [List.getElem?_append_left (by simpa using hal)]
    simp [hal]
  refine ⟨_, ctor_move_eq ha, ?_, h1, UseCount_none h1, rfl, rfl, ?_⟩
  · have : (s.shared.set a (some (⟨none, 0⟩ : SharedPtr))).length = s.shared.length := by simp
    show (s.shared.set a (some ⟨none, 0⟩) ++ [some o])[s.shared.length]? = _
    rw [← this, List.getElem?_concat_length]
  · intro k hk hkl
    show (s.shared.set a (some ⟨none, 0⟩) ++ [some o])[k]? = _
    rw [List.getElem?_append_left (by simpa using hkl), List.getElem?_set_ne (Ne.symm hk)]

/-- Witness for C12: moving from the owner of `exampleLive`. -/
theorem C12_move_construct_witness :
    ∃ t, SharedPtr.ctor_move exampleLive 0 = .ok t ∧
      t.shared[exampleLive.shared.length]? =
        some (some ⟨(⟨some 0, 7⟩ : SharedPtr).block_, (⟨some 0, 7⟩ : SharedPtr).ptr_⟩) ∧
      t.shared[0]? = some (some ⟨none, 0⟩) ∧
      SharedPtr.UseCount t 0 = .ok 0 ∧
      t.heap = exampleLive.heap ∧ t.weak = exampleLive.weak ∧
      (∀ k, k ≠ 0 → k < exampleLive.shared.length →
        t.shared[k]? = exampleLive.shared[k]?) :=
  C12_move_construct exampleLive 0 ⟨some 0, 7⟩ rfl

/-- C13: aliasing construction `M = SharedPtr(owner, p)` from a live owner with a non-null
block that has not been deleted: `M` has the owner's block pointer, the block's strong count
(and so the owner's `UseCount()`) is one higher and its weak count is unchanged, `M.Get()`
is `p`, the owner keeps its access pointer, and `M == owner` holds exactly if `p` is the
owner's access pointer. -/
theorem C13_aliasing (s : State) (owner b : Nat) (q p : Ptr) (blk : BaseBlock)
    (ho : s.shared[owner]? = some (some ⟨some b, q⟩)) (hb : s.heap[b]? = some blk)
    (hd : blk.deletes = 0) :
    ∃ t, SharedPtr.ctor_alias s owner p = .ok t ∧
      SharedPtr.GetBlock t s.shared.length = .ok (some b) ∧
      SharedPtr.GetBlock t owner = .ok (some b) ∧
      (∃ blk', t.heap[b]? = some blk' ∧ blk'.strong_count_ = blk.strong_count_ + 1 ∧
        blk'.weak_count_ = blk.weak_count_) ∧
      SharedPtr.UseCount s owner = .ok (toSizeT blk.strong_count_) ∧
      SharedPtr.UseCount t owner = .ok (toSizeT (blk.strong_count_ + 1)) ∧
      SharedPtr.Get t s.shared.length = .ok p ∧
      SharedPtr.GetPtr t owner = .ok q ∧
      SharedPtr.eq t s.shared.length owner = .ok (decide (p = q)) := by
  have hol := lt_of_getElem? ho
  have hbl := lt_of_getElem? hb
  have h1 : (s.shared ++ [some (⟨some b, p⟩ : SharedPtr)])[owner]? = some (some ⟨some b, q⟩) := by
    rw [List.getElem?_append_left hol]; exact ho
  refine ⟨_, ctor_alias_some ho hb hd, ?_, ?_, ⟨blk.StrongInc, ?_, rfl, rfl⟩,
    UseCount_some ho hb hd, ?_, ?_, ?_, ?_⟩
  · simp [SharedPtr.GetBlock, State.getShared, bind, Except.bind, pure, Except.pure]
  · simp [SharedPtr.GetBlock, State.getShared, h1, bind, Except.bind, pure, Except.pure]
  · simp [hbl]
  · have h2 : (State.mk (s.heap.set b blk.StrongInc) (s.shared ++ [some ⟨some b, p⟩])
        s.weak).heap[b]? = some blk.StrongInc := by simp [hbl]
    exact UseCount_some h1 h2 hd
  · by_cases hp : p = 0 <;>
    simp [SharedPtr.Get, State.getShared, bind, Except.bind, pure, Except.pure, hp]
  · simp [SharedPtr.GetPtr, State.getShared, h1, bind, Except.bind, pure, Except.pure]
  · by_cases hpq : p = q
    · subst hpq
      simp [SharedPtr.eq, SharedPtr.GetBlock, SharedPtr.GetPtr, State.getShared, h1, bind,
        Except.bind, pure, Except.pure]
    · simp [SharedPtr.eq, SharedPtr.GetBlock, SharedPtr.GetPtr, State.getShared, h1, bind,
        Except.bind, pure, Except.pure, hpq]

/-- Witness for C13: an alias of the owner of `exampleLive` at address 9. -/
theorem C13_aliasing_witness :
    ∃ t, SharedPtr.ctor_alias exampleLive 0 9 = .ok t ∧
      SharedPtr.GetBlock t exampleLive.shared.length = .ok (some 0) ∧
      SharedPtr.GetBlock t 0 = .ok (some 0) ∧
      (∃ blk', t.heap[0]? = some blk' ∧
        blk'.strong_count_ = (⟨1, 1, .ptrBlock 7, 0, 0⟩ : BaseBlock).strong_count_ + 1 ∧
        blk'.weak_count_ = (⟨1, 1, .ptrBlock 7, 0, 0⟩ : BaseBlock).weak_count_) ∧
      SharedPtr.UseCount exampleLive 0 =
        .ok (toSizeT (⟨1, 1, .ptrBlock 7, 0, 0⟩ : BaseBlock).strong_count_) ∧
      SharedPtr.UseCount t 0 =
        .ok (toSizeT ((⟨1, 1, .ptrBlock 7, 0, 0⟩ : BaseBlock).strong_count_ + 1)) ∧
      SharedPtr.Get t exampleLive.shared.length = .ok 9 ∧
      SharedPtr.GetPtr t 0 = .ok 7 ∧
      SharedPtr.eq t exampleLive.shared.length 0 = .ok (decide ((9 : Ptr) = 7)) :=
  C13_aliasing exampleLive 0 0 7 9 ⟨1, 1, .ptrBlock 7, 0, 0⟩ rfl rfl rfl

/-- C14 (scenario C): `A = MakeShared` with the value at `addr`, `M = SharedPtr(A, field)`.
Destroying `A` takes the strong count from 2 to 1, releases nothing and deletes nothing;
`M.Get()` is still `field` and `M.UseCount()` is 1; destroying `M` releases the value (one
`ZeroStrongCount` call) and deletes the block.  A block is written
`⟨weak_count_, strong_count_, payload, zeroStrongCalls, deletes⟩`. -/
theorem C14_scenario_C (addr field : Ptr) :
    run State.init [.makeShared addr, .sharedAlias 0 field] =
        .ok { heap := [⟨0, 2, .valueBlock addr, 0, 0⟩],
              shared := [some ⟨some 0, addr⟩, some ⟨some 0, field⟩], weak := [] } ∧
    run State.init [.makeShared addr, .sharedAlias 0 field, .sharedDtor 0] =
        .ok { heap := [⟨0, 1, .valueBlock addr, 0, 0⟩],
              shared := [none, some ⟨some 0, field⟩], weak := [] } ∧
      SharedPtr.Get
        { heap := [⟨0, 1, .valueBlock addr, 0, 0⟩],
          shared := [none, some ⟨some 0, field⟩], weak := [] } 1 = .ok field ∧
      SharedPtr.UseCount
        { heap := [⟨0, 1, .valueBlock addr, 0, 0⟩],
          shared := [none, some ⟨some 0, field⟩], weak := [] } 1 = .ok 1 ∧
    run State.init [.makeShared addr, .sharedAlias 0 field, .sharedDtor 0, .sharedDtor 1] =
        .ok { heap := [⟨0, 0, .valueBlock addr, 1, 1⟩],
              shared := [none, none], weak := [] } := by
  refine ⟨rfl, rfl, ?_, rfl, rfl⟩
  by_cases hf : field = 0 <;>
  simp [SharedPtr.Get, State.getShared, bind, Except.bind, pure, Except.pure, hf]

/-- C15: `operator==` on two live Owning Handles is true exactly if the block pointers are
equal and the access pointers are equal; so two handles with one block and different access
pointers are unequal, and two empty handles (null block, null access pointer) are equal. -/
theorem C15_equality (s : State) (i j : Nat) (a c : SharedPtr)
    (hi : s.shared[i]? = some (some a)) (hj : s.shared[j]? = some (some c)) :
    SharedPtr.eq s i j = .ok (decide (a.block_ = c.block_ ∧ a.ptr_ = c.ptr_)) ∧
    (a.block_ = c.block_ → a.ptr_ ≠ c.ptr_ → SharedPtr.eq s i j = .ok false) ∧
    (a = ⟨none, 0⟩ → c = ⟨none, 0⟩ → SharedPtr.eq s i j = .ok true) := by
  have h : SharedPtr.eq s i j = .ok (decide (a.block_ = c.block_ ∧ a.ptr_ = c.ptr_)) := by
    by_cases hc : a.block_ = c.block_ ∧ a.ptr_ = c.ptr_
    · simp [SharedPtr.eq, SharedPtr.GetBlock, SharedPtr.GetPtr, State.getShared, hi, hj, bind,
        Except.bind, pure, Except.pure, hc]
    · have hc' : ¬ (a.block_ = c.block_ ∧ a.ptr_ = c.ptr_) := hc
      simp only [not_and] at hc
      simp [SharedPtr.eq, SharedPtr.GetBlock, SharedPtr.GetPtr, State.getShared, hi, hj, bind,
        Except.bind, pure, Except.pure, hc, hc']
  refine ⟨h, fun h1 h2 => ?_, fun h1 h2 => ?_⟩
  · rw [h]; simp [h1, h2]
  · rw [h, h1, h2]; simp

/-- Witness for C15: the owner of `exampleLive` compared with itself. -/
theorem C15_equality_witness :
    SharedPtr.eq exampleLive 0 0 =
        .ok (decide ((⟨some 0, 7⟩ : SharedPtr).block_ = (⟨some 0, 7⟩ : SharedPtr).block_ ∧
          (⟨some 0, 7⟩ : SharedPtr).ptr_ = (⟨some 0, 7⟩ : SharedPtr).ptr_)) :=
  (C15_equality exampleLive 0 0 ⟨some 0, 7⟩ ⟨some 0, 7⟩ rfl rfl).1

theorem strongRelease_strong (blk : BaseBlock) :
    blk.strongRelease.strong_count_ = blk.strong_count_ - 1 := by
  unfold BaseBlock.strongRelease
  split_ifs <;> simp

theorem strongRelease_weak (blk : BaseBlock) :
    blk.strongRelease.weak_count_ = blk.weak_count_ := by
  unfold BaseBlock.strongRelease
  split_ifs <;> simp

theorem strongRelease_calls (blk : BaseBlock) :
    blk.strongRelease.zeroStrongCalls =
      blk.zeroStrongCalls + (if blk.strong_count_ - 1 = 0 then 1 else 0) := by
  unfold BaseBlock.strongRelease
  simp only [BaseBlock.GetStrongCount, BaseBlock.GetWeakCount, StrongDec_strong]
  split_ifs <;> simp

theorem strongRelease_deletes (blk : BaseBlock) :
    blk.strongRelease.deletes =
      blk.deletes + (if blk.strong_count_ - 1 = 0 ∧ blk.weak_count_ = 0 then 1 else 0) := by
  unfold BaseBlock.strongRelease
  simp only [BaseBlock.GetStrongCount, BaseBlock.GetWeakCount, StrongDec_strong,
    ZeroStrongCount_weak, StrongDec_weak]
  split_ifs with h1 h2 h3 h4 h5 <;> simp_all

/-- C16: `Reset()` on a handle with a non-null block (not deleted) lowers the block's strong
count by exactly 1, keeps its weak count and leaves the handle empty; `ZeroStrongCount` runs
(once) exactly if the strong count became 0, the block is deleted exactly if the strong count
became 0 and the weak count is 0; every other handle and every other block is unchanged.
`Reset()` on an empty handle changes nothing. -/
theorem C16_reset (s : State) (i b : Nat) (q : Ptr) (blk : BaseBlock)
    (hi : s.shared[i]? = some (some ⟨some b, q⟩)) (hb : s.heap[b]? = some blk)
    (hd : blk.deletes = 0) :
    (∃ t blk', SharedPtr.Reset s i = .ok t ∧ t.heap[b]? = some blk' ∧
      blk'.strong_count_ = blk.strong_count_ - 1 ∧ blk'.weak_count_ = blk.weak_count_ ∧
      t.shared[i]? = some (some ⟨none, 0⟩) ∧
      blk'.zeroStrongCalls = blk.zeroStrongCalls + (if blk'.strong_count_ = 0 then 1 else 0) ∧
      blk'.deletes =
        blk.deletes + (if blk'.strong_count_ = 0 ∧ blk'.weak_count_ = 0 then 1 else 0) ∧
      (∀ k, k ≠ i → t.shared[k]? = s.shared[k]?) ∧ t.weak = s.weak ∧
      (∀ c, c ≠ b → t.heap[c]? = s.heap[c]?)) ∧
    (∀ (s0 : State) (k : Nat), s0.shared[k]? = some (some ⟨none, 0⟩) →
      SharedPtr.Reset s0 k = .ok s0) := by
  have hbl := lt_of_getElem? hb
  have hil := lt_of_getElem? hi
  constructor
  · refine ⟨_, blk.strongRelease, Reset_some hi hb hd, by simp [hbl], strongRelease_strong blk,
      strongRelease_weak blk, by simp [hil], ?_, ?_, ?_, rfl, ?_⟩
    · rw [strongRelease_calls, strongRelease_strong]
    · rw [strongRelease_deletes, strongRelease_strong, strongRelease_weak]
    · intro k hk
      simp [List.getElem?_set_ne (Ne.symm hk)]
    · intro c hc
      simp [List.getElem?_set_ne (Ne.symm hc)]
  · intro s0 k hk
    rw [Reset_none hk, set_same_of_getElem? hk]

/-- Witness for C16: resetting the owner of `exampleLive`. -/
theorem C16_reset_witness :
    ∃ t blk', SharedPtr.Reset exampleLive 0 = .ok t ∧ t.heap[0]? = some blk' ∧
      blk'.strong_count_ = (⟨1, 1, .ptrBlock 7, 0, 0⟩ : BaseBlock).strong_count_ - 1 ∧
      blk'.weak_count_ = (⟨1, 1, .ptrBlock 7, 0, 0⟩ : BaseBlock).weak_count_ ∧
      t.shared[0]? = some (some ⟨none, 0⟩) ∧
      blk'.zeroStrongCalls = (⟨1, 1, .ptrBlock 7, 0, 0⟩ : BaseBlock).zeroStrongCalls +
        (if blk'.strong_count_ = 0 then 1 else 0) ∧
      blk'.deletes = (⟨1, 1, .ptrBlock 7, 0, 0⟩ : BaseBlock).deletes +
        (if blk'.strong_count_ = 0 ∧ blk'.weak_count_ = 0 then 1 else 0) ∧
      (∀ k, k ≠ 0 → t.shared[k]? = exampleLive.shared[k]?) ∧ t.weak = exampleLive.weak ∧
      (∀ c, c ≠ 0 → t.heap[c]? = exampleLive.heap[c]?) :=
  (C16_reset exampleLive 0 0 7 ⟨1, 1, .ptrBlock 7, 0, 0⟩ rfl rfl rfl).1

/-- C17: `Reset(p)` first does what `Reset()` does (`t` is the state `Reset()` returns).  For
a non-null `p` it then allocates one new `PtrBlock` with strong count 1 and weak count 0 at
an address different from the old block and makes the handle refer to it, so that `Get()` is
`p` and `UseCount()` is 1 whatever the old block's counts were; for a null `p` the result is
exactly `t`: the handle is empty and no block was allocated. -/
theorem C17_reset_ptr (s : State) (i : Nat) (me : SharedPtr) (p : Ptr)
    (hi : s.shared[i]? = some (some me))
    (hv : ∀ b, me.block_ = some b → ∃ blk, s.heap[b]? = some blk ∧ blk.deletes = 0) :
    ∃ t, SharedPtr.Reset s i = .ok t ∧ t.shared[i]? = some (some ⟨none, 0⟩) ∧
      (p ≠ 0 → ∃ u, SharedPtr.Reset_ptr s i p = .ok u ∧
        u.heap = t.heap ++ [⟨0, 1, .ptrBlock p, 0, 0⟩] ∧
        u.shared = t.shared.set i (some ⟨some t.heap.length, p⟩) ∧ u.weak = t.weak ∧
        me.block_ ≠ some t.heap.length ∧
        SharedPtr.GetBlock u i = .ok (some t.heap.length) ∧
        SharedPtr.Get u i = .ok p ∧ SharedPtr.UseCount u i = .ok 1) ∧
      (p = 0 → SharedPtr.Reset_ptr s i p = .ok t) := by
  have hil := lt_of_getElem? hi
  obtain ⟨t, hR, hts, hth⟩ : ∃ t, SharedPtr.Reset s i = .ok t ∧
      t.shared = s.shared.set i (some ⟨none, 0⟩) ∧ t.heap.length = s.heap.length := by
    rcases me with ⟨_ | b0, q⟩
    · exact ⟨_, Reset_none hi, rfl, rfl⟩
    · obtain ⟨blk0, h2, h3⟩ := hv b0 rfl
      exact ⟨_, Reset_some hi h2 h3, rfl, by simp⟩
  have hti : t.shared[i]? = some (some ⟨none, 0⟩) := by
    rw [hts]; simp [hil]
  have htl := lt_of_getElem? hti
  refine ⟨t, hR, hti, fun hp => ?_, fun hp => ?_⟩
  · have hne : me.block_ ≠ some t.heap.length := by
      intro h
      obtain ⟨blk, h2, _⟩ := hv _ h
      have := lt_of_getElem? h2
      omega
    have hnew : (t.shared.set i (some (⟨some t.heap.length, p⟩ : SharedPtr)))[i]? =
        some (some ⟨some t.heap.length, p⟩) := by simp [htl]
    refine ⟨_, Reset_ptr_some hp hR hti, rfl, rfl, rfl, hne, ?_, ?_, ?_⟩
    · simp [SharedPtr.GetBlock, State.getShared, hnew, bind, Except.bind, pure, Except.pure]
    · simp [SharedPtr.Get, State.getShared, hnew, bind, Except.bind, pure, Except.pure, hp]
    · simp [SharedPtr.UseCount, State.getShared, hnew, bind, Except.bind, pure, Except.pure,
        State.deref, PtrBlock.ctor, BaseBlock.StrongInc, BaseBlock.GetStrongCount, toSizeT]
  · subst hp
    rw [Reset_ptr_null hR hti, set_same_of_getElem? hti]

/-- Witness for C17: `Reset(9)` on the owner of `exampleLive`. -/
theorem C17_reset_ptr_witness :
    ∃ t, SharedPtr.Reset exampleLive 0 = .ok t ∧ t.shared[0]? = some (some ⟨none, 0⟩) ∧
      ((9 : Ptr) ≠ 0 → ∃ u, SharedPtr.Reset_ptr exampleLive 0 9 = .ok u ∧
        u.heap = t.heap ++ [⟨0, 1, .ptrBlock 9, 0, 0⟩] ∧
        u.shared = t.shared.set 0 (some ⟨some t.heap.length, 9⟩) ∧ u.weak = t.weak ∧
        (⟨some 0, 7⟩ : SharedPtr).block_ ≠ some t.heap.length ∧
        SharedPtr.GetBlock u 0 = .ok (some t.heap.length) ∧
        SharedPtr.Get u 0 = .ok 9 ∧ SharedPtr.UseCount u 0 = .ok 1) ∧
      ((9 : Ptr) = 0 → SharedPtr.Reset_ptr exampleLive 0 9 = .ok t) :=
  C17_reset_ptr exampleLive 0 ⟨some 0, 7⟩ 9 rfl
    (fun b hb => ⟨⟨1, 1, .ptrBlock 7, 0, 0⟩, by cases hb; rfl, rfl⟩)

/-- Two computations that end by retiring handle `i`, one as destroyed and one as empty. -/
theorem end_vs_set (r : Except Fault State) (i : Nat) :
    (∀ e, (r >>= fun s => pure (s.endShared i)) = .error e ↔
      (r >>= fun s => pure (s.setShared i ⟨none, 0⟩)) = .error e) ∧
    (∀ t, (r >>= fun s => pure (s.endShared i)) = .ok t →
      ∃ u, (r >>= fun s => pure (s.setShared i ⟨none, 0⟩)) = .ok u ∧ u.heap = t.heap ∧
        u.weak = t.weak ∧ u.shared = t.shared.set i (some ⟨none, 0⟩)) ∧
    (∀ u, (r >>= fun s => pure (s.setShared i ⟨none, 0⟩)) = .ok u →
      ∃ t, (r >>= fun s => pure (s.endShared i)) = .ok t ∧ t.heap = u.heap ∧
        t.weak = u.weak ∧ t.shared = u.shared.set i none) := by
  cases r with
  | error e0 =>
    simp [bind, Except.bind]
  | ok v =>
    simp only [bind, Except.bind, pure, Except.pure]
    refine ⟨fun e => by simp, ?_, ?_⟩
    · intro t ht
      cases ht
      exact ⟨_, rfl, rfl, rfl, by simp [State.endShared, State.setShared, List.set_set]⟩
    · intro u hu
      cases hu
      exact ⟨_, rfl, rfl, rfl, by simp [State.endShared, State.setShared, List.set_set]⟩

/-- C18: `~SharedPtr()` and `Reset()` do the same to the free store.  In every state and for
every handle, one faults exactly if the other does (with the same fault), and when they
return, the free store (every block's strong count, weak count, release and deletion) and the
Observer Handles are the same; the two results differ only in the entry of the handle, which
is destroyed in one and empty in the other.  The same holds for the two functions of the
self-reference-aware header, whatever the destructor of the value does. -/
theorem C18_destructor_same_as_reset (s : State) (i : Nat) :
    ((∀ e, SharedPtr.dtor s i = .error e ↔ SharedPtr.Reset s i = .error e) ∧
      (∀ t, SharedPtr.dtor s i = .ok t →
        ∃ u, SharedPtr.Reset s i = .ok u ∧ u.heap = t.heap ∧ u.weak = t.weak ∧
          u.shared = t.shared.set i (some ⟨none, 0⟩)) ∧
      (∀ u, SharedPtr.Reset s i = .ok u →
        ∃ t, SharedPtr.dtor s i = .ok t ∧ t.heap = u.heap ∧ t.weak = u.weak ∧
          t.shared = u.shared.set i none)) ∧
    (∀ (cap : Bool) (zeroStrong : State → BlockPtr → Except Fault State),
      (∀ e, SharedFromThis.dtor cap zeroStrong s i = .error e ↔
        SharedFromThis.Reset cap zeroStrong s i = .error e) ∧
      (∀ t, SharedFromThis.dtor cap zeroStrong s i = .ok t →
        ∃ u, SharedFromThis.Reset cap zeroStrong s i = .ok u ∧ u.heap = t.heap ∧
          u.weak = t.weak ∧ u.shared = t.shared.set i (some ⟨none, 0⟩)) ∧
      (∀ u, SharedFromThis.Reset cap zeroStrong s i = .ok u →
        ∃ t, SharedFromThis.dtor cap zeroStrong s i = .ok t ∧ t.heap = u.heap ∧
          t.weak = u.weak ∧ t.shared = u.shared.set i none)) := by
  constructor
  · unfold SharedPtr.dtor SharedPtr.Reset
    cases hg : s.getShared i with
    | error e0 => simp [bind, Except.bind]
    | ok me => exact end_vs_set _ i
  · intro cap zeroStrong
    unfold SharedFromThis.dtor SharedFromThis.Reset
    cases hg : s.getShared i with
    | error e0 => simp [bind, Except.bind]
    | ok me => exact end_vs_set _ i

/-- With no capability and the `ZeroStrongCount` of the dual-count header, the destructor of
the self-reference-aware header is the destructor of the dual-count header. -/
theorem sft_dtor_plain (s : State) (i : Nat) :
    SharedFromThis.dtor false (fun s p => s.call p BaseBlock.ZeroStrongCount) s i =
      SharedPtr.dtor s i := by
  unfold SharedFromThis.dtor SharedPtr.dtor
  simp [bind, Except.bind, pure, Except.pure]

theorem weakRelease_strong (blk : BaseBlock) :
    blk.weakRelease.strong_count_ = blk.strong_count_ := by
  unfold BaseBlock.weakRelease
  split_ifs <;> simp

theorem weakRelease_weak (blk : BaseBlock) :
    blk.weakRelease.weak_count_ = blk.weak_count_ - 1 := by
  unfold BaseBlock.weakRelease
  split_ifs <;> simp

theorem weakRelease_calls (blk : BaseBlock) :
    blk.weakRelease.zeroStrongCalls = blk.zeroStrongCalls := by
  unfold BaseBlock.weakRelease
  split_ifs <;> simp

theorem weakRelease_payload (blk : BaseBlock) :
    blk.weakRelease.payload = blk.payload := by
  unfold BaseBlock.weakRelease
  split_ifs <;> rfl

theorem weakRelease_deletes (blk : BaseBlock) :
    blk.weakRelease.deletes =
      blk.deletes + (if blk.strong_count_ = 0 ∧ blk.weak_count_ - 1 = 0 then 1 else 0) := by
  unfold BaseBlock.weakRelease
  simp only [BaseBlock.GetStrongCount, BaseBlock.GetWeakCount, WeakDec_strong, WeakDec_weak]
  split_ifs <;> simp

/-- C19: `Reset()` and `~WeakPtr()` on an Observer Handle with a non-null block (not
deleted) lower the block's weak count by exactly 1, keep its strong count, run no
`ZeroStrongCount` and leave the value's pointer as it is; the block is deleted exactly if
afterwards both counts are 0; all other blocks and all Owning Handles are unchanged.  After
`Reset()` the observer is empty and `Expired()` is true; `Reset()` on an empty observer
changes nothing. -/
theorem C19_observer_reset_and_destroy (s : State) (i b : Nat) (q : Ptr) (blk : BaseBlock)
    (hi : s.weak[i]? = some (some ⟨some b, q⟩)) (hb : s.heap[b]? = some blk)
    (hd : blk.deletes = 0) :
    (∃ t u blk', WeakPtr.Reset s i = .ok t ∧ WeakPtr.dtor s i = .ok u ∧
      u.heap = t.heap ∧ t.heap[b]? = some blk' ∧
      blk'.weak_count_ = blk.weak_count_ - 1 ∧ blk'.strong_count_ = blk.strong_count_ ∧
      blk'.zeroStrongCalls = blk.zeroStrongCalls ∧ blk'.payload = blk.payload ∧
      blk'.deletes =
        blk.deletes + (if blk'.strong_count_ = 0 ∧ blk'.weak_count_ = 0 then 1 else 0) ∧
      (∀ c, c ≠ b → t.heap[c]? = s.heap[c]?) ∧
      t.shared = s.shared ∧ u.shared = s.shared ∧
      t.weak = s.weak.set i (some ⟨none, 0⟩) ∧ u.weak = s.weak.set i none ∧
      t.weak[i]? = some (some ⟨none, 0⟩) ∧ WeakPtr.Expired t i = .ok true) ∧
    (∀ (s0 : State) (k : Nat), s0.weak[k]? = some (some ⟨none, 0⟩) →
      WeakPtr.Reset s0 k = .ok s0) := by
  have hbl := lt_of_getElem? hb
  have hil := lt_of_getElem? hi
  constructor
  · have hti : (s.weak.set i (some (⟨none, 0⟩ : WeakPtr)))[i]? = some (some ⟨none, 0⟩) := by
      simp [hil]
    refine ⟨_, _, blk.weakRelease, weak_Reset_some hi hb hd, weak_dtor_some hi hb hd, rfl,
      by simp [hbl], weakRelease_weak blk, weakRelease_strong blk, weakRelease_calls blk,
      weakRelease_payload blk, ?_, ?_, rfl, rfl, rfl, rfl, hti, ?_⟩
    · rw [weakRelease_deletes, weakRelease_strong, weakRelease_weak]
    · intro c hc
      simp [List.getElem?_set_ne (Ne.symm hc)]
    · simp [WeakPtr.Expired, State.getWeak, hti, bind, Except.bind, pure, Except.pure]
  · intro s0 k hk
    rw [weak_Reset_none hk, set_same_of_getElem? hk]

/-- Witness for C19: resetting and destroying the observer of `exampleExpired`. -/
theorem C19_observer_reset_and_destroy_witness :
    ∃ t u blk', WeakPtr.Reset exampleExpired 0 = .ok t ∧
      WeakPtr.dtor exampleExpired 0 = .ok u ∧
      u.heap = t.heap ∧ t.heap[0]? = some blk' ∧
      blk'.weak_count_ = (⟨1, 0, .ptrBlock 0, 1, 0⟩ : BaseBlock).weak_count_ - 1 ∧
      blk'.strong_count_ = (⟨1, 0, .ptrBlock 0, 1, 0⟩ : BaseBlock).strong_count_ ∧
      blk'.zeroStrongCalls = (⟨1, 0, .ptrBlock 0, 1, 0⟩ : BaseBlock).zeroStrongCalls ∧
      blk'.payload = (⟨1, 0, .ptrBlock 0, 1, 0⟩ : BaseBlock).payload ∧
      blk'.deletes = (⟨1, 0, .ptrBlock 0, 1, 0⟩ : BaseBlock).deletes +
        (if blk'.strong_count_ = 0 ∧ blk'.weak_count_ = 0 then 1 else 0) ∧
      (∀ c, c ≠ 0 → t.heap[c]? = exampleExpired.heap[c]?) ∧
      t.shared = exampleExpired.shared ∧ u.shared = exampleExpired.shared ∧
      t.weak = exampleExpired.weak.set 0 (some ⟨none, 0⟩) ∧
      u.weak = exampleExpired.weak.set 0 none ∧
      t.weak[0]? = some (some ⟨none, 0⟩) ∧ WeakPtr.Expired t 0 = .ok true :=
  (C19_observer_reset_and_destroy exampleExpired 0 0 7 ⟨1, 0, .ptrBlock 0, 1, 0⟩
    rfl rfl rfl).1

/-- C20: `MakeShared` allocates exactly one block, a `ValueBlock`, with strong count 1 and
weak count 0, and returns a handle to it whose `UseCount()` is 1 and whose `Get()` is the
address of the block's embedded storage.  Scenario B: after a copy both handles report 2;
destroying one leaves 1 on the survivor and the value not released; destroying the survivor
releases the value once and deletes the block.  A block is written
`⟨weak_count_, strong_count_, payload, zeroStrongCalls, deletes⟩`. -/
theorem C20_make_shared (s : State) (addr : Ptr) :
    (∃ t, MakeShared s addr = .ok t ∧
      t.heap = s.heap ++ [⟨0, 1, .valueBlock addr, 0, 0⟩] ∧
      t.shared = s.shared ++ [some ⟨some s.heap.length, addr⟩] ∧ t.weak = s.weak ∧
      SharedPtr.UseCount t s.shared.length = .ok 1 ∧
      SharedPtr.Get t s.shared.length = .ok addr ∧
      BaseBlock.Get ⟨0, 1, .valueBlock addr, 0, 0⟩ = addr) ∧
    run State.init [.makeShared addr, .sharedCopy 0] =
        .ok { heap := [⟨0, 2, .valueBlock addr, 0, 0⟩],
              shared := [some ⟨some 0, addr⟩, some ⟨some 0, addr⟩], weak := [] } ∧
      SharedPtr.UseCount
        { heap := [⟨0, 2, .valueBlock addr, 0, 0⟩],
          shared := [some ⟨some 0, addr⟩, some ⟨some 0, addr⟩], weak := [] } 0 = .ok 2 ∧
      SharedPtr.UseCount
        { heap := [⟨0, 2, .valueBlock addr, 0, 0⟩],
          shared := [some ⟨some 0, addr⟩, some ⟨some 0, addr⟩], weak := [] } 1 = .ok 2 ∧
    run State.init [.makeShared addr, .sharedCopy 0, .sharedDtor 0] =
        .ok { heap := [⟨0, 1, .valueBlock addr, 0, 0⟩],
              shared := [none, some ⟨some 0, addr⟩], weak := [] } ∧
      SharedPtr.UseCount
        { heap := [⟨0, 1, .valueBlock addr, 0, 0⟩],
          shared := [none, some ⟨some 0, addr⟩], weak := [] } 1 = .ok 1 ∧
    run State.init [.makeShared addr, .sharedCopy 0, .sharedDtor 0, .sharedDtor 1] =
        .ok { heap := [⟨0, 0, .valueBlock addr, 1, 1⟩], shared := [none, none],
              weak := [] } := by
  refine ⟨⟨_, MakeShared_eq s addr, rfl, rfl, rfl, ?_, ?_, rfl⟩, rfl, rfl, rfl, rfl, rfl, rfl⟩
  · simp [SharedPtr.UseCount, State.getShared, bind, Except.bind, pure, Except.pure,
      State.deref, ValueBlock.ctor, BaseBlock.StrongInc, BaseBlock.GetStrongCount, toSizeT]
  · by_cases ha : addr = 0 <;>
    simp [SharedPtr.Get, State.getShared, bind, Except.bind, pure, Except.pure, ha]

end Weak

namespace Shared

open Weak (Ptr BlockPtr Fault Payload)

/-- Destroying the last handle of a `ValueBlock` runs `ZeroCount` three times, and each run
is one more `~T()` on the value in the buffer. -/
theorem dtor_last_valueBlock {s : State} {i b : Nat} {p a : Ptr} {blk : BaseBlock}
    (hi : s.shared[i]? = some (some ⟨some b, p⟩)) (hb : s.heap[b]? = some blk)
    (hd : blk.deletes = 0) (hc : blk.count_ = 1) (hp : blk.payload = .valueBlock a) :
    SharedPtr.dtor s i = .ok
      { heap := s.heap.set b { blk with count_ := 0, zeroCountCalls := blk.zeroCountCalls + 3,
                                        teardowns := blk.teardowns + 3, deletes := 1 },
        shared := s.shared.set i none } := by
  have hlt : b < s.heap.length := by
    rcases Nat.lt_or_ge b s.heap.length with h | h
    · exact h
    · rw [List.getElem?_eq_none h] at hb; cases hb
  rcases blk with ⟨c, pl, z, t, d⟩
  simp only at hd hc hp
  subst hd hc hp
  simp [SharedPtr.dtor, State.getShared, hi, State.call, hb, State.deref, State.delete,
    State.endShared, BaseBlock.Dec, BaseBlock.ZeroCount, BaseBlock.GetCount, BaseBlock.dtor,
    bind, Except.bind, pure, Except.pure, hlt]

/-- Destroying the last handle of a `PtrBlock` also runs `ZeroCount` three times, but only the
first run finds `ptr_` non-null. -/
theorem dtor_last_ptrBlock {s : State} {i b : Nat} {p q : Ptr} {blk : BaseBlock}
    (hi : s.shared[i]? = some (some ⟨some b, p⟩)) (hb : s.heap[b]? = some blk)
    (hd : blk.deletes = 0) (hc : blk.count_ = 1) (hp : blk.payload = .ptrBlock q)
    (hq : q ≠ 0) :
    SharedPtr.dtor s i = .ok
      { heap := s.heap.set b { blk with count_ := 0, payload := .ptrBlock 0,
                                        zeroCountCalls := blk.zeroCountCalls + 3,
                                        teardowns := blk.teardowns + 1, deletes := 1 },
        shared := s.shared.set i none } := by
  have hlt : b < s.heap.length := by
    rcases Nat.lt_or_ge b s.heap.length with h | h
    · exact h
    · rw [List.getElem?_eq_none h] at hb; cases hb
  rcases blk with ⟨c, pl, z, t, d⟩
  simp only at hd hc hp
  subst hd hc hp
  simp [SharedPtr.dtor, State.getShared, hi, State.call, hb, State.deref, State.delete,
    State.endShared, BaseBlock.Dec, BaseBlock.ZeroCount, BaseBlock.GetCount, BaseBlock.dtor,
    bind, Except.bind, pure, Except.pure, hlt, hq]

/-- C25 at the failing input: a value created by `MakeShared` whose only handle is destroyed
or reset.  `Dec` calls `ZeroCount` when the counter reaches 0, `~SharedPtr` (and `Reset`)
call it again, and `delete block_` runs `~ValueBlock`, which calls it a third time: the
in-place `~T()` runs three times.  With a second handle alive nothing is torn down.  For a
value wrapped from a raw pointer the three calls are made as well, and `delete ptr_` meets a
non-null `ptr_` only in the first.  A block is written
`⟨count_, payload, zeroCountCalls, teardowns, deletes⟩`. -/
theorem C25_value_block_torn_down_three_times :
    MakeShared State.init 5 =
        .ok { heap := [⟨1, .valueBlock 5, 0, 0, 0⟩], shared := [some ⟨some 0, 5⟩] } ∧
    SharedPtr.dtor { heap := [⟨1, .valueBlock 5, 0, 0, 0⟩], shared := [some ⟨some 0, 5⟩] } 0 =
        .ok { heap := [⟨0, .valueBlock 5, 3, 3, 1⟩], shared := [none] } ∧
    SharedPtr.Reset { heap := [⟨1, .valueBlock 5, 0, 0, 0⟩], shared := [some ⟨some 0, 5⟩] } 0 =
        .ok { heap := [⟨0, .valueBlock 5, 3, 3, 1⟩], shared := [some ⟨none, 0⟩] } ∧
    (SharedPtr.ctor_copy
          { heap := [⟨1, .valueBlock 5, 0, 0, 0⟩], shared := [some ⟨some 0, 5⟩] } 0 >>=
        fun s => SharedPtr.dtor s 0) =
        .ok { heap := [⟨1, .valueBlock 5, 0, 0, 0⟩], shared := [none, some ⟨some 0, 5⟩] } ∧
    SharedPtr.ctor_ptr State.init 7 =
        .ok { heap := [⟨1, .ptrBlock 7, 0, 0, 0⟩], shared := [some ⟨some 0, 7⟩] } ∧
    SharedPtr.dtor { heap := [⟨1, .ptrBlock 7, 0, 0, 0⟩], shared := [some ⟨some 0, 7⟩] } 0 =
        .ok { heap := [⟨0, .ptrBlock 0, 3, 1, 1⟩], shared := [none] } :=
  ⟨rfl, rfl, rfl, rfl, rfl, rfl⟩

end Shared

namespace Unique

open Weak (Ptr Fault)

/-- C26: `Release()` on a live handle that stores `p` returns `p`; afterwards `Get()` is
`nullptr`, the boolean test is false, and the deleter has not been called.  Destroying the
handle after that, resetting it to any pointer, or assigning `nullptr` to it calls the
deleter once, with `nullptr`; so when `p` is a value (non-null) the deleter has been called
with `p` no more often than before the release.  Wrapping such a `p` in the dual-count
`SharedPtr(T*)` and destroying that handle runs `ZeroStrongCount` (the `delete ptr_` of the
`PtrBlock`) once and frees the block once. -/
theorem C26_release_hands_over (s : State) (i : Nat) (p : Ptr)
    (h : s.handles[i]? = some (some p)) :
    UniquePtr.Release s i = .ok (p, s.setFirst i 0) ∧
    UniquePtr.Get (s.setFirst i 0) i = .ok 0 ∧
    UniquePtr.toBool (s.setFirst i 0) i = .ok false ∧
    (s.setFirst i 0).deleterCalls = s.deleterCalls ∧
    UniquePtr.dtor (s.setFirst i 0) i =
      .ok { handles := s.handles.set i none, deleterCalls := s.deleterCalls ++ [0] } ∧
    (∀ q, UniquePtr.Reset (s.setFirst i 0) i q =
      .ok { handles := s.handles.set i (some q), deleterCalls := s.deleterCalls ++ [0] }) ∧
    UniquePtr.assign_nullptr (s.setFirst i 0) i =
      .ok { handles := s.handles.set i (some 0), deleterCalls := s.deleterCalls ++ [0] } ∧
    (p ≠ 0 →
      (s.deleterCalls ++ [0]).count p = s.deleterCalls.count p ∧
      Weak.run Weak.State.init [.sharedPtr p, .sharedDtor 0] =
        .ok { heap := [⟨0, 0, .ptrBlock 0, 1, 1⟩], shared := [none], weak := [] }) := by
  have hlt : i < s.handles.length := by
    rcases Nat.lt_or_ge i s.handles.length with h' | h'
    · exact h'
    · rw [List.getElem?_eq_none h'] at h; cases h
  refine ⟨?_, ?_, ?_, rfl, ?_, ?_, ?_, ?_⟩
  · simp [UniquePtr.Release, State.getFirst, h, bind, Except.bind, pure, Except.pure]
  · simp [UniquePtr.Get, State.getFirst, State.setFirst, hlt]
  · simp [UniquePtr.toBool, State.getFirst, State.setFirst, hlt, bind, Except.bind, pure,
      Except.pure]
  · simp [UniquePtr.dtor, State.getFirst, State.setFirst, State.callDeleter, hlt, bind,
      Except.bind, pure, Except.pure]
  · intro q
    simp [UniquePtr.Reset, State.getFirst, State.setFirst, State.callDeleter, hlt, bind,
      Except.bind, pure, Except.pure]
  · simp [UniquePtr.assign_nullptr, State.getFirst, State.setFirst, State.callDeleter, hlt,
      bind, Except.bind, pure, Except.pure]
  · intro hp
    refine ⟨?_, ?_⟩
    · have h0 : List.count p [0] = 0 := List.count_eq_zero.mpr (by simpa using hp)
      rw [List.count_append, h0]; rfl
    · have hV : (p : Ptr) ≠ 0 := hp
      simp only [Weak.run, List.foldlM, Weak.exec, Weak.step, bind, Except.bind]
      rw [Weak.ctor_ptr_some Weak.State.init hV]
      rfl

/-- Witness for C26: a handle constructed from the pointer 7. -/
theorem C26_release_hands_over_witness :
    UniquePtr.ctor State.init 7 = { handles := [some 7], deleterCalls := [] } ∧
    UniquePtr.Release { handles := [some 7], deleterCalls := [] } 0 =
      .ok (7, { handles := [some 0], deleterCalls := [] }) ∧
    UniquePtr.dtor { handles := [some 0], deleterCalls := [] } 0 =
      .ok { handles := [none], deleterCalls := [0] } :=
  ⟨rfl, (C26_release_hands_over { handles := [some 7], deleterCalls := [] } 0 7 rfl).1,
    (C26_release_hands_over { handles := [some 7], deleterCalls := [] } 0 7 rfl).2.2.2.2.1⟩

end Unique

namespace Intrusive

open Weak (Fault)

/-- `1` when the handle entry `h` is a live handle pointing at object `c`. -/
theorem holders_push (s : State) (h : Option ObjPtr) (c : Nat) :
    (State.mk s.objs (s.handles ++ [h])).holders c =
      s.holders c + (if h = some (some c) then 1 else 0) := by
  unfold State.holders
  rw [Weak.countP_push]
  by_cases hc : h = some (some c) <;> simp [hc]

theorem holders_set (s : State) {i : Nat} {old : Option ObjPtr} (new : Option ObjPtr)
    (hi : s.handles[i]? = some old) (c : Nat) :
    (State.mk s.objs (s.handles.set i new)).holders c +
        (if old = some (some c) then 1 else 0) =
      s.holders c + (if new = some (some c) then 1 else 0) := by
  unfold State.holders
  have h := Weak.countP_set_getElem? (fun h => decide (h = some (some c))) s.handles i old
    new hi
  by_cases h1 : old = some (some c) <;> by_cases h2 : new = some (some c) <;>
    simp [h1, h2] at h ⊢ <;> omega

theorem holders_le (s : State) (c : Nat) : s.holders c ≤ s.handles.length :=
  List.countP_le_length _

theorem holders_pos {s : State} {i a : Nat} (hi : s.handles[i]? = some (some (some a))) :
    0 < s.holders a := by
  unfold State.holders
  exact Weak.countP_pos_of_getElem? _ hi (by simp)

theorem ObjInv.incRef {obj : RefCounted} {n : Nat} (h : ObjInv obj n) (hd : obj.destroys = 0)
    (hn : n + 1 < 2 ^ 64) : ObjInv obj.IncRef (n + 1) := by
  refine ⟨?_, fun _ => ?_, ?_⟩
  · simp only [RefCounted.IncRef, SimpleCounter.IncRef, h.count]
    exact Nat.mod_eq_of_lt hn
  · simp [RefCounted.IncRef]
  · simp [RefCounted.IncRef, hd]

theorem ObjInv.decRef {obj : RefCounted} {n : Nat} (h : ObjInv obj (n + 1))
    (hn : n + 1 < 2 ^ 64) : ObjInv obj.DecRef n := by
  have hc := h.count
  have hi := h.held (Nat.succ_pos n)
  have hd : obj.destroys = 0 := by rw [h.destroys]; simp
  have hm : (n + 1 + 2 ^ 64 - 1) % 2 ^ 64 = n := by
    have : n + 1 + 2 ^ 64 - 1 = n + 2 ^ 64 := by omega
    rw [this, Nat.add_mod_right]
    exact Nat.mod_eq_of_lt (by omega)
  rcases Nat.eq_zero_or_pos n with h0 | h0
  · subst h0
    refine ⟨?_, fun h => absurd h (by decide), ?_⟩
    · simp [RefCounted.DecRef, SimpleCounter.DecRef, hc]
    · simp [RefCounted.DecRef, SimpleCounter.DecRef, hc, hd, hi]
  · have hne : n ≠ 0 := by omega
    refine ⟨?_, fun _ => ?_, ?_⟩
    · simp only [RefCounted.DecRef, SimpleCounter.DecRef, hc, hm, if_neg hne]
    · simp only [RefCounted.DecRef, SimpleCounter.DecRef, hc, hm, if_neg hne]
      exact hi
    · simp only [RefCounted.DecRef, SimpleCounter.DecRef, hc, hm, if_neg hne, hd]
      simp [hne]

theorem ObjInv.alive {obj : RefCounted} {n : Nat} (h : ObjInv obj n) (hn : 0 < n) :
    obj.destroys = 0 := by
  rw [h.destroys]
  have : n ≠ 0 := by omega
  simp [this]

theorem Mono.intr_refl (s : State) : Mono s s := fun _ obj h => ⟨obj, h, le_refl _, le_refl _⟩

theorem Mono.intr_trans {s u t : State} (h1 : Mono s u) (h2 : Mono u t) : Mono s t := by
  intro a obj h
  obtain ⟨o1, ha, hb, hc⟩ := h1 a obj h
  obtain ⟨o2, ha2, hb2, hc2⟩ := h2 a o1 ha
  exact ⟨o2, ha2, le_trans hb hb2, le_trans hc hc2⟩

theorem Mono.of_objs {s t : State} (h : t.objs = s.objs) : Mono s t := by
  intro a obj ha
  exact ⟨obj, by rw [h]; exact ha, le_refl _, le_refl _⟩

theorem Mono.intr_of_set {s t : State} {a : Nat} {obj obj' : RefCounted}
    (ha : s.objs[a]? = some obj) (h : t.objs = s.objs.set a obj')
    (h1 : obj.incRefs ≤ obj'.incRefs) (h2 : obj.destroys ≤ obj'.destroys) : Mono s t := by
  intro c o hc
  have hlt := Weak.lt_of_getElem? ha
  by_cases hac : a = c
  · subst hac
    rw [ha] at hc
    cases hc
    exact ⟨obj', by rw [h]; simp [hlt], h1, h2⟩
  · exact ⟨o, by rw [h, List.getElem?_set_ne hac]; exact hc, le_refl _, le_refl _⟩

theorem Good.intr_seq {s u t : State} (h1 : Good s u) (h2 : Good u t)
    (hl : t.handles.length ≤ s.handles.length + 1) : Good s t :=
  ⟨h2.inv, h1.mono.intr_trans h2.mono, hl⟩

/-- A step that leaves the objects alone and the number of holders of every object as it
was. -/
theorem Good.intr_neutral {s t : State} (hI : Inv s) (ho : t.objs = s.objs)
    (hh : ∀ c, t.holders c = s.holders c) (hl : t.handles.length ≤ s.handles.length + 1) :
    Good s t := by
  refine ⟨⟨?_, ?_⟩, Mono.of_objs ho, hl⟩
  · intro a obj ha
    rw [hh]
    exact hI.obj a obj (by rw [← ho]; exact ha)
  · intro a ha
    rw [hh]
    exact hI.alloc a (by rw [← ho]; exact ha)

/-- A step that runs `IncRef` on a live object and adds one holder of it. -/
theorem Good.acquire {s t : State} (hI : Inv s) {a : Nat} {obj : RefCounted}
    (ha : s.objs[a]? = some obj) (hd : obj.destroys = 0)
    (hb : s.handles.length + 1 < 2 ^ 64)
    (ho : t.objs = s.objs.set a obj.IncRef)
    (hh : t.holders a = s.holders a + 1)
    (hh' : ∀ c, c ≠ a → t.holders c = s.holders c)
    (hl : t.handles.length ≤ s.handles.length + 1) : Good s t := by
  have hlt := Weak.lt_of_getElem? ha
  refine ⟨⟨?_, ?_⟩, Mono.intr_of_set ha ho (by simp [RefCounted.IncRef])
    (by simp [RefCounted.IncRef]), hl⟩
  · intro c o hc
    by_cases hac : a = c
    · subst hac
      rw [ho] at hc
      simp [hlt] at hc
      subst hc
      rw [hh]
      exact (hI.obj a obj ha).incRef hd (by have := holders_le s a; omega)
    · rw [ho, List.getElem?_set_ne hac] at hc
      rw [hh' c (Ne.symm hac)]
      exact hI.obj c o hc
  · intro c hc
    rw [ho, List.length_set] at hc
    have hca : c ≠ a := by omega
    rw [hh' c hca]
    exact hI.alloc c hc

/-- A step that runs `DecRef` on an object and removes one holder of it. -/
theorem Good.release {s t : State} (hI : Inv s) {a : Nat} {obj : RefCounted}
    (ha : s.objs[a]? = some obj)
    (hb : s.handles.length + 1 < 2 ^ 64)
    (ho : t.objs = s.objs.set a obj.DecRef)
    (hh : t.holders a + 1 = s.holders a)
    (hh' : ∀ c, c ≠ a → t.holders c = s.holders c)
    (hl : t.handles.length ≤ s.handles.length + 1) : Good s t := by
  have hlt := Weak.lt_of_getElem? ha
  have hO := hI.obj a obj ha
  rw [← hh] at hO
  have hO' := hO.decRef (by have := holders_le s a; omega)
  refine ⟨⟨?_, ?_⟩, Mono.intr_of_set ha ho ?_ ?_, hl⟩
  · intro c o hc
    by_cases hac : a = c
    · subst hac
      rw [ho] at hc
      simp [hlt] at hc
      subst hc
      exact hO'
    · rw [ho, List.getElem?_set_ne hac] at hc
      rw [hh' c (Ne.symm hac)]
      exact hI.obj c o hc
  · intro c hc
    rw [ho, List.length_set] at hc
    have hca : c ≠ a := by omega
    rw [hh' c hca]
    exact hI.alloc c hc
  · simp only [RefCounted.DecRef]; split <;> simp
  · simp only [RefCounted.DecRef]; split <;> simp

theorem Inv.intr_init : Inv State.init :=
  ⟨fun a obj h => by simp [State.init] at h, fun a _ => by simp [State.init, State.holders]⟩

/-- A live handle points at an allocated object that has not been destroyed. -/
theorem Inv.target {s : State} (hI : Inv s) {i a : Nat}
    (hi : s.handles[i]? = some (some (some a))) :
    ∃ obj, s.objs[a]? = some obj ∧ obj.destroys = 0 ∧ obj.counter_.count_ = s.holders a := by
  have hp := holders_pos hi
  rcases h : s.objs[a]? with _ | obj
  · have := hI.alloc a (by
      rcases Nat.lt_or_ge a s.objs.length with h1 | h1
      · rw [List.getElem?_eq_getElem h1] at h; cases h
      · exact h1)
    omega
  · exact ⟨obj, rfl, (hI.obj a obj h).alive hp, (hI.obj a obj h).count⟩

theorem intr_newObj_good {s : State} (hI : Inv s) : Good s s.newObj.1 := by
  refine ⟨⟨?_, ?_⟩, ?_, by simp [State.newObj]⟩
  · intro a obj ha
    have hh : (s.newObj.1).holders a = s.holders a := rfl
    rw [hh]
    simp only [State.newObj] at ha
    rcases Nat.lt_or_ge a s.objs.length with h1 | h1
    · rw [List.getElem?_append_left h1] at ha
      exact hI.obj a obj ha
    · rw [hI.alloc a h1]
      rcases Nat.eq_or_lt_of_le h1 with h2 | h2
      · rw [← h2] at ha
        simp at ha
        subst ha
        exact ⟨rfl, fun h => absurd h (by decide), by simp [RefCounted.ctor]⟩
      · rw [List.getElem?_eq_none (by simp; omega)] at ha
        cases ha
  · intro a ha
    have hh : (s.newObj.1).holders a = s.holders a := rfl
    rw [hh]
    simp [State.newObj] at ha
    exact hI.alloc a (by omega)
  · intro a obj ha
    exact ⟨obj, by simp [State.newObj, List.getElem?_append_left (Weak.lt_of_getElem? ha), ha],
      le_refl _, le_refl _⟩

theorem intr_ctor_default_good {s : State} (hI : Inv s) : Good s (IntrusivePtr.ctor_default s) := by
  refine Good.intr_neutral hI rfl (fun c => ?_) (by simp [IntrusivePtr.ctor_default, State.newHandle])
  have := holders_push s (some none) c
  simpa [IntrusivePtr.ctor_default, State.newHandle] using this

theorem intr_ctor_ptr_none (s : State) :
    IntrusivePtr.ctor_ptr s none = .ok (s.newHandle none) := rfl

theorem intr_ctor_ptr_some {s : State} {a : Nat} {obj : RefCounted} (ha : s.objs[a]? = some obj)
    (hd : obj.destroys = 0) :
    IntrusivePtr.ctor_ptr s (some a) =
      .ok { objs := s.objs.set a obj.IncRef, handles := s.handles ++ [some (some a)] } := by
  simp [IntrusivePtr.ctor_ptr, State.newHandle, State.call, ha, hd]

theorem intr_ctor_ptr_dangling {s : State} {a : Nat}
    (ha : ∀ obj, s.objs[a]? = some obj → obj.destroys ≠ 0) :
    IntrusivePtr.ctor_ptr s (some a) = .error .useAfterFree := by
  rcases h : s.objs[a]? with _ | obj
  · simp [IntrusivePtr.ctor_ptr, State.newHandle, State.call, h]
  · simp [IntrusivePtr.ctor_ptr, State.newHandle, State.call, h, ha obj h]

theorem intr_acquire_push_good {s : State} (hI : Inv s) (hb : s.handles.length + 1 < 2 ^ 64)
    {a : Nat} {obj : RefCounted} (ha : s.objs[a]? = some obj) (hd : obj.destroys = 0) :
    Good s { objs := s.objs.set a obj.IncRef, handles := s.handles ++ [some (some a)] } := by
  refine Good.acquire hI ha hd hb rfl ?_ (fun c hc => ?_) (by simp)
  · simp [State.holders]
  · have hne : a ≠ c := Ne.symm hc
    simp [State.holders, hne]

theorem intr_ctor_copy_good {s : State} (hI : Inv s) (hb : s.handles.length + 1 < 2 ^ 64)
    (j : Nat) :
    IntrusivePtr.ctor_copy s j = .error .deadHandle ∨
      ∃ t, IntrusivePtr.ctor_copy s j = .ok t ∧ Good s t := by
  rcases h : s.handles[j]? with _ | _ | _ | a
  · left; simp [IntrusivePtr.ctor_copy, State.getPtr, h, bind, Except.bind]
  · left; simp [IntrusivePtr.ctor_copy, State.getPtr, h, bind, Except.bind]
  · right
    refine ⟨s.newHandle none, by
      simp [IntrusivePtr.ctor_copy, State.getPtr, h, bind, Except.bind, pure, Except.pure],
      intr_ctor_default_good hI⟩
  · right
    obtain ⟨obj, ha, hd, _⟩ := hI.target h
    refine ⟨_, ?_, intr_acquire_push_good hI hb ha hd⟩
    simp [IntrusivePtr.ctor_copy, State.getPtr, h, bind, Except.bind, State.newHandle,
      State.call, ha, hd]

theorem intr_ctor_move_eq {s : State} {j : Nat} {o : ObjPtr} (h : s.handles[j]? = some (some o)) :
    IntrusivePtr.ctor_move s j =
      .ok { objs := s.objs, handles := s.handles.set j (some none) ++ [some o] } := by
  have hlt := Weak.lt_of_getElem? h
  simp [IntrusivePtr.ctor_move, State.getPtr, h, bind, Except.bind, pure, Except.pure,
    State.newHandle, State.setPtr, List.set_append_left _ _ hlt]

theorem intr_ctor_move_good {s : State} (hI : Inv s) (j : Nat) :
    IntrusivePtr.ctor_move s j = .error .deadHandle ∨
      ∃ t, IntrusivePtr.ctor_move s j = .ok t ∧ Good s t := by
  rcases h : s.handles[j]? with _ | _ | o
  · left; simp [IntrusivePtr.ctor_move, State.getPtr, h, bind, Except.bind]
  · left; simp [IntrusivePtr.ctor_move, State.getPtr, h, bind, Except.bind]
  · right
    refine ⟨_, intr_ctor_move_eq h, Good.intr_neutral hI rfl (fun c => ?_) (by simp)⟩
    have h1 := holders_set s (some none) h c
    have h2 := holders_push ⟨s.objs, s.handles.set j (some none)⟩ (some o) c
    simp only [] at h2
    rw [h2]
    by_cases hc : o = some c
    · subst hc
      simp at h1 ⊢
      omega
    · have hc' : ¬ (some o = some (some c)) := by simpa using hc
      simp [hc'] at h1 ⊢
      omega

theorem intr_Reset_none {s : State} {i : Nat} (h : s.handles[i]? = some (some none)) :
    IntrusivePtr.Reset s i = .ok s := by
  simp [IntrusivePtr.Reset, State.getPtr, h, bind, Except.bind, pure, Except.pure]

theorem intr_Reset_some {s : State} {i a : Nat} {obj : RefCounted}
    (h : s.handles[i]? = some (some (some a))) (ha : s.objs[a]? = some obj)
    (hd : obj.destroys = 0) :
    IntrusivePtr.Reset s i =
      .ok { objs := s.objs.set a obj.DecRef, handles := s.handles.set i (some none) } := by
  simp [IntrusivePtr.Reset, State.getPtr, h, bind, Except.bind, pure, Except.pure,
    State.call, ha, hd, State.setPtr]

/-- `Reset()` on a live handle returns and leaves the handle empty. -/
theorem intr_Reset_live {s : State} (hI : Inv s) (hb : s.handles.length + 1 < 2 ^ 64) {i : Nat}
    {me : ObjPtr} (h : s.handles[i]? = some (some me)) :
    ∃ t, IntrusivePtr.Reset s i = .ok t ∧ Good s t ∧
      t.handles = s.handles.set i (some none) := by
  rcases me with _ | a
  · exact ⟨s, intr_Reset_none h, Good.intr_neutral hI rfl (fun _ => rfl) (by omega),
      (Weak.set_same_of_getElem? h).symm⟩
  · obtain ⟨obj, ha, hd, _⟩ := hI.target h
    refine ⟨_, intr_Reset_some h ha hd, ?_, rfl⟩
    refine Good.release hI ha hb rfl ?_ (fun c hc => ?_) (by simp)
    · have h1 := holders_set ⟨s.objs.set a obj.DecRef, s.handles⟩ (some none) h a
      simpa [State.holders] using h1
    · have h1 := holders_set ⟨s.objs.set a obj.DecRef, s.handles⟩ (some none) h c
      have hne : a ≠ c := Ne.symm hc
      simpa [State.holders, hne] using h1

theorem intr_Reset_good {s : State} (hI : Inv s) (hb : s.handles.length + 1 < 2 ^ 64) (i : Nat) :
    IntrusivePtr.Reset s i = .error .deadHandle ∨
      ∃ t, IntrusivePtr.Reset s i = .ok t ∧ Good s t ∧
        t.handles = s.handles.set i (some none) := by
  rcases h : s.handles[i]? with _ | _ | me
  · left; simp [IntrusivePtr.Reset, State.getPtr, h, bind, Except.bind]
  · left; simp [IntrusivePtr.Reset, State.getPtr, h, bind, Except.bind]
  · exact Or.inr (intr_Reset_live hI hb h)

theorem intr_end_good {s : State} (hI : Inv s) {i : Nat} (h : s.handles[i]? = some (some none)) :
    Good s (s.endHandle i) := by
  refine Good.intr_neutral hI rfl (fun c => ?_) (by simp [State.endHandle])
  have h1 := holders_set s none h c
  simpa [State.endHandle] using h1

theorem intr_dtor_good {s : State} (hI : Inv s) (hb : s.handles.length + 1 < 2 ^ 64) (i : Nat) :
    IntrusivePtr.dtor s i = .error .deadHandle ∨
      ∃ t, IntrusivePtr.dtor s i = .ok t ∧ Good s t ∧ t.handles = s.handles.set i none := by
  rcases intr_Reset_good hI hb i with hR | ⟨u, hR, hG, hu⟩
  · left; simp [IntrusivePtr.dtor, hR, bind, Except.bind]
  · right
    have hlt : i < s.handles.length := by
      rcases Nat.lt_or_ge i s.handles.length with h | h
      · exact h
      · have : s.handles[i]? = none := List.getElem?_eq_none h
        simp [IntrusivePtr.Reset, State.getPtr, this, bind, Except.bind] at hR
    have hui : u.handles[i]? = some (some none) := by rw [hu]; simp [hlt]
    refine ⟨u.endHandle i, by simp [IntrusivePtr.dtor, hR, bind, Except.bind, pure,
      Except.pure], hG.intr_seq (intr_end_good hG.inv hui) ?_, ?_⟩
    · simp [State.endHandle, hu]
    · simp [State.endHandle, hu]

theorem intr_assign_good {s : State} (hI : Inv s) (hb : s.handles.length + 1 < 2 ^ 64)
    (i j : Nat) :
    IntrusivePtr.assign s i j = .error .deadHandle ∨
      ∃ t, IntrusivePtr.assign s i j = .ok t ∧ Good s t := by
  rcases hi : s.handles[i]? with _ | _ | me
  · left; simp [IntrusivePtr.assign, State.getPtr, hi, bind, Except.bind]
  · left; simp [IntrusivePtr.assign, State.getPtr, hi, bind, Except.bind]
  rcases hj : s.handles[j]? with _ | _ | o
  · left; simp [IntrusivePtr.assign, State.getPtr, hi, hj, bind, Except.bind]
  · left; simp [IntrusivePtr.assign, State.getPtr, hi, hj, bind, Except.bind]
  right
  by_cases hmo : me = o
  · exact ⟨s, by simp [IntrusivePtr.assign, State.getPtr, hi, hj, bind, Except.bind, hmo,
      pure, Except.pure], Good.intr_neutral hI rfl (fun _ => rfl) (by omega)⟩
  · have hij : i ≠ j := by
      intro h; subst h; rw [hi] at hj; cases hj; exact hmo rfl
    obtain ⟨u, hR, hG, hu⟩ := intr_Reset_live hI hb hi
    have huj : u.handles[j]? = some (some o) := by
      rw [hu, List.getElem?_set_ne hij]; exact hj
    have hui : u.handles[i]? = some (some none) := by
      rw [hu]; simp [Weak.lt_of_getElem? hi]
    have hul : u.handles.length = s.handles.length := by rw [hu]; simp
    rcases o with _ | b
    · exact ⟨u, by simp [IntrusivePtr.assign, State.getPtr, hi, hj, bind, Except.bind, hmo,
        hR, huj, pure, Except.pure], hG⟩
    · obtain ⟨obj, hb1, hd, _⟩ := hG.inv.target huj
      refine ⟨{ objs := u.objs.set b obj.IncRef,
                handles := u.handles.set i (some (some b)) }, ?_, hG.intr_seq ?_ (by simp [hul])⟩
      · simp [IntrusivePtr.assign, State.getPtr, hi, hj, bind, Except.bind, hmo, hR, huj,
          State.setPtr, State.call, hb1, hd]
      · refine Good.acquire hG.inv hb1 hd (by omega) rfl ?_ (fun c hc => ?_) (by simp)
        · have h1 := holders_set ⟨u.objs.set b obj.IncRef, u.handles⟩ (some (some b)) hui b
          simpa [State.holders] using h1
        · have h1 := holders_set ⟨u.objs.set b obj.IncRef, u.handles⟩ (some (some b)) hui c
          have hne : b ≠ c := Ne.symm hc
          simpa [State.holders, hne] using h1

theorem intr_assign_move_good {s : State} (hI : Inv s) (hb : s.handles.length + 1 < 2 ^ 64)
    (i j : Nat) :
    IntrusivePtr.assign_move s i j = .error .deadHandle ∨
      ∃ t, IntrusivePtr.assign_move s i j = .ok t ∧ Good s t := by
  by_cases hij : i = j
  · exact Or.inr ⟨s, by simp [IntrusivePtr.assign_move, hij, pure, Except.pure],
      Good.intr_neutral hI rfl (fun _ => rfl) (by omega)⟩
  rcases hi : s.handles[i]? with _ | _ | me
  · left; simp [IntrusivePtr.assign_move, IntrusivePtr.Reset, State.getPtr, hi, hij, bind,
      Except.bind]
  · left; simp [IntrusivePtr.assign_move, IntrusivePtr.Reset, State.getPtr, hi, hij, bind,
      Except.bind]
  obtain ⟨u, hR, hG, hu⟩ := intr_Reset_live hI hb hi
  have hui : u.handles[i]? = some (some none) := by
    rw [hu]; simp [Weak.lt_of_getElem? hi]
  have hul : u.handles.length = s.handles.length := by rw [hu]; simp
  rcases hj : s.handles[j]? with _ | _ | o
  · left
    have huj : u.handles[j]? = none := by rw [hu, List.getElem?_set_ne hij]; exact hj
    simp [IntrusivePtr.assign_move, hij, hR, State.getPtr, huj, bind, Except.bind]
  · left
    have huj : u.handles[j]? = some none := by rw [hu, List.getElem?_set_ne hij]; exact hj
    simp [IntrusivePtr.assign_move, hij, hR, State.getPtr, huj, bind, Except.bind]
  · right
    have huj : u.handles[j]? = some (some o) := by
      rw [hu, List.getElem?_set_ne hij]; exact hj
    refine ⟨{ objs := u.objs, handles := (u.handles.set i (some o)).set j (some none) }, ?_,
      hG.intr_seq (Good.intr_neutral hG.inv rfl (fun c => ?_) (by simp)) (by simp [hul])⟩
    · simp [IntrusivePtr.assign_move, hij, hR, State.getPtr, huj, bind, Except.bind, pure,
        Except.pure, State.setPtr]
    · have h1 := holders_set u (some o) hui c
      have huj' : (u.handles.set i (some o))[j]? = some (some o) := by
        rw [List.getElem?_set_ne hij]; exact huj
      have h2 := holders_set ⟨u.objs, u.handles.set i (some o)⟩ (some none) huj' c
      simp only [] at h1 h2
      by_cases hc : o = some c
      · subst hc
        simp at h1 h2 ⊢
        omega
      · have hc' : ¬ (some o = some (some c)) := by simpa using hc
        simp [hc'] at h1 h2 ⊢
        omega

theorem MakeIntrusive_eq (s : State) :
    MakeIntrusive s .values =
      .ok { objs := s.objs ++ [RefCounted.ctor.IncRef],
            handles := s.handles ++ [some (some s.objs.length)] } := by
  simp [MakeIntrusive, State.construct, State.newObj, IntrusivePtr.ctor_ptr,
    State.newHandle, State.call, RefCounted.ctor, bind, Except.bind, pure, Except.pure]

theorem MakeIntrusive_good {s : State} (hI : Inv s) (hb : s.handles.length + 1 < 2 ^ 64) :
    ∃ t, MakeIntrusive s .values = .ok t ∧ Good s t := by
  have hG := intr_newObj_good hI
  have ha : (s.newObj.1).objs[s.objs.length]? = some RefCounted.ctor := by
    simp [State.newObj]
  have h2 := intr_acquire_push_good hG.inv (by simpa [State.newObj] using hb) ha rfl
  refine ⟨_, MakeIntrusive_eq s, hG.intr_seq ?_ (by simp)⟩
  simpa [State.newObj] using h2

/-- Every statement either returns from a state that satisfies the invariant, with the
invariant kept, or it is a construction from a raw pointer that does not point at a live
object. -/
theorem intr_exec_good {s : State} (hI : Inv s) (hb : s.handles.length + 1 < 2 ^ 64) (op : Op) :
    (∃ t, exec s op = .ok t ∧ Good s t) ∨
    (exec s op = .error .useAfterFree ∧ ∃ a, op = .fromRaw (some a) ∧
      ∀ obj, s.objs[a]? = some obj → obj.destroys ≠ 0) := by
  have hS : Good s s := Good.intr_neutral hI rfl (fun _ => rfl) (by omega)
  have key : ∀ r : Except Fault State, step s op = r →
      (r = .error .deadHandle ∨ ∃ t, r = .ok t ∧ Good s t) →
      ∃ t, exec s op = .ok t ∧ Good s t := by
    intro r hr h
    rcases h with h | ⟨t, h, hG⟩
    · exact ⟨s, by simp [exec, hr, h], hS⟩
    · exact ⟨t, by simp [exec, hr, h], hG⟩
  cases op with
  | newObj => exact Or.inl (key _ rfl (Or.inr ⟨_, rfl, intr_newObj_good hI⟩))
  | default => exact Or.inl (key _ rfl (Or.inr ⟨_, rfl, intr_ctor_default_good hI⟩))
  | fromRaw p =>
    rcases p with _ | a
    · exact Or.inl (key _ rfl (Or.inr ⟨_, intr_ctor_ptr_none s, intr_ctor_default_good hI⟩))
    · by_cases hl : ∃ obj, s.objs[a]? = some obj ∧ obj.destroys = 0
      · obtain ⟨obj, ha, hd⟩ := hl
        exact Or.inl (key _ rfl (Or.inr ⟨_, intr_ctor_ptr_some ha hd, intr_acquire_push_good hI hb ha hd⟩))
      · right
        have hd : ∀ obj, s.objs[a]? = some obj → obj.destroys ≠ 0 :=
          fun obj ha h0 => hl ⟨obj, ha, h0⟩
        exact ⟨by simp [exec, step, intr_ctor_ptr_dangling hd], a, rfl, hd⟩
  | copy o => exact Or.inl (key _ rfl (intr_ctor_copy_good hI hb o))
  | move o => exact Or.inl (key _ rfl (intr_ctor_move_good hI o))
  | assign t o => exact Or.inl (key _ rfl (intr_assign_good hI hb t o))
  | assignMove t o => exact Or.inl (key _ rfl (intr_assign_move_good hI hb t o))
  | reset t =>
    refine Or.inl (key _ rfl ?_)
    rcases intr_Reset_good hI hb t with h | ⟨u, h, hG, _⟩
    · exact Or.inl h
    · exact Or.inr ⟨u, h, hG⟩
  | dtor t =>
    refine Or.inl (key _ rfl ?_)
    rcases intr_dtor_good hI hb t with h | ⟨u, h, hG, _⟩
    · exact Or.inl h
    · exact Or.inr ⟨u, h, hG⟩
  | make => exact Or.inl (key _ rfl (Or.inr (MakeIntrusive_good hI hb)))

theorem intr_exec_ok_good {s t : State} (hI : Inv s) (hb : s.handles.length + 1 < 2 ^ 64) {op : Op}
    (h : exec s op = .ok t) : Good s t := by
  rcases intr_exec_good hI hb op with ⟨t', h', hG⟩ | ⟨h', _⟩
  · rw [h] at h'; cases h'; exact hG
  · rw [h] at h'; cases h'

theorem intr_run_good (ops : List Op) : ∀ {s t : State}, Inv s →
    s.handles.length + ops.length < 2 ^ 64 → run s ops = .ok t →
    Inv t ∧ Mono s t ∧ t.handles.length ≤ s.handles.length + ops.length := by
  induction ops with
  | nil =>
    intro s t hI _ h
    simp [run, pure, Except.pure] at h
    subst h
    exact ⟨hI, Mono.intr_refl s, by simp⟩
  | cons op ops ih =>
    intro s t hI hb h
    simp only [run, List.foldlM, bind, Except.bind] at h
    cases hu : exec s op with
    | error e => rw [hu] at h; cases h
    | ok u =>
      rw [hu] at h
      simp only [List.length_cons] at hb
      have hG := intr_exec_ok_good hI (by omega) hu
      have hlen := hG.len
      obtain ⟨h1, h2, h3⟩ := ih hG.inv (by omega) h
      exact ⟨h1, hG.mono.intr_trans h2, by simp only [List.length_cons]; omega⟩

theorem intr_UseCount_eq {s : State} (hI : Inv s) {i : Nat} {p : ObjPtr}
    (h : s.handles[i]? = some (some p)) :
    IntrusivePtr.UseCount s i = .ok (s.holdersOf p) := by
  rcases p with _ | a
  · simp [IntrusivePtr.UseCount, State.getPtr, h, bind, Except.bind, pure, Except.pure,
      State.holdersOf]
  · obtain ⟨obj, ha, hd, hc⟩ := hI.target h
    simp [IntrusivePtr.UseCount, State.getPtr, h, bind, Except.bind, pure, Except.pure,
      State.read, ha, hd, RefCounted.RefCount, SimpleCounter.RefCount, hc, State.holdersOf]

/-- For objects that are constructed from arguments other than an object of their own type
(counter 0 at birth): after any program of fewer than `2 ^ 64` statements (object creation,
construction of a handle from a raw pointer, copy, move, copy and move assignment,
`Reset()`, destruction, `MakeIntrusive`), `UseCount()` of a live handle is the number of
live handles that point at its object, and 0 for an empty handle; the counter of every
object is that number; and `Deleter::Destroy` has run on an object once if it has been held
and no handle points at it any more, and not at all otherwise.  Every further statement
returns, except the construction of a handle from a raw pointer that does not point at a
live object; it keeps the objects in place, never lowers the number of `IncRef` or `Destroy`
calls of an object, and adds at most one handle. -/
theorem intr_fresh_objects_counted (ops : List Op) (s : State)
    (hlen : ops.length + 1 < 2 ^ 64) (hrun : run State.init ops = .ok s) :
    (∀ (i : Nat) (p : ObjPtr), s.handles[i]? = some (some p) →
      IntrusivePtr.UseCount s i = .ok (s.holdersOf p)) ∧
    (∀ (a : Nat) (obj : RefCounted), s.objs[a]? = some obj →
      obj.RefCount = s.holders a ∧ (0 < s.holders a → 0 < obj.incRefs) ∧
      obj.destroys = if 0 < obj.incRefs ∧ s.holders a = 0 then 1 else 0) ∧
    (∀ op : Op,
      (∃ t, exec s op = .ok t ∧ Mono s t ∧ t.handles.length ≤ s.handles.length + 1) ∨
      (exec s op = .error .useAfterFree ∧ ∃ a, op = .fromRaw (some a) ∧
        ∀ obj, s.objs[a]? = some obj → obj.destroys ≠ 0)) := by
  have h0 : State.init.handles.length + ops.length < 2 ^ 64 := by
    simp [State.init]; omega
  obtain ⟨hI, _, hl⟩ := intr_run_good ops Inv.intr_init h0 hrun
  have hb : s.handles.length + 1 < 2 ^ 64 := by
    simp [State.init] at hl; omega
  refine ⟨fun i p h => intr_UseCount_eq hI h, fun a obj ha => ?_, fun op => ?_⟩
  · have hO := hI.obj a obj ha
    exact ⟨hO.count, hO.held, hO.destroys⟩
  · rcases intr_exec_good hI hb op with ⟨t, h, hG⟩ | h
    · exact Or.inl ⟨t, h, hG.mono, hG.len⟩
    · exact Or.inr h

/-- An instance: one object, three handles to it, all of them given up one by one. -/
theorem intr_fresh_objects_counted_example :
    run State.init [.make, .copy 0, .move 1, .assign 1 0, .reset 0, .dtor 2, .dtor 1] =
      .ok { objs := [⟨⟨0⟩, 3, 1⟩], handles := [some none, none, none] } ∧
    ∀ (a : Nat) (obj : RefCounted),
      (State.mk [⟨⟨0⟩, 3, 1⟩] [some none, none, none]).objs[a]? = some obj →
      obj.RefCount = (State.mk [⟨⟨0⟩, 3, 1⟩] [some none, none, none]).holders a ∧
      (0 < (State.mk [⟨⟨0⟩, 3, 1⟩] [some none, none, none]).holders a → 0 < obj.incRefs) ∧
      obj.destroys = if 0 < obj.incRefs ∧
        (State.mk [⟨⟨0⟩, 3, 1⟩] [some none, none, none]).holders a = 0 then 1 else 0 :=
  ⟨rfl, (intr_fresh_objects_counted
    [.make, .copy 0, .move 1, .assign 1 0, .reset 0, .dtor 2, .dtor 1] _ (by decide) rfl).2.1⟩

/-- C27 at the failing input: `auto h0 = MakeIntrusive<Obj>(); auto h1 =
MakeIntrusive<Obj>(*h0);`.  `new Obj(*h0)` runs the implicit copy constructor of
`RefCounted`, which copies `counter_`: the second object is born with the counter 1 of the
first, the handle `h1` raises it to 2, and `h1.UseCount()` is 2 although `h1` is the only
handle that points at the object.  When `h1` is destroyed the counter goes to 1, not 0:
`Destroy` does not run and no handle is left to run it.  `RefCounted::operator=` keeps the
counter of the assigned-to object.  An object is written `⟨⟨count_⟩, incRefs, destroys⟩`. -/
theorem C27_copied_object_inherits_counter :
    MakeIntrusive State.init .values =
      .ok { objs := [⟨⟨1⟩, 1, 0⟩], handles := [some (some 0)] } ∧
    MakeIntrusive { objs := [⟨⟨1⟩, 1, 0⟩], handles := [some (some 0)] } (.copyOf (some 0)) =
      .ok { objs := [⟨⟨1⟩, 1, 0⟩, ⟨⟨2⟩, 1, 0⟩], handles := [some (some 0), some (some 1)] } ∧
    IntrusivePtr.UseCount
      { objs := [⟨⟨1⟩, 1, 0⟩, ⟨⟨2⟩, 1, 0⟩], handles := [some (some 0), some (some 1)] } 1 =
      .ok 2 ∧
    State.holders
      { objs := [⟨⟨1⟩, 1, 0⟩, ⟨⟨2⟩, 1, 0⟩], handles := [some (some 0), some (some 1)] } 1 =
      1 ∧
    IntrusivePtr.dtor
      { objs := [⟨⟨1⟩, 1, 0⟩, ⟨⟨2⟩, 1, 0⟩], handles := [some (some 0), some (some 1)] } 1 =
      .ok { objs := [⟨⟨1⟩, 1, 0⟩, ⟨⟨1⟩, 1, 0⟩], handles := [some (some 0), none] } ∧
    State.holders
      { objs := [⟨⟨1⟩, 1, 0⟩, ⟨⟨1⟩, 1, 0⟩], handles := [some (some 0), none] } 1 = 0 ∧
    ∀ x y : RefCounted, (RefCounted.assign x y).counter_ = x.counter_ :=
  ⟨rfl, rfl, rfl, rfl, rfl, rfl, fun _ _ => rfl⟩

end Intrusive

namespace SelfRef

open Weak (Ptr BlockPtr Fault Payload BaseBlock toSizeT)

/-- `SetWeak` called through a null pointer. -/
theorem SetWeak_null (s : State) (weak : SharedPtr) :
    EnableSharedFromThis.SetWeak s 0 weak = .error .nullDeref := rfl

theorem ctor_default_faults (s : State) : SharedPtr.ctor_default s = .error .nullDeref := by
  simp [SharedPtr.ctor_default, State.newShared, State.getShared, bind, Except.bind,
    SetWeak_null]

theorem ctor_nullptr_faults (s : State) : SharedPtr.ctor_nullptr s = .error .nullDeref := by
  simp [SharedPtr.ctor_nullptr, State.newShared, State.getShared, bind, Except.bind,
    SetWeak_null]

theorem ctor_ptr_null_faults (s : State) : SharedPtr.ctor_ptr s 0 = .error .nullDeref := by
  simp [SharedPtr.ctor_ptr, SharedPtr.registerSelf, State.newShared, State.getShared,
    State.setShared, bind, Except.bind, pure, Except.pure, SetWeak_null]

theorem ctor_copy_empty_faults {s : State} {i : Nat}
    (h : s.shared[i]? = some (some ⟨none, 0⟩)) :
    SharedPtr.ctor_copy s i = .error .nullDeref := by
  simp [SharedPtr.ctor_copy, SharedPtr.AddObj, SharedPtr.registerSelf, State.newShared,
    State.getShared, h, bind, Except.bind, pure, Except.pure, SetWeak_null]

theorem ctor_move_empty_faults {s : State} {i : Nat}
    (h : s.shared[i]? = some (some ⟨none, 0⟩)) :
    SharedPtr.ctor_move s i = .error .nullDeref := by
  simp [SharedPtr.ctor_move, SharedPtr.registerSelf, State.newShared,
    State.getShared, h, bind, Except.bind, pure, Except.pure, SetWeak_null]

/-- `SharedFromThis()` on a value whose stored observer is still the default-constructed
one. -/
theorem SharedFromThis_unwrapped {s : State} {p : Ptr} {v : EnableSharedFromThis}
    (hv : s.getValue p = .ok v) (hw : v.weak_ = ⟨none, 0⟩) :
    EnableSharedFromThis.SharedFromThis s p = .error .nullDeref := by
  simp [EnableSharedFromThis.SharedFromThis, hv, hw, SharedPtr.ctor_weak,
    SharedPtr.registerSelf, State.newShared, State.getShared, bind, Except.bind, pure,
    Except.pure, SetWeak_null]

/-- C29 at the failing inputs.  For a type with the self-reference capability the default
constructor, the constructor from `nullptr` and the wrapping of a null raw pointer store
`ptr_ = nullptr` and then call `ptr_->SetWeak(...)`: a member call through the null access
pointer, in every state.  A handle emptied by `Reset()` has `ptr_ == nullptr` as well, and
copying it or moving from it makes the same call. -/
theorem C29_empty_handle_calls_SetWeak_through_null :
    (∀ s : State, SharedPtr.ctor_default s = .error .nullDeref) ∧
    (∀ s : State, SharedPtr.ctor_nullptr s = .error .nullDeref) ∧
    (∀ s : State, SharedPtr.ctor_ptr s 0 = .error .nullDeref) ∧
    run State.init [.make, .reset 0] =
      .ok { heap := [⟨0, 0, .valueBlock 1, 1, 1⟩], shared := [some ⟨none, 0⟩], weak := [],
            values := [⟨⟨some 0, 1⟩, true, 1, 1⟩],
            log := [.weakInc 0 1, .weakInc 0 2, .zeroStrongBegin 0, .weakDec 0 1,
                    .zeroStrongEnd 0, .weakDec 0 0, .deleteBlock 0] } ∧
    run State.init [.make, .reset 0, .copy 0] = .error .nullDeref ∧
    run State.init [.make, .reset 0, .move 0] = .error .nullDeref :=
  ⟨ctor_default_faults, ctor_nullptr_faults, ctor_ptr_null_faults, rfl, rfl, rfl⟩

theorem getValue_ok {s : State} {p : Ptr} {v : EnableSharedFromThis} (hp : p ≠ 0)
    (hv : s.values[p - 1]? = some v) (hd : v.destroyed = 0) : s.getValue p = .ok v := by
  simp [State.getValue, hp, hv, hd]

/-- Any later `SetWeak`: the stored observer takes the handle's two fields, nothing else
changes. -/
theorem SetWeak_again {s : State} {p : Nat} {v : EnableSharedFromThis} (weak : SharedPtr)
    (hp : p ≠ 0) (hv : s.values[p - 1]? = some v) (hd : v.destroyed = 0)
    (hf : v.flag_ = true) :
    EnableSharedFromThis.SetWeak s p weak =
      .ok { s with
        values := s.values.set (p - 1) { v with weak_ := ⟨weak.block_, weak.ptr_⟩ } } := by
  simp [EnableSharedFromThis.SetWeak, getValue_ok hp hv hd, hf, State.setValue,
    WeakPtr.SetBlock, WeakPtr.SetPtr, bind, Except.bind, pure, Except.pure]

/-- `SharedFromThis()` on a registered value whose block still has owners. -/
theorem SharedFromThis_registered {s : State} {b p : Nat} {q : Ptr} {blk : BaseBlock}
    {v : EnableSharedFromThis} (hp : p ≠ 0) (hv : s.values[p - 1]? = some v)
    (hd : v.destroyed = 0) (hf : v.flag_ = true) (hw : v.weak_ = ⟨some b, q⟩) (hq : q = p)
    (hb : s.heap[b]? = some blk) (hbd : blk.deletes = 0) (hs : blk.strong_count_ ≠ 0) :
    EnableSharedFromThis.SharedFromThis s p =
      .ok { s with
        heap := s.heap.set b blk.StrongInc,
        shared := s.shared ++ [some ⟨some b, p⟩] } := by
  subst hq
  have h1 : EnableSharedFromThis.SetWeak
      (State.mk (s.heap.set b blk.StrongInc) (s.shared ++ [some ⟨some b, q⟩]) s.weak s.values
        s.log) q ⟨some b, q⟩ = _ := SetWeak_again ⟨some b, q⟩ hp hv hd hf
  have hset : s.values.set (q - 1) { v with weak_ := ⟨some b, q⟩ } = s.values := by
    rw [← hw]
    exact Weak.set_same_of_getElem? hv
  simp [EnableSharedFromThis.SharedFromThis, getValue_ok hp hv hd, hw, SharedPtr.ctor_weak,
    SharedPtr.registerSelf, State.newShared, State.getShared, State.deref, State.call, hb,
    hbd, hs, BaseBlock.GetStrongCount, bind, Except.bind, pure, Except.pure]
  rw [h1]
  simp [hset]

/-- `SharedFromThis()` when the strong count of the block is already 0. -/
theorem SharedFromThis_expired {s : State} {b : Nat} {p q : Ptr} {blk : BaseBlock}
    {v : EnableSharedFromThis} (hv : s.getValue p = .ok v) (hw : v.weak_ = ⟨some b, q⟩)
    (hb : s.heap[b]? = some blk) (hbd : blk.deletes = 0) (hs : blk.strong_count_ = 0) :
    EnableSharedFromThis.SharedFromThis s p = .error .badWeakPtr := by
  simp [EnableSharedFromThis.SharedFromThis, hv, hw, SharedPtr.ctor_weak,
    State.newShared, State.deref, hb, hbd, hs, BaseBlock.GetStrongCount, bind, Except.bind,
    pure, Except.pure, throw, throwThe, MonadExceptOf.throw]

/-- `WeakFromThis()` on a value whose stored observer has a block. -/
theorem WeakFromThis_eq {s : State} {b : Nat} {p q : Ptr} {blk : BaseBlock}
    {v : EnableSharedFromThis} (hv : s.getValue p = .ok v) (hw : v.weak_ = ⟨some b, q⟩)
    (hb : s.heap[b]? = some blk) (hbd : blk.deletes = 0) :
    EnableSharedFromThis.WeakFromThis s p =
      .ok { s with
        heap := s.heap.set b blk.WeakInc,
        weak := s.weak ++ [some ⟨some b, q⟩],
        log := s.log ++ [.weakInc b (blk.weak_count_ + 1)] } := by
  simp [EnableSharedFromThis.WeakFromThis, hv, hw, WeakPtr.ctor_copy, State.newWeak,
    State.WeakInc, hb, hbd, BaseBlock.WeakInc, bind, Except.bind, pure, Except.pure]

/-- The release of the last owner of a block whose value is registered with that block, for
a value wrapped from a raw pointer.  `w` is the weak count before, at least 1 because of the
registration. -/
theorem release_last_ptrBlock (s : State) {b p : Nat} {me : SharedPtr} {w : Int} {z : Nat}
    {v : EnableSharedFromThis} (hme : me.block_ = some b)
    (hb : s.heap[b]? = some ⟨w, 1, .ptrBlock p, z, 0⟩) (hp : p ≠ 0)
    (hv : s.values[p - 1]? = some v) (hd : v.destroyed = 0) (hvb : v.weak_.block_ = some b)
    (hw : 1 ≤ w) :
    SharedPtr.release true s me =
      .ok { s with
        heap := s.heap.set b ⟨w - 1, 0, .ptrBlock 0, z + 1, if w = 1 then 1 else 0⟩,
        values := s.values.set (p - 1) { v with destroyed := 1 },
        log := s.log ++ [.weakInc b (w + 1), .zeroStrongBegin b, .weakDec b w,
                         .zeroStrongEnd b, .weakDec b (w - 1)] ++
               (if w = 1 then [.deleteBlock b] else []) } := by
  have hlt := Weak.lt_of_getElem? hb
  have hP : (p : Ptr) ≠ 0 := hp
  have h1 : w + 1 - 1 = w := by omega
  have h2 : w ≠ 0 := by omega
  have h3 : (w - 1 = 0) ↔ w = 1 := by omega
  rcases v with ⟨⟨vb, vp⟩, fl, n, d⟩
  simp only at hd hvb
  subst hd hvb
  by_cases h4 : w = 1
  · subst h4
    simp [SharedPtr.release, hme, State.call, hb, State.deref, hlt, BaseBlock.StrongDec,
      BaseBlock.GetStrongCount, BaseBlock.GetWeakCount, State.WeakInc, State.WeakDec,
      BaseBlock.WeakInc, BaseBlock.WeakDec, ZeroStrongCount, destroyValue, State.getValue,
      hP, hv, WeakPtr.release, State.record, State.setValue, State.delete, bind, Except.bind,
      pure, Except.pure]
  · simp [SharedPtr.release, hme, State.call, hb, State.deref, hlt, BaseBlock.StrongDec,
      BaseBlock.GetStrongCount, BaseBlock.GetWeakCount, State.WeakInc, State.WeakDec,
      BaseBlock.WeakInc, BaseBlock.WeakDec, ZeroStrongCount, destroyValue, State.getValue,
      hP, hv, WeakPtr.release, State.record, State.setValue, State.delete, bind, Except.bind,
      pure, Except.pure, h1, h2, h3, h4]

/-- The release of the last owner of a block whose value is registered with that block, for
a value made by `MakeShared`. -/
theorem release_last_valueBlock (s : State) {b p : Nat} {me : SharedPtr} {w : Int} {z : Nat}
    {v : EnableSharedFromThis} (hme : me.block_ = some b)
    (hb : s.heap[b]? = some ⟨w, 1, .valueBlock p, z, 0⟩) (hp : p ≠ 0)
    (hv : s.values[p - 1]? = some v) (hd : v.destroyed = 0) (hvb : v.weak_.block_ = some b)
    (hw : 1 ≤ w) :
    SharedPtr.release true s me =
      .ok { s with
        heap := s.heap.set b ⟨w - 1, 0, .valueBlock p, z + 1, if w = 1 then 1 else 0⟩,
        values := s.values.set (p - 1) { v with destroyed := 1 },
        log := s.log ++ [.weakInc b (w + 1), .zeroStrongBegin b, .weakDec b w,
                         .zeroStrongEnd b, .weakDec b (w - 1)] ++
               (if w = 1 then [.deleteBlock b] else []) } := by
  have hlt := Weak.lt_of_getElem? hb
  have hP : (p : Ptr) ≠ 0 := hp
  have h1 : w + 1 - 1 = w := by omega
  have h2 : w ≠ 0 := by omega
  have h3 : (w - 1 = 0) ↔ w = 1 := by omega
  rcases v with ⟨⟨vb, vp⟩, fl, n, d⟩
  simp only at hd hvb
  subst hd hvb
  by_cases h4 : w = 1
  · subst h4
    simp [SharedPtr.release, hme, State.call, hb, State.deref, hlt, BaseBlock.StrongDec,
      BaseBlock.GetStrongCount, BaseBlock.GetWeakCount, State.WeakInc, State.WeakDec,
      BaseBlock.WeakInc, BaseBlock.WeakDec, ZeroStrongCount, destroyValue, State.getValue,
      hP, hv, WeakPtr.release, State.record, State.setValue, State.delete, bind, Except.bind,
      pure, Except.pure]
  · simp [SharedPtr.release, hme, State.call, hb, State.deref, hlt, BaseBlock.StrongDec,
      BaseBlock.GetStrongCount, BaseBlock.GetWeakCount, State.WeakInc, State.WeakDec,
      BaseBlock.WeakInc, BaseBlock.WeakDec, ZeroStrongCount, destroyValue, State.getValue,
      hP, hv, WeakPtr.release, State.record, State.setValue, State.delete, bind, Except.bind,
      pure, Except.pure, h1, h2, h3, h4]

/-- C21 at the failing input: `SharedFromThis()` on a value that no Owning Handle has
wrapped.  The promotion constructor takes the null block and the null access pointer of the
default-constructed `weak_`, passes both `block_` tests, and then runs `ptr_->SetWeak(*this)`
through the null access pointer.  After the value has been wrapped the call returns a
handle with the wrapping handle's block and the value as access pointer, and the strong
count has gone from 1 to 2.  A block is written
`⟨weak_count_, strong_count_, payload, zeroStrongCalls, deletes⟩`, a value
`⟨weak_, flag_, setWeakIncs, destroyed⟩`. -/
theorem C21_shared_from_this_before_wrapping_faults :
    run State.init [.newValue] =
      .ok { heap := [], shared := [], weak := [], values := [⟨⟨none, 0⟩, false, 0, 0⟩],
            log := [] } ∧
    EnableSharedFromThis.SharedFromThis
      { heap := [], shared := [], weak := [], values := [⟨⟨none, 0⟩, false, 0, 0⟩],
        log := [] } 1 = .error .nullDeref ∧
    run State.init [.newValue, .wrap 1] =
      .ok { heap := [⟨1, 1, .ptrBlock 1, 0, 0⟩], shared := [some ⟨some 0, 1⟩], weak := [],
            values := [⟨⟨some 0, 1⟩, true, 1, 0⟩], log := [.weakInc 0 1] } ∧
    EnableSharedFromThis.SharedFromThis
      { heap := [⟨1, 1, .ptrBlock 1, 0, 0⟩], shared := [some ⟨some 0, 1⟩], weak := [],
        values := [⟨⟨some 0, 1⟩, true, 1, 0⟩], log := [.weakInc 0 1] } 1 =
      .ok { heap := [⟨1, 2, .ptrBlock 1, 0, 0⟩],
            shared := [some ⟨some 0, 1⟩, some ⟨some 0, 1⟩], weak := [],
            values := [⟨⟨some 0, 1⟩, true, 1, 0⟩], log := [.weakInc 0 1] } :=
  ⟨rfl, rfl, rfl, rfl⟩

/-- C22: let the live value at address `p` be wrapped by the Owning Handle `A`, so that its
stored self-observer `weak_` holds the block reference and the access pointer of `A`, as
`SetWeak` stored them, and let the block `b` of `A` be live.  Then `WeakFromThis()` returns a new Observer Handle with the block reference and the
access pointer of `A`; the weak count of `b` is one higher, its strong count and everything
else except the log are unchanged.  And if the strong count of `b` is 0, as it is while the
destructor of the last owner runs the value's teardown, `SharedFromThis()` throws
`BadWeakPtr`. -/
theorem C22_weak_from_this_and_expired_self (s : State) (b p : Nat) (A : SharedPtr)
    (blk : BaseBlock) (v : EnableSharedFromThis) (hA : A.block_ = some b)
    (hp : p ≠ 0) (hv : s.values[p - 1]? = some v) (hd : v.destroyed = 0)
    (hw : v.weak_ = ⟨A.block_, A.ptr_⟩) (hb : s.heap[b]? = some blk)
    (hbd : blk.deletes = 0) :
    EnableSharedFromThis.WeakFromThis s p =
      .ok { s with
        heap := s.heap.set b blk.WeakInc,
        weak := s.weak ++ [some ⟨A.block_, A.ptr_⟩],
        log := s.log ++ [.weakInc b (blk.weak_count_ + 1)] } ∧
    blk.WeakInc.weak_count_ = blk.weak_count_ + 1 ∧
    blk.WeakInc.strong_count_ = blk.strong_count_ ∧
    (blk.strong_count_ = 0 →
      EnableSharedFromThis.SharedFromThis s p = .error .badWeakPtr) := by
  rw [hA] at hw
  rw [hA]
  exact ⟨WeakFromThis_eq (getValue_ok hp hv hd) hw hb hbd, rfl, rfl,
    fun hs => SharedFromThis_expired (getValue_ok hp hv hd) hw hb hbd hs⟩

/-- Witness for C22: the state inside the destruction of the only Owning Handle of a wrapped
value, after `StrongDec` and the `WeakInc` that precedes `ZeroStrongCount`: the strong count
is 0 and the value is not yet destroyed. -/
theorem C22_weak_from_this_and_expired_self_witness :
    EnableSharedFromThis.WeakFromThis
      { heap := [⟨2, 0, .ptrBlock 1, 0, 0⟩], shared := [some ⟨some 0, 1⟩], weak := [],
        values := [⟨⟨some 0, 1⟩, true, 1, 0⟩], log := [] } 1 =
      .ok { heap := [⟨3, 0, .ptrBlock 1, 0, 0⟩], shared := [some ⟨some 0, 1⟩],
            weak := [some ⟨some 0, 1⟩], values := [⟨⟨some 0, 1⟩, true, 1, 0⟩],
            log := [.weakInc 0 3] } ∧
    EnableSharedFromThis.SharedFromThis
      { heap := [⟨2, 0, .ptrBlock 1, 0, 0⟩], shared := [some ⟨some 0, 1⟩], weak := [],
        values := [⟨⟨some 0, 1⟩, true, 1, 0⟩], log := [] } 1 = .error .badWeakPtr :=
  ⟨(C22_weak_from_this_and_expired_self
      { heap := [⟨2, 0, .ptrBlock 1, 0, 0⟩], shared := [some ⟨some 0, 1⟩], weak := [],
        values := [⟨⟨some 0, 1⟩, true, 1, 0⟩], log := [] } 0 1 ⟨some 0, 1⟩
      ⟨2, 0, .ptrBlock 1, 0, 0⟩ ⟨⟨some 0, 1⟩, true, 1, 0⟩ rfl (by decide) rfl rfl rfl
      rfl rfl).1,
   (C22_weak_from_this_and_expired_self
      { heap := [⟨2, 0, .ptrBlock 1, 0, 0⟩], shared := [some ⟨some 0, 1⟩], weak := [],
        values := [⟨⟨some 0, 1⟩, true, 1, 0⟩], log := [] } 0 1 ⟨some 0, 1⟩
      ⟨2, 0, .ptrBlock 1, 0, 0⟩ ⟨⟨some 0, 1⟩, true, 1, 0⟩ rfl (by decide) rfl rfl rfl
      rfl rfl).2.2.2 rfl⟩

/-- The release sequence of a handle of type `SharedPtr<T>`: let handle `i` be the only
Owning Handle of the live block `b` (strong count 1, weak count `w`), let the block own the
live value at `p`, and let the value's stored self-observer refer to `b`, so that `w ≥ 1`
counts it.  Then `~SharedPtr()` and `Reset()` return, and what they do to the block is, in
this order: `WeakInc` (to `w + 1`), entry into `ZeroStrongCount`, the `WeakDec` of the
value's own observer during its teardown (to `w`, not 0, so no `delete` there), exit from
`ZeroStrongCount`, `WeakDec` (to `w - 1`), and then `delete` of the block exactly if `w = 1`,
that is, if there is no other observer.  The value has been destroyed once,
`ZeroStrongCount` has run once more than before, and the block has been deleted once if
`w = 1` and not at all otherwise. -/
theorem capable_release_sequencing (s : State) (i b p : Nat) (q : Ptr) (w : Int) (z : Nat)
    (pl : Payload) (v : EnableSharedFromThis)
    (hi : s.shared[i]? = some (some ⟨some b, q⟩))
    (hb : s.heap[b]? = some ⟨w, 1, pl, z, 0⟩)
    (hpl : pl = .ptrBlock p ∨ pl = .valueBlock p) (hp : p ≠ 0)
    (hv : s.values[p - 1]? = some v) (hd : v.destroyed = 0)
    (hvb : v.weak_.block_ = some b) (hw : 1 ≤ w) :
    ∃ u : State,
      SharedPtr.dtor s i = .ok (u.endShared i) ∧
      SharedPtr.Reset s i = .ok (u.setShared i ⟨none, 0⟩) ∧
      u.log = s.log ++ [.weakInc b (w + 1), .zeroStrongBegin b, .weakDec b w,
                        .zeroStrongEnd b, .weakDec b (w - 1)] ++
              (if w = 1 then [.deleteBlock b] else []) ∧
      u.heap = s.heap.set b
        ⟨w - 1, 0, (BaseBlock.ZeroStrongCount ⟨w, 1, pl, z, 0⟩).payload, z + 1,
          if w = 1 then 1 else 0⟩ ∧
      u.values = s.values.set (p - 1) { v with destroyed := 1 } ∧
      u.shared = s.shared ∧ u.weak = s.weak := by
  rcases hpl with h | h
  · subst h
    have hR := release_last_ptrBlock s (rfl : (SharedPtr.mk (some b) q).block_ = some b) hb hp
      hv hd hvb hw
    refine ⟨{ s with
        heap := s.heap.set b ⟨w - 1, 0, .ptrBlock 0, z + 1, if w = 1 then 1 else 0⟩,
        values := s.values.set (p - 1) { v with destroyed := 1 },
        log := s.log ++ [.weakInc b (w + 1), .zeroStrongBegin b, .weakDec b w,
                         .zeroStrongEnd b, .weakDec b (w - 1)] ++
               (if w = 1 then [.deleteBlock b] else []) }, ?_, ?_, rfl, rfl, rfl, rfl, rfl⟩
    · simp [SharedPtr.dtor, State.getShared, hi, hR, bind, Except.bind, pure, Except.pure]
    · simp [SharedPtr.Reset, State.getShared, hi, hR, bind, Except.bind, pure, Except.pure]
  · subst h
    have hR := release_last_valueBlock s (rfl : (SharedPtr.mk (some b) q).block_ = some b) hb
      hp hv hd hvb hw
    refine ⟨{ s with
        heap := s.heap.set b ⟨w - 1, 0, .valueBlock p, z + 1, if w = 1 then 1 else 0⟩,
        values := s.values.set (p - 1) { v with destroyed := 1 },
        log := s.log ++ [.weakInc b (w + 1), .zeroStrongBegin b, .weakDec b w,
                         .zeroStrongEnd b, .weakDec b (w - 1)] ++
               (if w = 1 then [.deleteBlock b] else []) }, ?_, ?_, rfl, rfl, rfl, rfl, rfl⟩
    · simp [SharedPtr.dtor, State.getShared, hi, hR, bind, Except.bind, pure, Except.pure]
    · simp [SharedPtr.Reset, State.getShared, hi, hR, bind, Except.bind, pure, Except.pure]

/-- An instance: a value wrapped by one handle, no other observer. -/
theorem capable_release_sequencing_example :
    run State.init [.newValue, .wrap 1] =
      .ok { heap := [⟨1, 1, .ptrBlock 1, 0, 0⟩], shared := [some ⟨some 0, 1⟩], weak := [],
            values := [⟨⟨some 0, 1⟩, true, 1, 0⟩], log := [.weakInc 0 1] } ∧
    ∃ u : State,
      SharedPtr.dtor
        { heap := [⟨1, 1, .ptrBlock 1, 0, 0⟩], shared := [some ⟨some 0, 1⟩], weak := [],
          values := [⟨⟨some 0, 1⟩, true, 1, 0⟩], log := [.weakInc 0 1] } 0 =
        .ok (u.endShared 0) ∧
      SharedPtr.Reset
        { heap := [⟨1, 1, .ptrBlock 1, 0, 0⟩], shared := [some ⟨some 0, 1⟩], weak := [],
          values := [⟨⟨some 0, 1⟩, true, 1, 0⟩], log := [.weakInc 0 1] } 0 =
        .ok (u.setShared 0 ⟨none, 0⟩) ∧
      u.log = [.weakInc 0 1] ++ [.weakInc 0 (1 + 1), .zeroStrongBegin 0, .weakDec 0 1,
                        .zeroStrongEnd 0, .weakDec 0 (1 - 1)] ++
              (if (1 : Int) = 1 then [.deleteBlock 0] else []) ∧
      u.heap = [(⟨1, 1, .ptrBlock 1, 0, 0⟩ : BaseBlock)].set 0
        ⟨1 - 1, 0, (BaseBlock.ZeroStrongCount ⟨1, 1, .ptrBlock 1, 0, 0⟩).payload, 0 + 1,
          if (1 : Int) = 1 then 1 else 0⟩ ∧
      u.values = [(⟨⟨some 0, 1⟩, true, 1, 0⟩ : EnableSharedFromThis)].set (1 - 1)
        { (⟨⟨some 0, 1⟩, true, 1, 0⟩ : EnableSharedFromThis) with destroyed := 1 } ∧
      u.shared = [some ⟨some 0, 1⟩] ∧ u.weak = [] :=
  ⟨rfl, capable_release_sequencing
    { heap := [⟨1, 1, .ptrBlock 1, 0, 0⟩], shared := [some ⟨some 0, 1⟩], weak := [],
      values := [⟨⟨some 0, 1⟩, true, 1, 0⟩], log := [.weakInc 0 1] } 0 0 1 1 1 0
    (.ptrBlock 1) ⟨⟨some 0, 1⟩, true, 1, 0⟩ rfl rfl (Or.inl rfl) (by decide) rfl rfl rfl
    (by decide)⟩

/-- C24 at the failing input: `struct T : EnableSharedFromThis<T> { Field f; };
SharedPtr<T> a(new T); SharedPtr<Field> f(a, &a->f); a.Reset();` and then the destruction
(or `Reset()`) of `f`.  The value is registered with its block (weak count 1), and the last
Owning Handle of the block is `f`, whose value type `Field` lacks the capability: in its
`~SharedPtr()` the two `if constexpr` statements are discarded.  So the weak count is not
raised before `ZeroStrongCount`; the teardown of the value destroys the stored
self-observer, the weak count drops to 0 with the strong count at 0, and that `~WeakPtr()`
deletes the block inside `ZeroStrongCount`; the write of `ptr_` that follows, and for a
`MakeShared` value the read of the weak count in `~SharedPtr()`, access the deleted block.
When the last owner is of type `SharedPtr<T>` the same block is released in the claimed
order.  Address 9 stands for `&a->f`.  A block is written
`⟨weak_count_, strong_count_, payload, zeroStrongCalls, deletes⟩`, a value
`⟨weak_, flag_, setWeakIncs, destroyed⟩`. -/
theorem C24_last_owner_without_capability_skips_borrow :
    (run State.init [.newValue, .wrap 1] >>= fun s =>
      SharedPtr.ctor_alias_plain s 0 9 >>= fun s => SharedPtr.Reset s 0) =
      .ok { heap := [⟨1, 1, .ptrBlock 1, 0, 0⟩],
            shared := [some ⟨none, 0⟩, some ⟨some 0, 9⟩], weak := [],
            values := [⟨⟨some 0, 1⟩, true, 1, 0⟩], log := [.weakInc 0 1] } ∧
    SharedPtr.dtor_plain
      { heap := [⟨1, 1, .ptrBlock 1, 0, 0⟩],
        shared := [some ⟨none, 0⟩, some ⟨some 0, 9⟩], weak := [],
        values := [⟨⟨some 0, 1⟩, true, 1, 0⟩], log := [.weakInc 0 1] } 1 =
      .error .useAfterFree ∧
    SharedPtr.Reset_plain
      { heap := [⟨1, 1, .ptrBlock 1, 0, 0⟩],
        shared := [some ⟨none, 0⟩, some ⟨some 0, 9⟩], weak := [],
        values := [⟨⟨some 0, 1⟩, true, 1, 0⟩], log := [.weakInc 0 1] } 1 =
      .error .useAfterFree ∧
    destroyValue
      { heap := [⟨1, 0, .ptrBlock 1, 1, 0⟩],
        shared := [some ⟨none, 0⟩, some ⟨some 0, 9⟩], weak := [],
        values := [⟨⟨some 0, 1⟩, true, 1, 0⟩],
        log := [.weakInc 0 1, .zeroStrongBegin 0] } 1 =
      .ok { heap := [⟨0, 0, .ptrBlock 1, 1, 1⟩],
            shared := [some ⟨none, 0⟩, some ⟨some 0, 9⟩], weak := [],
            values := [⟨⟨some 0, 1⟩, true, 1, 1⟩],
            log := [.weakInc 0 1, .zeroStrongBegin 0, .weakDec 0 0, .deleteBlock 0] } ∧
    (run State.init [.make] >>= fun s =>
      SharedPtr.ctor_alias_plain s 0 9 >>= fun s => SharedPtr.Reset s 0) =
      .ok { heap := [⟨1, 1, .valueBlock 1, 0, 0⟩],
            shared := [some ⟨none, 0⟩, some ⟨some 0, 9⟩], weak := [],
            values := [⟨⟨some 0, 1⟩, true, 1, 0⟩], log := [.weakInc 0 1] } ∧
    ZeroStrongCount
      { heap := [⟨1, 0, .valueBlock 1, 0, 0⟩],
        shared := [some ⟨none, 0⟩, some ⟨some 0, 9⟩], weak := [],
        values := [⟨⟨some 0, 1⟩, true, 1, 0⟩], log := [.weakInc 0 1] } (some 0) =
      .ok { heap := [⟨0, 0, .valueBlock 1, 1, 1⟩],
            shared := [some ⟨none, 0⟩, some ⟨some 0, 9⟩], weak := [],
            values := [⟨⟨some 0, 1⟩, true, 1, 1⟩],
            log := [.weakInc 0 1, .zeroStrongBegin 0, .weakDec 0 0, .deleteBlock 0,
                    .zeroStrongEnd 0] } ∧
    SharedPtr.dtor_plain
      { heap := [⟨1, 1, .valueBlock 1, 0, 0⟩],
        shared := [some ⟨none, 0⟩, some ⟨some 0, 9⟩], weak := [],
        values := [⟨⟨some 0, 1⟩, true, 1, 0⟩], log := [.weakInc 0 1] } 1 =
      .error .useAfterFree ∧
    SharedPtr.dtor
      { heap := [⟨1, 1, .ptrBlock 1, 0, 0⟩],
        shared := [some ⟨none, 0⟩, some ⟨some 0, 9⟩], weak := [],
        values := [⟨⟨some 0, 1⟩, true, 1, 0⟩], log := [.weakInc 0 1] } 1 =
      .ok { heap := [⟨0, 0, .ptrBlock 0, 1, 1⟩],
            shared := [some ⟨none, 0⟩, none], weak := [],
            values := [⟨⟨some 0, 1⟩, true, 1, 1⟩],
            log := [.weakInc 0 1, .weakInc 0 2, .zeroStrongBegin 0, .weakDec 0 1,
                    .zeroStrongEnd 0, .weakDec 0 0, .deleteBlock 0] } :=
  ⟨rfl, rfl, rfl, rfl, rfl, rfl, rfl, rfl⟩

end SelfRef

namespace Weak

/-- C28: in every state a program reaches (Owning and Observer Handle operations in any
order), the weak count of every block that has not been freed is the number of live Observer
Handles whose block reference is that block, so it is never negative.  Demotion
`WeakPtr(const SharedPtr&)` of a live Owning Handle returns, the new observer has the
handle's block pointer and access pointer, a non-null block gets its weak count raised by
exactly 1 and keeps its strong count, and no other block changes.  Moving an observer
transfers its two fields, empties the source and leaves the free store as it is. -/
theorem C28_weak_count_is_number_of_observers (ops : List Op) (s : State)
    (hrun : run State.init ops = .ok s) :
    (∀ (b : Nat) (blk : BaseBlock), s.heap[b]? = some blk → blk.deletes = 0 →
      blk.weak_count_ = s.observers b ∧ 0 ≤ blk.weak_count_) ∧
    (∀ (j : Nat) (o : SharedPtr), s.shared[j]? = some (some o) →
      ∃ t, WeakPtr.ctor_shared s j = .ok t ∧
        t.weak = s.weak ++ [some ⟨o.block_, o.ptr_⟩] ∧ t.shared = s.shared ∧
        (o.block_ = none → t.heap = s.heap) ∧
        (∀ b blk, o.block_ = some b → s.heap[b]? = some blk →
          (∃ blk', t.heap[b]? = some blk' ∧ blk'.weak_count_ = blk.weak_count_ + 1 ∧
            blk'.strong_count_ = blk.strong_count_) ∧
          ∀ c, c ≠ b → t.heap[c]? = s.heap[c]?)) ∧
    (∀ (j : Nat) (o : WeakPtr), s.weak[j]? = some (some o) →
      ∃ t, WeakPtr.ctor_move s j = .ok t ∧ t.heap = s.heap ∧ t.shared = s.shared ∧
        t.weak = s.weak.set j (some ⟨none, 0⟩) ++ [some o]) := by
  obtain ⟨hI, _, _⟩ := run_good Inv.init ops hrun
  refine ⟨?_, ?_, ?_⟩
  · intro b blk hb _
    have hB := hI.block hb
    exact ⟨hB.weak, by rw [hB.weak]; omega⟩
  · intro j o hj
    rcases o with ⟨_ | b, p⟩
    · exact ⟨_, weak_ctor_shared_none hj, rfl, rfl, fun _ => rfl, fun b blk h => by cases h⟩
    · obtain ⟨blk, h2, h3, _, _⟩ := hI.owner_block hj
      refine ⟨_, weak_ctor_shared_some hj h2 h3, rfl, rfl, (fun h => by cases h), ?_⟩
      intro b' blk' h1 hb'
      cases h1
      rw [h2] at hb'
      cases hb'
      refine ⟨⟨blk.WeakInc, by simp [lt_of_getElem? h2], rfl, rfl⟩, fun c hc => ?_⟩
      simp [List.getElem?_set_ne (Ne.symm hc)]
  · intro j o hj
    exact ⟨_, weak_ctor_move_eq hj, rfl, rfl, rfl⟩

/-- Witness for C28: wrap, demote twice, move one observer, destroy the other. -/
theorem C28_weak_count_is_number_of_observers_witness :
    run State.init [Op.sharedPtr 7, Op.weakFromShared 0, Op.weakCopy 0, Op.weakMove 1,
        Op.weakDtor 0] =
      .ok { heap := [⟨1, 1, .ptrBlock 7, 0, 0⟩], shared := [some ⟨some 0, 7⟩],
            weak := [none, some ⟨none, 0⟩, some ⟨some 0, 7⟩] } ∧
    ∀ (b : Nat) (blk : BaseBlock),
      (State.mk [⟨1, 1, .ptrBlock 7, 0, 0⟩] [some ⟨some 0, 7⟩]
        [none, some ⟨none, 0⟩, some ⟨some 0, 7⟩]).heap[b]? = some blk → blk.deletes = 0 →
      blk.weak_count_ = (State.mk [⟨1, 1, .ptrBlock 7, 0, 0⟩] [some ⟨some 0, 7⟩]
        [none, some ⟨none, 0⟩, some ⟨some 0, 7⟩]).observers b ∧ 0 ≤ blk.weak_count_ :=
  ⟨rfl, (C28_weak_count_is_number_of_observers
    [Op.sharedPtr 7, Op.weakFromShared 0, Op.weakCopy 0, Op.weakMove 1, Op.weakDtor 0] _
    rfl).1⟩

/-- The guarded promotion of the self-reference-aware header, applied to an empty Observer
Handle: an empty Owning Handle, no count touched. -/
theorem ctor_weak_guarded_null {s : State} {w : Nat} {p : Ptr}
    (hw : s.weak[w]? = some (some ⟨none, p⟩)) :
    SharedPtr.ctor_weak_guarded s w =
      .ok { s with shared := (s.shared ++ [some ⟨none, p⟩]) } := by
  simp [SharedPtr.ctor_weak_guarded, State.getWeak, hw, bind, Except.bind, State.newShared,
    pure, Except.pure]

/-- C30 at the failing input: promoting an empty Observer Handle.  The constructor of the
dual-count header evaluates `block_->GetStrongCount()` with `block_ == nullptr` (lemma
`ctor_weak_null` for every state); the constructor of the self-reference-aware header tests
`block_` first and returns an empty Owning Handle with the free store unchanged. -/
theorem C30_promotion_of_empty_observer_reads_null :
    run State.init [.weakDefault] = .ok { heap := [], shared := [], weak := [some ⟨none, 0⟩] } ∧
    SharedPtr.ctor_weak { heap := [], shared := [], weak := [some ⟨none, 0⟩] } 0 =
      .error .nullDeref ∧
    run State.init [.weakDefault, .sharedFromWeak 0] = .error .nullDeref ∧
    SharedPtr.ctor_weak_guarded { heap := [], shared := [], weak := [some ⟨none, 0⟩] } 0 =
      .ok { heap := [], shared := [some ⟨none, 0⟩], weak := [some ⟨none, 0⟩] } :=
  ⟨rfl, rfl, rfl, rfl⟩

/-- C31 as stated fails: in the trace of the `ValueBlock` constructor, run on fresh storage,
the counter writes do not precede the placement construction; the constructor of `T` runs
while both counters are still unwritten. -/
theorem C31_counters_are_not_written_first :
    countersWrittenFirst false false (ValueBlock.ctor_body ValueBlockStorage.raw).trace =
      false ∧
    (ValueBlock.ctor_body ValueBlockStorage.raw).trace.head? =
      some (.placementNew none none) :=
  ⟨rfl, rfl⟩

/-- C31, amended: the `ValueBlock` constructor constructs the value in the embedded storage
first and writes the two counters afterwards.  Whatever the storage holds on entry, the
statements executed are the placement construction, which finds the counters as they were
on entry, then the write of 0 to the weak count, then the write of 0 to the strong count;
on fresh storage the value is thus constructed before any counter is written.  When the
constructor returns, the value is constructed and both counters are 0: the finished block is
the block that `MakeShared` goes on to use. -/
theorem C31_value_block_constructor_order (b : ValueBlockStorage) (addr : Ptr) :
    (ValueBlock.ctor_body b).trace =
      b.trace ++ [.placementNew b.weak_count_ b.strong_count_, .writeWeakCount 0,
                  .writeStrongCount 0] ∧
    (ValueBlock.ctor_body ValueBlockStorage.raw).trace =
      [.placementNew none none, .writeWeakCount 0, .writeStrongCount 0] ∧
    valueConstructedFirst false (ValueBlock.ctor_body ValueBlockStorage.raw).trace = true ∧
    (ValueBlock.ctor_body b).constructed = true ∧
    (ValueBlock.ctor_body b).weak_count_ = some 0 ∧
    (ValueBlock.ctor_body b).strong_count_ = some 0 ∧
    (ValueBlock.ctor_body b).finish addr = some (ValueBlock.ctor addr) := by
  refine ⟨?_, rfl, rfl, rfl, rfl, rfl, rfl⟩
  simp [ValueBlock.ctor_body, ValueBlockStorage.placementNew, ValueBlockStorage.setWeakCount,
    ValueBlockStorage.setStrongCount]

/-- When the destructor of the value touches no handle, the spelled-out `ZeroStrongCount` is
the plain one. -/
theorem ZeroStrongCount_running_pure (s : State) (bp : BlockPtr) :
    ZeroStrongCount_running pure s bp = s.call bp BaseBlock.ZeroStrongCount := by
  rcases bp with _ | b
  · rfl
  · rcases h : s.heap[b]? with _ | blk
    · simp [ZeroStrongCount_running, State.deref, State.call, h, bind, Except.bind]
    · by_cases hd : blk.deletes = 0
      · rcases hp : blk.payload with p | a
        · by_cases h0 : p = 0 <;>
            simp [ZeroStrongCount_running, State.deref, State.call, h, hd, hp, h0, bind,
              Except.bind, pure, Except.pure]
        · simp [ZeroStrongCount_running, State.deref, State.call, h, hd, hp, bind,
            Except.bind, pure, Except.pure]
      · simp [ZeroStrongCount_running, State.deref, State.call, h, hd, bind, Except.bind]

/-- For a value whose destructor touches no handle, the destructor with the teardown spelled
out is `~SharedPtr()` as modelled before. -/
theorem dtor_running_pure (s : State) (i : Nat) :
    SharedPtr.dtor_running pure s i = SharedPtr.dtor s i := by
  simp only [SharedPtr.dtor_running, SharedPtr.dtor, ZeroStrongCount_running_pure]

/-- The same for `Reset()`. -/
theorem Reset_running_pure (s : State) (i : Nat) :
    SharedPtr.Reset_running pure s i = SharedPtr.Reset s i := by
  simp only [SharedPtr.Reset_running, SharedPtr.Reset, ZeroStrongCount_running_pure]

/-- C3 at the failing input: a value that holds an Observer Handle to its own block,
`struct Node { WeakPtr<Node> self; }; SharedPtr<Node> p(new Node); p->self = p;`, and then
the destruction of `p`.  Observer 0 is the member `self`, observer 1 the temporary of the
assignment.  `~SharedPtr()` takes the strong count to 0 and calls `ZeroStrongCount`, whose
`delete ptr_` runs `~Node()` and with it `~WeakPtr()` of `self`: the weak count drops to 0,
both counts are 0, and that destructor deletes the block while the release of the value is
still running (`ptr_` not yet nulled, the `ZeroStrongCount` call not yet over).
`ZeroStrongCount` then writes `ptr_` and `~SharedPtr()` reads the weak count of the deleted
block.  `Reset()` does the same, and so does a value made by `MakeShared`.  The destructor of
the self-reference-aware header, which raises the weak count around `ZeroStrongCount`,
returns on the same state with the block deleted once, after the value was released.
A block is written `⟨weak_count_, strong_count_, payload, zeroStrongCalls, deletes⟩`. -/
theorem C3_block_deleted_during_value_teardown :
    run State.init [.weakDefault, .sharedPtr 7, .weakFromShared 0, .weakAssignMove 0 1,
        .weakDtor 1] =
      .ok { heap := [⟨1, 1, .ptrBlock 7, 0, 0⟩], shared := [some ⟨some 0, 7⟩],
            weak := [some ⟨some 0, 7⟩, none] } ∧
    WeakPtr.dtor
        { heap := [⟨1, 0, .ptrBlock 7, 0, 0⟩], shared := [some ⟨some 0, 7⟩],
          weak := [some ⟨some 0, 7⟩, none] } 0 =
      .ok { heap := [⟨0, 0, .ptrBlock 7, 0, 1⟩], shared := [some ⟨some 0, 7⟩],
            weak := [none, none] } ∧
    ZeroStrongCount_running (fun s => WeakPtr.dtor s 0)
        { heap := [⟨1, 0, .ptrBlock 7, 0, 0⟩], shared := [some ⟨some 0, 7⟩],
          weak := [some ⟨some 0, 7⟩, none] } (some 0) = .error .useAfterFree ∧
    SharedPtr.dtor_running (fun s => WeakPtr.dtor s 0)
        { heap := [⟨1, 1, .ptrBlock 7, 0, 0⟩], shared := [some ⟨some 0, 7⟩],
          weak := [some ⟨some 0, 7⟩, none] } 0 = .error .useAfterFree ∧
    SharedPtr.Reset_running (fun s => WeakPtr.dtor s 0)
        { heap := [⟨1, 1, .ptrBlock 7, 0, 0⟩], shared := [some ⟨some 0, 7⟩],
          weak := [some ⟨some 0, 7⟩, none] } 0 = .error .useAfterFree ∧
    run State.init [.weakDefault, .makeShared 7, .weakFromShared 0, .weakAssignMove 0 1,
        .weakDtor 1] =
      .ok { heap := [⟨1, 1, .valueBlock 7, 0, 0⟩], shared := [some ⟨some 0, 7⟩],
            weak := [some ⟨some 0, 7⟩, none] } ∧
    ZeroStrongCount_running (fun s => WeakPtr.dtor s 0)
        { heap := [⟨1, 0, .valueBlock 7, 0, 0⟩], shared := [some ⟨some 0, 7⟩],
          weak := [some ⟨some 0, 7⟩, none] } (some 0) =
      .ok { heap := [⟨0, 0, .valueBlock 7, 1, 1⟩], shared := [some ⟨some 0, 7⟩],
            weak := [none, none] } ∧
    SharedPtr.dtor_running (fun s => WeakPtr.dtor s 0)
        { heap := [⟨1, 1, .valueBlock 7, 0, 0⟩], shared := [some ⟨some 0, 7⟩],
          weak := [some ⟨some 0, 7⟩, none] } 0 = .error .useAfterFree ∧
    SharedFromThis.dtor true (ZeroStrongCount_running (fun s => WeakPtr.dtor s 0))
        { heap := [⟨1, 1, .ptrBlock 7, 0, 0⟩], shared := [some ⟨some 0, 7⟩],
          weak := [some ⟨some 0, 7⟩, none] } 0 =
      .ok { heap := [⟨0, 0, .ptrBlock 0, 1, 1⟩], shared := [none], weak := [none, none] } :=
  ⟨rfl, rfl, rfl, rfl, rfl, rfl, rfl, rfl, rfl⟩

end Weak
